import Mathlib

/-!
# InvalidTargetFinderProcessor

A shallow embedding of `Source/ProjectM/Private/InvalidTargetFinderProcessor.cpp`
and the properties of its target-validation pipeline.

Conventions of the embedding.

* A finite `float` or `double` is the rational number it denotes, and the
  comparison of two such values is the order of the rationals. Rounded
  arithmetic is not evaluated here: the `double` that `FVector::Size()`
  returns is the external function `VectorSize`, of which nothing is assumed.
  It is applied to the exact difference of the two locations, of which the
  rounded difference that the engine forms is a function. The same holds for
  the other vector arithmetic of the file, whose results only feed external
  functions (`GetSafeNormal`, the grid query).
* Engine containers are lists: `TArray` and `TQueue` are lists in insertion
  order, `TSet` is a list without duplicates in insertion order.
* Parallel loops run their bodies in iteration order.
* A violated engine check (`check`, a checked container access, a null
  subsystem dereference) is the result `none`.
* Functions of the project that are declared in headers outside this file
  (`GetEntityRange`, `CanEntityDamageTargetEntity`, the capsule helpers, the
  visibility trace) are fields of `FExternals`.
-/

namespace ProjectM

/-! ## Engine value types -/

/-- Entity handle of the entity store: index and serial number. -/
structure FMassEntityHandle where
  Index : Int
  SerialNumber : Int
deriving DecidableEq, Repr

/-- Engine `FMassEntityHandle::Reset`: both components become zero. -/
def FMassEntityHandle.Reset (_h : FMassEntityHandle) : FMassEntityHandle :=
  { Index := 0, SerialNumber := 0 }

/-- Three-component vector. -/
structure FVector where
  X : ℚ
  Y : ℚ
  Z : ℚ
deriving DecidableEq

/-- Engine `FVector::operator-`. -/
def FVector.sub (a b : FVector) : FVector :=
  { X := a.X - b.X, Y := a.Y - b.Y, Z := a.Z - b.Z }

/-- Engine `FVector::operator+`. -/
def FVector.add (a b : FVector) : FVector :=
  { X := a.X + b.X, Y := a.Y + b.Y, Z := a.Z + b.Z }

/-- Engine `FVector::ComponentMin`. -/
def FVector.ComponentMin (a b : FVector) : FVector :=
  { X := min a.X b.X, Y := min a.Y b.Y, Z := min a.Z b.Z }

/-- Engine `FVector::ComponentMax`. -/
def FVector.ComponentMax (a b : FVector) : FVector :=
  { X := max a.X b.X, Y := max a.Y b.Y, Z := max a.Z b.Z }

/-- Axis-aligned box. -/
structure FBox where
  Min : FVector
  Max : FVector
deriving DecidableEq

/-- Rotation quaternion. -/
structure FQuat where
  X : ℚ
  Y : ℚ
  Z : ℚ
  W : ℚ
deriving DecidableEq

/-- Transform: rotation, translation and scale. -/
structure FTransform where
  Rotation : FQuat
  Translation : FVector
  Scale3D : FVector
deriving DecidableEq

/-- Engine `FTransform::GetLocation`. -/
def FTransform.GetLocation (t : FTransform) : FVector :=
  t.Translation

/-- Capsule given by its two end points and its radius. -/
structure FCapsule where
  a : FVector
  b : FVector
  r : ℚ
deriving DecidableEq

/-- Movement action kinds of the navigation module. -/
inductive EMassMovementAction where
  | Stand
  | Move
  | Animate
deriving DecidableEq, Repr

/-- The world as far as this file reads it: the current time. -/
structure UWorld where
  TimeSeconds : ℚ
deriving DecidableEq

/-- Engine `FMassInt16Real`: a real quantised to a 16-bit integer. -/
structure FMassInt16Real where
  Value : Int
deriving DecidableEq

/-- Engine `FMassInt16Real::Set`: round to the nearest integer and clamp to the
16-bit range. -/
def FMassInt16Real.Set (v : ℚ) : FMassInt16Real :=
  { Value := max (-32767) (min 32767 (Int.floor (v + 1 / 2))) }

/-! ## Fragments -/

/-- Movement order (`FMassMoveTargetFragment`). The nine public fields of the
data model, followed by the bookkeeping that `CreateNewAction` maintains. -/
structure FMassMoveTargetFragment where
  CurrentAction : EMassMovementAction
  Center : FVector
  Forward : FVector
  DistanceToGoal : ℚ
  DesiredSpeed : FMassInt16Real
  SlackRadius : ℚ
  bOffBoundaries : Bool
  bSteeringFallingBehind : Bool
  IntentAtGoal : EMassMovementAction
  PreviousAction : EMassMovementAction
  CurrentActionID : Nat
  CurrentActionWorldStartTime : ℚ
  CurrentActionServerStartTime : ℚ
  bNetDirty : Bool
deriving DecidableEq

/-- Engine `FMassMoveTargetFragment::GetCurrentAction`. -/
def FMassMoveTargetFragment.GetCurrentAction (m : FMassMoveTargetFragment) :
    EMassMovementAction :=
  m.CurrentAction

/-- Engine `FMassMoveTargetFragment::CreateNewAction`: the previous action is
remembered, the 16-bit action id is incremented, the start times are taken
from the world and the fragment is marked dirty. -/
def FMassMoveTargetFragment.CreateNewAction (m : FMassMoveTargetFragment)
    (InAction : EMassMovementAction) (World : UWorld) : FMassMoveTargetFragment :=
  { m with
    PreviousAction := m.CurrentAction
    CurrentAction := InAction
    CurrentActionID := (m.CurrentActionID + 1) % 65536
    CurrentActionWorldStartTime := World.TimeSeconds
    CurrentActionServerStartTime := World.TimeSeconds
    bNetDirty := true }

/-- The stashed movement order has the layout of the active one. -/
abbrev FMassStashedMoveTargetFragment := FMassMoveTargetFragment

/-- Modelled from the spec: a navigation step, whose declaration
(`MassNavMeshMoveProcessor.h`) is not in this file: position, forward
direction and action kind. -/
structure FNavigationAction where
  TargetLocation : FVector
  Forward : FVector
  Action : EMassMovementAction
deriving DecidableEq

/-- Modelled from the spec: the navigation plan, whose declaration
(`MassNavMeshMoveProcessor.h`) is not in this file: the ordered action list,
the remaining count and the cursor into the list. -/
structure FMassNavMeshMoveFragment where
  Actions : List FNavigationAction
  CurrentActionIndex : Int
  ActionsRemaining : Int
deriving DecidableEq

/-- Engine `TArray::Insert(Item, Index)`: the index is range-checked against
`0 ≤ Index ≤ Num`; the item lands in front of the element at `Index`. -/
def TArrayInsert {α : Type} (l : List α) (Item : α) (Index : Int) : Option (List α) :=
  if 0 ≤ Index ∧ Index ≤ (l.length : Int) then
    some (l.take Index.toNat ++ Item :: l.drop Index.toNat)
  else
    none

/-! ## Validation jobs and the functions declared outside this file -/

/-- Spatial-grid item of the target finder. -/
structure FMassTargetGridItem where
  Entity : FMassEntityHandle
  bIsOnTeam1 : Bool
  MinCaliberForDamage : ℚ
deriving DecidableEq

/-- Validation job, the struct `FProcessEntityData` (lines 221-230). -/
structure FProcessEntityData where
  Entity : FMassEntityHandle
  TargetEntity : FMassEntityHandle
  TargetMinCaliberForDamage : ℚ
  EntityTransform : FTransform
  bIsEntityOnTeam1 : Bool
  bIsEntitySoldier : Bool
  bOnlyCheckIfTargetEntityValidInEntitySubsystem : Bool
deriving DecidableEq

/-- The functions this file calls and does not define, and the indeterminate
values it reads. -/
structure FExternals where
  /-- The contents of a default-initialised `FProcessEntityData` local in the
  loop iteration of the given entity: the fields without an initialiser hold
  whatever this record holds. -/
  DefaultProcessEntityData : FMassEntityHandle → FProcessEntityData
  /-- Project function `GetEntityRange(bIsEntitySoldier)`. -/
  GetEntityRange : Bool → ℚ
  /-- Project function `CanEntityDamageTargetEntity(TargetMinCaliberForDamage, Caliber)`. -/
  CanEntityDamageTargetEntity : ℚ → ℚ → Bool
  /-- Project function `GetProjectileTraceCapsuleToTarget(bIsEntitySoldier, bIsTargetEntitySoldier,
  EntityTransform, TargetEntityLocation)`. -/
  GetProjectileTraceCapsuleToTarget : Bool → Bool → FTransform → FVector → FCapsule
  /-- Project function `TestCapsuleCapsule(Capsule1, Capsule2)`. -/
  TestCapsuleCapsule : FCapsule → FCapsule → Bool
  /-- Project function `IsTargetEntityVisibleViaSphereTrace(World, Start, End, false)`. -/
  IsTargetEntityVisibleViaSphereTrace : FVector → FVector → Bool
  /-- Engine `FVector::GetSafeNormal`. -/
  GetSafeNormal : FVector → FVector
  /-- Engine `FVector::Size`: the `double` the engine returns for the length of
  a vector, rounding included. An infinite result is any value above every
  `float`. -/
  VectorSize : FVector → ℚ

/-! ## Stash restoration -/

/-- Source function `CopyMoveTarget` (lines 44-56). -/
def CopyMoveTarget (Source Destination : FMassMoveTargetFragment) (World : UWorld) :
    FMassMoveTargetFragment :=
  let d := Destination.CreateNewAction Source.GetCurrentAction World
  let d := { d with bOffBoundaries := Source.bOffBoundaries }
  let d := { d with Center := Source.Center }
  let d := { d with Forward := Source.Forward }
  let d := { d with DistanceToGoal := Source.DistanceToGoal }
  let d := { d with DesiredSpeed := Source.DesiredSpeed }
  let d := { d with SlackRadius := Source.SlackRadius }
  let d := { d with bOffBoundaries := Source.bOffBoundaries }
  let d := { d with bSteeringFallingBehind := Source.bSteeringFallingBehind }
  { d with IntentAtGoal := Source.IntentAtGoal }

/-- Source function `UnstashMoveTarget` (lines 16-42). `bIsInNavMeshMove` is the value of
`Context.DoesArchetypeHaveTag<FMassNeedsNavMeshMoveTag>()`. The result is the
new destination order and the new navigation plan; `none` when an `Insert`
fails its range check. -/
def UnstashMoveTarget (ext : FExternals) (Source Destination : FMassMoveTargetFragment)
    (World : UWorld) (bIsInNavMeshMove : Bool)
    (NavMeshMoveFragment : FMassNavMeshMoveFragment) (EntityTransform : FTransform) :
    Option (FMassMoveTargetFragment × FMassNavMeshMoveFragment) :=
  if bIsInNavMeshMove then
    let EntityLocation := EntityTransform.GetLocation
    let ForwardToNewMoveTarget := ext.GetSafeNormal (Source.Center.sub EntityLocation)
    (TArrayInsert NavMeshMoveFragment.Actions
        { TargetLocation := EntityLocation, Forward := ForwardToNewMoveTarget,
          Action := EMassMovementAction.Stand }
        NavMeshMoveFragment.CurrentActionIndex).bind fun Actions1 =>
    (TArrayInsert Actions1
        { TargetLocation := Source.Center, Forward := ForwardToNewMoveTarget,
          Action := EMassMovementAction.Move }
        (NavMeshMoveFragment.CurrentActionIndex + 1)).bind fun Actions2 =>
    (TArrayInsert Actions2
        { TargetLocation := Source.Center, Forward := Source.Forward,
          Action := EMassMovementAction.Stand }
        (NavMeshMoveFragment.CurrentActionIndex + 2)).bind fun Actions3 =>
    let nav : FMassNavMeshMoveFragment :=
      { NavMeshMoveFragment with
        Actions := Actions3
        ActionsRemaining := NavMeshMoveFragment.ActionsRemaining + 3 }
    let d := Destination.CreateNewAction EMassMovementAction.Stand World
    let d := { d with Center := EntityLocation }
    let d := { d with Forward := ForwardToNewMoveTarget }
    let d := { d with DistanceToGoal := 0 }
    let d := { d with bOffBoundaries := true }
    let d := { d with DesiredSpeed := FMassInt16Real.Set 0 }
    let d := { d with IntentAtGoal := EMassMovementAction.Move }
    some (d, nav)
  else
    some (CopyMoveTarget Source Destination World, NavMeshMoveFragment)

/-! ## Range check -/

/-- Source function `IsTargetEntityOutOfRange` (lines 87-106). The entity subsystem and the
entity handle only feed the debug drawing, which is compiled out. The distance
is the `double` of `FVector::Size()`, the range a `float`; the source compares
them with `>`. -/
def IsTargetEntityOutOfRange (ext : FExternals) (TargetEntityLocation EntityLocation : FVector)
    (_Entity : FMassEntityHandle) (bIsEntitySoldier : Bool) : Bool :=
  let DistanceBetweenEntities := ext.VectorSize (TargetEntityLocation.sub EntityLocation)
  let MaxRange := ext.GetEntityRange bIsEntitySoldier
  decide (DistanceBetweenEntities > MaxRange)

/-! ## Entity store, spatial index, signals -/

/-- Target reference fragment: target identity and the minimum caliber needed
to damage it. -/
structure FTargetEntityFragment where
  Entity : FMassEntityHandle
  TargetMinCaliberForDamage : ℚ
deriving DecidableEq

/-- Team membership fragment. -/
structure FTeamMemberFragment where
  IsOnTeam1 : Bool
deriving DecidableEq

/-- Transform fragment. -/
structure FTransformFragment where
  Transform : FTransform
deriving DecidableEq

/-- Engine `FTransformFragment::GetTransform`. -/
def FTransformFragment.GetTransform (f : FTransformFragment) : FTransform :=
  f.Transform

/-- The tags this file reads or schedules. -/
inductive FTag where
  | FMassWillNeedEnemyTargetTag
  | FMassTrackTargetTag
  | FMassNeedsEnemyTargetTag
  | FMassHasStashedMoveTargetTag
  | FMassNeedsNavMeshMoveTag
  | FMassProjectileDamagableSoldierTag
deriving DecidableEq, Repr

/-- An entity of the store with its archetype: the tags it carries and the
fragments it has (`none` for a fragment the archetype lacks). -/
structure FEntity where
  Handle : FMassEntityHandle
  Tags : List FTag
  Transform : Option FTransformFragment
  TargetEntity : Option FTargetEntityFragment
  TeamMember : Option FTeamMemberFragment
  StashedMoveTarget : Option FMassStashedMoveTargetFragment
  MoveTarget : Option FMassMoveTargetFragment
  NavMeshMove : Option FMassNavMeshMoveFragment
deriving DecidableEq

/-- Tag presence on the archetype of an entity (`DoesArchetypeHaveTag`,
`FMassEntityView::HasTag`). -/
def FEntity.HasTag (e : FEntity) (t : FTag) : Bool :=
  e.Tags.contains t

/-- The entity store: its entities in iteration order, and the world. -/
structure UMassEntitySubsystem where
  Entities : List FEntity
  World : UWorld
deriving DecidableEq

/-- Engine `UMassEntitySubsystem::IsEntityValid`: the handle names an entity of
the store. -/
def UMassEntitySubsystem.IsEntityValid (es : UMassEntitySubsystem)
    (h : FMassEntityHandle) : Bool :=
  es.Entities.any fun e => decide (e.Handle = h)

/-- Engine `FMassEntityView(EntitySubsystem, Entity)`: the entity the handle
names. -/
def UMassEntitySubsystem.View (es : UMassEntitySubsystem)
    (h : FMassEntityHandle) : Option FEntity :=
  es.Entities.find? fun e => decide (e.Handle = h)

/-- Modelled from the spec: the per-identity record of the spatial index
(`MassTargetFinderSubsystem.h` is not in this file): its capsule. -/
structure FMassTargetDynamicData where
  Capsule : FCapsule
deriving DecidableEq

/-- Modelled from the spec: the target finder subsystem
(`MassTargetFinderSubsystem.h` is not in this file): the broad-phase query of
the target grid and the map of dynamic data. -/
structure UMassTargetFinderSubsystem where
  /-- The result of `GetTargetGrid().Query(Bounds, Out)`. -/
  Query : FBox → List FMassTargetGridItem
  /-- The map `GetTargetDynamicData()`. -/
  TargetDynamicData : FMassEntityHandle → Option FMassTargetDynamicData

/-- Signal names. -/
inductive FSignalName where
  | NewStateTreeTaskRequired
deriving DecidableEq, Repr

/-- The signal subsystem: the notifications sent so far, oldest first. -/
structure UMassSignalSubsystem where
  Sent : List (FSignalName × List FMassEntityHandle)
deriving DecidableEq

/-- Engine `UMassSignalSubsystem::SignalEntities`. -/
def UMassSignalSubsystem.SignalEntities (sig : UMassSignalSubsystem) (n : FSignalName)
    (Entities : List FMassEntityHandle) : UMassSignalSubsystem :=
  { Sent := sig.Sent ++ [(n, Entities)] }

/-! ## Validity predicate -/

/-- Source function `DidCapsulesCollide` (lines 108-112). -/
def DidCapsulesCollide (ext : FExternals) (Capsule1 Capsule2 : FCapsule)
    (_Entity : FMassEntityHandle) (_World : UWorld) : Bool :=
  ext.TestCapsuleCapsule Capsule1 Capsule2

/-- The candidate loop of `IsTargetEntityObstructed` (lines 138-162):
`some true` when the loop returns `true`, `some false` when it runs to its
end, `none` when a candidate that must be tested has no dynamic data. -/
def ProcessCloseEntities (ext : FExternals) (TargetFinderSubsystem : UMassTargetFinderSubsystem)
    (Entity : FMassEntityHandle) (EntitySubsystem : UMassEntitySubsystem)
    (IsEntityOnTeam1 : Bool) (TargetMinCaliberForDamage : ℚ)
    (ProjectileTraceCapsule : FCapsule) : List FMassTargetGridItem → Option Bool
  | [] => some false
  | OtherEntity :: rest =>
    if OtherEntity.Entity = Entity then
      ProcessCloseEntities ext TargetFinderSubsystem Entity EntitySubsystem IsEntityOnTeam1
        TargetMinCaliberForDamage ProjectileTraceCapsule rest
    else if !EntitySubsystem.IsEntityValid OtherEntity.Entity then
      ProcessCloseEntities ext TargetFinderSubsystem Entity EntitySubsystem IsEntityOnTeam1
        TargetMinCaliberForDamage ProjectileTraceCapsule rest
    else if (IsEntityOnTeam1 == OtherEntity.bIsOnTeam1)
        || !ext.CanEntityDamageTargetEntity TargetMinCaliberForDamage
              OtherEntity.MinCaliberForDamage then
      match TargetFinderSubsystem.TargetDynamicData OtherEntity.Entity with
      | none => none
      | some Data =>
        if DidCapsulesCollide ext ProjectileTraceCapsule Data.Capsule Entity
            EntitySubsystem.World then
          some true
        else
          ProcessCloseEntities ext TargetFinderSubsystem Entity EntitySubsystem IsEntityOnTeam1
            TargetMinCaliberForDamage ProjectileTraceCapsule rest
    else
      ProcessCloseEntities ext TargetFinderSubsystem Entity EntitySubsystem IsEntityOnTeam1
        TargetMinCaliberForDamage ProjectileTraceCapsule rest

/-- The padded query box of `IsTargetEntityObstructed` (lines 118-119). -/
def QueryBounds (EntityLocation TargetEntityLocation : FVector) : FBox :=
  let Buffer : FVector := { X := 10, Y := 10, Z := 10 }
  { Min := (EntityLocation.ComponentMin TargetEntityLocation).sub Buffer
    Max := (EntityLocation.ComponentMax TargetEntityLocation).add Buffer }

/-- Source function `IsTargetEntityObstructed` (lines 114-170).
`TargetEntityView` is the entity the view of the target names. -/
def IsTargetEntityObstructed (ext : FExternals) (EntityLocation TargetEntityLocation : FVector)
    (TargetFinderSubsystem : UMassTargetFinderSubsystem) (Entity : FMassEntityHandle)
    (EntitySubsystem : UMassEntitySubsystem) (IsEntityOnTeam1 bIsEntitySoldier : Bool)
    (TargetMinCaliberForDamage : ℚ) (TargetEntityView : FEntity)
    (EntityTransform : FTransform) : Option Bool :=
  let CloseEntities := TargetFinderSubsystem.Query (QueryBounds EntityLocation TargetEntityLocation)
  let bIsTargetEntitySoldier := TargetEntityView.HasTag FTag.FMassProjectileDamagableSoldierTag
  let ProjectileTraceCapsule := ext.GetProjectileTraceCapsuleToTarget bIsEntitySoldier
    bIsTargetEntitySoldier EntityTransform TargetEntityLocation
  match ProcessCloseEntities ext TargetFinderSubsystem Entity EntitySubsystem IsEntityOnTeam1
      TargetMinCaliberForDamage ProjectileTraceCapsule CloseEntities with
  | none => none
  | some true => some true
  | some false =>
    let bIsTargetEntityVisibleViaSphereTrace :=
      ext.IsTargetEntityVisibleViaSphereTrace ProjectileTraceCapsule.a ProjectileTraceCapsule.b
    some (!bIsTargetEntityVisibleViaSphereTrace)

/-- Source function `IsTargetValid` (lines 185-219); `none` when the target has
no transform fragment or the obstruction check fails. -/
def IsTargetValid (ext : FExternals) (Entity TargetEntity : FMassEntityHandle)
    (EntitySubsystem : UMassEntitySubsystem) (TargetMinCaliberForDamage : ℚ)
    (TargetFinderSubsystem : UMassTargetFinderSubsystem) (IsEntityOnTeam1 bIsEntitySoldier : Bool)
    (EntityTransform : FTransform)
    (bInvalidateAllTargets bOnlyCheckIfTargetEntityValidInEntitySubsystem : Bool) :
    Option Bool :=
  let EntityLocation := EntityTransform.GetLocation
  if bInvalidateAllTargets then
    some false
  else if !EntitySubsystem.IsEntityValid TargetEntity then
    some false
  else if bOnlyCheckIfTargetEntityValidInEntitySubsystem then
    some true
  else
    match EntitySubsystem.View TargetEntity with
    | none => none
    | some TargetEntityView =>
      match TargetEntityView.Transform with
      | none => none
      | some TargetTransform =>
        let TargetEntityLocation := TargetTransform.GetTransform.GetLocation
        if IsTargetEntityOutOfRange ext TargetEntityLocation EntityLocation Entity
            bIsEntitySoldier then
          some false
        else
          match IsTargetEntityObstructed ext EntityLocation TargetEntityLocation
              TargetFinderSubsystem Entity EntitySubsystem IsEntityOnTeam1 bIsEntitySoldier
              TargetMinCaliberForDamage TargetEntityView EntityTransform with
          | none => none
          | some true => some false
          | some false => some true

/-! ## The tick -/

/-- Deferred structural commands (`Context.Defer()`). -/
inductive FDeferredCommand where
  | AddTag (Tag : FTag) (Entity : FMassEntityHandle)
  | RemoveTag (Tag : FTag) (Entity : FMassEntityHandle)
deriving DecidableEq, Repr

/-- Everything `Execute` reads and writes: the entity store, the two
subsystem pointers of the processor (`none` for a null pointer), the member
`TransientEntitiesToSignal`, the global
`UInvalidTargetFinderProcessor_ShouldInvalidateAllTargets` and the command
buffer of the execution context. -/
structure FState where
  EntitySubsystem : UMassEntitySubsystem
  TargetFinderSubsystem : Option UMassTargetFinderSubsystem
  SignalSubsystem : Option UMassSignalSubsystem
  TransientEntitiesToSignal : List FMassEntityHandle
  ShouldInvalidateAllTargets : Bool
  Deferred : List FDeferredCommand

/-- Draining a queue into an array (lines 310-316): every element is dequeued
and appended. -/
def ConvertQueueToArray {α : Type} (Queue : List α) : List α :=
  Queue.foldl (fun Arr Item => Arr ++ [Item]) []

/-- Engine `TSet::Add`: an element already present is not added again. -/
def TSetAdd (Set : List FMassEntityHandle) (Entity : FMassEntityHandle) :
    List FMassEntityHandle :=
  if Set.contains Entity then Set else Set ++ [Entity]

/-- Scan A (lines 261-281) over the entities matched by `BuildQueueEntityQuery`:
transform, target reference and team fragments present, tag
`FMassWillNeedEnemyTargetTag` present. The result is what the scan enqueues. -/
def BuildQueue (Entities : List FEntity) : List FProcessEntityData :=
  Entities.filterMap fun e =>
    match e.Transform, e.TargetEntity, e.TeamMember with
    | some Transform, some Target, some TeamMember =>
      if e.HasTag FTag.FMassWillNeedEnemyTargetTag then
        some
          { Entity := e.Handle
            TargetEntity := Target.Entity
            TargetMinCaliberForDamage := Target.TargetMinCaliberForDamage
            EntityTransform := Transform.GetTransform
            bIsEntityOnTeam1 := TeamMember.IsOnTeam1
            bIsEntitySoldier := e.HasTag FTag.FMassProjectileDamagableSoldierTag
            bOnlyCheckIfTargetEntityValidInEntitySubsystem := false }
      else
        none
    | _, _, _ => none

/-- Scan B (lines 287-302) over the entities matched by
`BuildQueueForTrackTargetEntityQuery`: target reference fragment present, tag
`FMassTrackTargetTag` present. Only three fields of the job are assigned. -/
def BuildQueueForTrackTarget (ext : FExternals) (Entities : List FEntity) :
    List FProcessEntityData :=
  Entities.filterMap fun e =>
    match e.TargetEntity with
    | some Target =>
      if e.HasTag FTag.FMassTrackTargetTag then
        some
          { ext.DefaultProcessEntityData e.Handle with
            Entity := e.Handle
            TargetEntity := Target.Entity
            bOnlyCheckIfTargetEntityValidInEntitySubsystem := true }
      else
        none
    | none => none

/-- Source function `ProcessEntity` (lines 233-244): the returned flag and the
queue after the call. -/
def ProcessEntity (ext : FExternals) (ProcessEntityData : FProcessEntityData)
    (bInvalidateAllTargets : Bool) (EntitySubsystem : UMassEntitySubsystem)
    (TargetFinderSubsystem : UMassTargetFinderSubsystem)
    (EntitiesWithInvalidTargetQueue : List FMassEntityHandle) :
    Option (Bool × List FMassEntityHandle) :=
  match IsTargetValid ext ProcessEntityData.Entity ProcessEntityData.TargetEntity EntitySubsystem
      ProcessEntityData.TargetMinCaliberForDamage TargetFinderSubsystem
      ProcessEntityData.bIsEntityOnTeam1 ProcessEntityData.bIsEntitySoldier
      ProcessEntityData.EntityTransform bInvalidateAllTargets
      ProcessEntityData.bOnlyCheckIfTargetEntityValidInEntitySubsystem with
  | none => none
  | some false => some (true, EntitiesWithInvalidTargetQueue ++ [ProcessEntityData.Entity])
  | some true => some (false, EntitiesWithInvalidTargetQueue)

/-- The fan-out over the jobs (lines 327-333), in job order. -/
def ProcessEntities (ext : FExternals) (bInvalidateAllTargets : Bool)
    (EntitySubsystem : UMassEntitySubsystem) (TargetFinderSubsystem : UMassTargetFinderSubsystem) :
    List FProcessEntityData → List FMassEntityHandle → Option (List FMassEntityHandle)
  | [], Queue => some Queue
  | Job :: rest, Queue =>
    match ProcessEntity ext Job bInvalidateAllTargets EntitySubsystem TargetFinderSubsystem
        Queue with
    | none => none
    | some (_, Queue1) =>
      ProcessEntities ext bInvalidateAllTargets EntitySubsystem TargetFinderSubsystem rest Queue1

/-- Draining the result queue into the set (lines 341-347). -/
def BuildInvalidTargetsSet (Queue : List FMassEntityHandle) : List FMassEntityHandle :=
  Queue.foldl TSetAdd []

/-- The result of the Applier on one entity: the entity afterwards, what was
enqueued into `EntitiesWithUnstashedMoveTargetQueue`, and whether the
`bIsInvalid` branch was entered. -/
structure FInvalidateStep where
  Entity : FEntity
  Unstashed : List FMassEntityHandle
  Entered : List FMassEntityHandle
deriving DecidableEq

/-- One iteration of the Applier loop (lines 366-381) on an entity of the
store. An entity that `InvalidateTargetsEntityQuery` does not match (no target
reference, navigation plan or transform fragment) is not visited. -/
def ProcessInvalidTarget (ext : FExternals) (World : UWorld)
    (EntitiesWithInvalidTargets : List FMassEntityHandle) (e : FEntity) :
    Option FInvalidateStep :=
  match e.TargetEntity, e.NavMeshMove, e.Transform with
  | some Target, some NavMeshMove, some Transform =>
    let bIsInvalid := EntitiesWithInvalidTargets.contains e.Handle
    if bIsInvalid then
      let e1 := { e with TargetEntity := some { Target with Entity := Target.Entity.Reset } }
      match e.StashedMoveTarget, e.MoveTarget with
      | some StashedMoveTarget, some MoveTarget =>
        if e.HasTag FTag.FMassHasStashedMoveTargetTag then
          match UnstashMoveTarget ext StashedMoveTarget MoveTarget World
              (e.HasTag FTag.FMassNeedsNavMeshMoveTag) NavMeshMove Transform.GetTransform with
          | none => none
          | some (Destination, Nav) =>
            some
              { Entity := { e1 with MoveTarget := some Destination, NavMeshMove := some Nav }
                Unstashed := [e.Handle]
                Entered := [e.Handle] }
        else
          some { Entity := e1, Unstashed := [], Entered := [e.Handle] }
      | _, _ => some { Entity := e1, Unstashed := [], Entered := [e.Handle] }
    else
      some { Entity := e, Unstashed := [], Entered := [] }
  | _, _, _ => some { Entity := e, Unstashed := [], Entered := [] }

/-- The Applier pass (lines 356-382) in store order: the entities afterwards,
the contents of `EntitiesWithUnstashedMoveTargetQueue`, and the entities on
which the `bIsInvalid` branch ran, one entry per run. -/
def ProcessInvalidTargets (ext : FExternals) (World : UWorld)
    (EntitiesWithInvalidTargets : List FMassEntityHandle) :
    List FEntity → Option (List FEntity × List FMassEntityHandle × List FMassEntityHandle)
  | [] => some ([], [], [])
  | e :: rest =>
    match ProcessInvalidTarget ext World EntitiesWithInvalidTargets e with
    | none => none
    | some Step =>
      match ProcessInvalidTargets ext World EntitiesWithInvalidTargets rest with
      | none => none
      | some (Entities, Unstashed, Entered) =>
        some (Step.Entity :: Entities, Step.Unstashed ++ Unstashed, Step.Entered ++ Entered)

/-- The first loop of the Finalizer (lines 393-399) from a command buffer and
a signal batch. -/
def ProcessQueuesInvalid (EntitiesWithInvalidTargets : List FMassEntityHandle)
    (Deferred : List FDeferredCommand) (Transient : List FMassEntityHandle) :
    List FDeferredCommand × List FMassEntityHandle :=
  EntitiesWithInvalidTargets.foldl
    (fun acc Entity =>
      (acc.1 ++ [FDeferredCommand.AddTag FTag.FMassNeedsEnemyTargetTag Entity,
                 FDeferredCommand.RemoveTag FTag.FMassWillNeedEnemyTargetTag Entity,
                 FDeferredCommand.RemoveTag FTag.FMassTrackTargetTag Entity],
       acc.2 ++ [Entity]))
    (Deferred, Transient)

/-- The second loop of the Finalizer (lines 401-408). -/
def ProcessQueuesUnstashed (Unstashed : List FMassEntityHandle)
    (Deferred : List FDeferredCommand) : List FDeferredCommand :=
  Unstashed.foldl
    (fun acc Entity => acc ++ [FDeferredCommand.RemoveTag FTag.FMassHasStashedMoveTargetTag Entity])
    Deferred

/-- The Finalizer (lines 388-414); `none` when a signal must be sent and the
signal subsystem pointer is null. -/
def ProcessQueues (s : FState) (EntitiesWithInvalidTargets Unstashed : List FMassEntityHandle) :
    Option FState :=
  let r := ProcessQueuesInvalid EntitiesWithInvalidTargets s.Deferred []
  let Deferred := ProcessQueuesUnstashed Unstashed r.1
  let s1 := { s with TransientEntitiesToSignal := r.2, Deferred := Deferred }
  if r.2.length ≠ 0 then
    match s1.SignalSubsystem with
    | none => none
    | some Signal =>
      some { s1 with
        SignalSubsystem :=
          some (Signal.SignalEntities FSignalName.NewStateTreeTaskRequired r.2) }
  else
    some s1

/-- The locals of `Execute` that the properties of a tick speak about, and the
record of what the tick did to the invalidate-all flag. -/
structure FExecuteLocals where
  /-- The job array. -/
  EntitiesToCheck : List FProcessEntityData
  /-- The invalid set. -/
  EntitiesWithInvalidTargets : List FMassEntityHandle
  /-- The contents of `EntitiesWithUnstashedMoveTargetQueue` after the Applier. -/
  Unstashed : List FMassEntityHandle
  /-- The entities on which the Applier ran its `bIsInvalid` branch, one entry
  per run. -/
  Entered : List FMassEntityHandle
  /-- The local `bInvalidateAllTargets` of line 325, the value read from the
  flag; `none` while the line has not run. -/
  bInvalidateAllTargets : Option Bool := none
  /-- The contents of the command buffer at the moment line 386 writes `false`
  to the flag; `none` while the line has not run. -/
  DeferredAtReset : Option (List FDeferredCommand) := none
deriving DecidableEq

/-- Source function `UInvalidTargetFinderProcessor::Execute` (lines 246-415):
the state after the call and the locals; `none` when an engine check fails.
The flag is read once, at line 325, and written at line 386, between the
Applier and the Finalizer; the locals keep the value read and the command
buffer as it stands at the write. -/
def Execute (ext : FExternals) (s : FState) : Option (FState × FExecuteLocals) :=
  match s.TargetFinderSubsystem with
  | none =>
    some (s, { EntitiesToCheck := [], EntitiesWithInvalidTargets := [], Unstashed := [],
               Entered := [] })
  | some TargetFinderSubsystem =>
    let EntitiesToCheckQueue :=
      BuildQueue s.EntitySubsystem.Entities
        ++ BuildQueueForTrackTarget ext s.EntitySubsystem.Entities
    let EntitiesToCheck := ConvertQueueToArray EntitiesToCheckQueue
    let bInvalidateAllTargets := s.ShouldInvalidateAllTargets
    match ProcessEntities ext bInvalidateAllTargets s.EntitySubsystem TargetFinderSubsystem
        EntitiesToCheck [] with
    | none => none
    | some EntitiesWithInvalidTargetQueue =>
      let EntitiesWithInvalidTargets := BuildInvalidTargetsSet EntitiesWithInvalidTargetQueue
      match ProcessInvalidTargets ext s.EntitySubsystem.World EntitiesWithInvalidTargets
          s.EntitySubsystem.Entities with
      | none => none
      | some (Entities, Unstashed, Entered) =>
        let s1 :=
          { s with
            EntitySubsystem := { s.EntitySubsystem with Entities := Entities }
            ShouldInvalidateAllTargets := false }
        let DeferredAtReset := s1.Deferred
        match ProcessQueues s1 EntitiesWithInvalidTargets Unstashed with
        | none => none
        | some s2 =>
          some (s2, { EntitiesToCheck := EntitiesToCheck
                      EntitiesWithInvalidTargets := EntitiesWithInvalidTargets
                      Unstashed := Unstashed
                      Entered := Entered
                      bInvalidateAllTargets := some bInvalidateAllTargets
                      DeferredAtReset := some DeferredAtReset })

/-- Modelled from the spec: one deferred command applied to the tags of one
entity (the command buffer of the entity store is not in this file): a tag is
added to the entity the command names unless present, or removed from it. -/
def FDeferredCommand.Apply (c : FDeferredCommand) (e : FEntity) : FEntity :=
  match c with
  | FDeferredCommand.AddTag Tag Entity =>
    if e.Handle = Entity then
      if e.Tags.contains Tag then e else { e with Tags := e.Tags ++ [Tag] }
    else e
  | FDeferredCommand.RemoveTag Tag Entity =>
    if e.Handle = Entity then { e with Tags := e.Tags.filter fun t => decide (t ≠ Tag) }
    else e

/-- Modelled from the spec: the deferred commands applied after the pass, in
the order they were scheduled. -/
def FlushCommands (Commands : List FDeferredCommand) (Entities : List FEntity) : List FEntity :=
  Commands.foldl (fun es c => es.map c.Apply) Entities

/-! ## Reference definitions of the obstruction check -/

/-- Reference predicate, following the specification: a broad-phase candidate
obstructs when it is not the agent itself, is a live entity, is on the team of
the agent or cannot damage the target, and its stored capsule intersects the
projectile trace capsule. -/
def SpecObstructingCandidate (ext : FExternals)
    (TargetFinderSubsystem : UMassTargetFinderSubsystem) (Entity : FMassEntityHandle)
    (EntitySubsystem : UMassEntitySubsystem) (IsEntityOnTeam1 : Bool)
    (TargetMinCaliberForDamage : ℚ) (ProjectileTraceCapsule : FCapsule)
    (OtherEntity : FMassTargetGridItem) : Bool :=
  decide (OtherEntity.Entity ≠ Entity)
    && EntitySubsystem.IsEntityValid OtherEntity.Entity
    && ((IsEntityOnTeam1 == OtherEntity.bIsOnTeam1)
        || !ext.CanEntityDamageTargetEntity TargetMinCaliberForDamage
              OtherEntity.MinCaliberForDamage)
    && (match TargetFinderSubsystem.TargetDynamicData OtherEntity.Entity with
        | some Data => ext.TestCapsuleCapsule ProjectileTraceCapsule Data.Capsule
        | none => false)

/-- Reference definition, following the specification: the target is
obstructed when some candidate of the broad-phase query over the padded box
obstructs, or none does and the visibility trace between the two points of the
trace capsule is occluded. -/
def SpecIsTargetEntityObstructed (ext : FExternals)
    (EntityLocation TargetEntityLocation : FVector)
    (TargetFinderSubsystem : UMassTargetFinderSubsystem) (Entity : FMassEntityHandle)
    (EntitySubsystem : UMassEntitySubsystem) (IsEntityOnTeam1 bIsEntitySoldier : Bool)
    (TargetMinCaliberForDamage : ℚ) (TargetEntityView : FEntity)
    (EntityTransform : FTransform) : Bool :=
  let Capsule := ext.GetProjectileTraceCapsuleToTarget bIsEntitySoldier
    (TargetEntityView.HasTag FTag.FMassProjectileDamagableSoldierTag) EntityTransform
    TargetEntityLocation
  let Candidates := TargetFinderSubsystem.Query (QueryBounds EntityLocation TargetEntityLocation)
  Candidates.any (SpecObstructingCandidate ext TargetFinderSubsystem Entity EntitySubsystem
      IsEntityOnTeam1 TargetMinCaliberForDamage Capsule)
    || (!Candidates.any (SpecObstructingCandidate ext TargetFinderSubsystem Entity
          EntitySubsystem IsEntityOnTeam1 TargetMinCaliberForDamage Capsule)
        && !ext.IsTargetEntityVisibleViaSphereTrace Capsule.a Capsule.b)

/-! ## Names for parts of the tick -/

/-- The call of `IsTargetValid` that `ProcessEntity` makes for a job
(line 238). -/
def JobIsTargetValid (ext : FExternals) (ProcessEntityData : FProcessEntityData)
    (bInvalidateAllTargets : Bool) (EntitySubsystem : UMassEntitySubsystem)
    (TargetFinderSubsystem : UMassTargetFinderSubsystem) : Option Bool :=
  IsTargetValid ext ProcessEntityData.Entity ProcessEntityData.TargetEntity EntitySubsystem
    ProcessEntityData.TargetMinCaliberForDamage TargetFinderSubsystem
    ProcessEntityData.bIsEntityOnTeam1 ProcessEntityData.bIsEntitySoldier
    ProcessEntityData.EntityTransform bInvalidateAllTargets
    ProcessEntityData.bOnlyCheckIfTargetEntityValidInEntitySubsystem

/-- The requirements of `InvalidateTargetsEntityQuery` (lines 80-84): target
reference, navigation plan and transform fragments are required, the stashed
and the active movement order are optional. -/
def FEntity.MatchesInvalidateTargetsQuery (e : FEntity) : Bool :=
  e.TargetEntity.isSome && e.NavMeshMove.isSome && e.Transform.isSome

/-- The condition of line 375 under which the Applier restores the stashed
order of a visited entity. -/
def FEntity.HasRestorableStash (e : FEntity) : Bool :=
  e.HasTag FTag.FMassHasStashedMoveTargetTag && e.StashedMoveTarget.isSome && e.MoveTarget.isSome

/-- The target reference after `Entity.Reset()` (line 372). -/
def FTargetEntityFragment.ResetEntity (t : FTargetEntityFragment) : FTargetEntityFragment :=
  { t with Entity := t.Entity.Reset }

/-- The tag a deferred command is about. -/
def FDeferredCommand.Tag : FDeferredCommand → FTag
  | FDeferredCommand.AddTag Tag _ => Tag
  | FDeferredCommand.RemoveTag Tag _ => Tag

/-- The entity a deferred command is about. -/
def FDeferredCommand.Entity : FDeferredCommand → FMassEntityHandle
  | FDeferredCommand.AddTag _ Entity => Entity
  | FDeferredCommand.RemoveTag _ Entity => Entity

/-- The three commands the Finalizer schedules for an agent of the invalid set
(lines 395-397), in order. -/
def InvalidTargetCommands (Entity : FMassEntityHandle) : List FDeferredCommand :=
  [FDeferredCommand.AddTag FTag.FMassNeedsEnemyTargetTag Entity,
   FDeferredCommand.RemoveTag FTag.FMassWillNeedEnemyTargetTag Entity,
   FDeferredCommand.RemoveTag FTag.FMassTrackTargetTag Entity]

/-- The tags of the three commands of `InvalidTargetCommands`. -/
def FTag.IsTargetTag : FTag → Bool
  | FTag.FMassNeedsEnemyTargetTag => true
  | FTag.FMassWillNeedEnemyTargetTag => true
  | FTag.FMassTrackTargetTag => true
  | _ => false

/-- Whether a deferred command adds its tag. -/
def FDeferredCommand.IsAdd : FDeferredCommand → Bool
  | FDeferredCommand.AddTag _ _ => true
  | FDeferredCommand.RemoveTag _ _ => false

/-- The Applier and then the Finalizer of `Execute` (lines 350-414) run on an
invalid set given from outside, followed by the application of the deferred
commands that this run scheduled (the commands behind those the buffer held
before), which leaves the buffer as it was before the run. -/
def ApplierFinalizer (ext : FExternals) (s : FState)
    (EntitiesWithInvalidTargets : List FMassEntityHandle) : Option FState :=
  match ProcessInvalidTargets ext s.EntitySubsystem.World EntitiesWithInvalidTargets
      s.EntitySubsystem.Entities with
  | none => none
  | some (Entities, Unstashed, _) =>
    let s1 :=
      { s with
        EntitySubsystem := { s.EntitySubsystem with Entities := Entities }
        ShouldInvalidateAllTargets := false }
    match ProcessQueues s1 EntitiesWithInvalidTargets Unstashed with
    | none => none
    | some s2 =>
      some
        { s2 with
          EntitySubsystem :=
            { s2.EntitySubsystem with
              Entities :=
                FlushCommands (s2.Deferred.drop s.Deferred.length) s2.EntitySubsystem.Entities }
          Deferred := s.Deferred }

/-! ## Example inputs -/

/-- Example externals: soldiers reach 5 units and others 10, a caliber damages
a target when it is at least the required one, no capsules intersect, every
trace is clear, and the size of a vector is its length rounded down to a whole
number. -/
def ExampleExternals : FExternals :=
  { DefaultProcessEntityData := fun h =>
      { Entity := h
        TargetEntity := h
        TargetMinCaliberForDamage := 0
        EntityTransform :=
          { Rotation := { X := 0, Y := 0, Z := 0, W := 1 }
            Translation := { X := 0, Y := 0, Z := 0 }
            Scale3D := { X := 1, Y := 1, Z := 1 } }
        bIsEntityOnTeam1 := false
        bIsEntitySoldier := false
        bOnlyCheckIfTargetEntityValidInEntitySubsystem := false }
    GetEntityRange := fun b => if b then 5 else 10
    CanEntityDamageTargetEntity := fun t c => decide (t ≤ c)
    GetProjectileTraceCapsuleToTarget := fun _ _ t v => { a := t.GetLocation, b := v, r := 1 }
    TestCapsuleCapsule := fun _ _ => false
    IsTargetEntityVisibleViaSphereTrace := fun _ _ => true
    GetSafeNormal := fun v => v
    VectorSize := fun v =>
      ((Nat.sqrt (Int.toNat (Int.floor (v.X * v.X + v.Y * v.Y + v.Z * v.Z))) : ℕ) : ℚ) }

/-- Example transform: the identity. -/
def ExampleTransform : FTransform :=
  { Rotation := { X := 0, Y := 0, Z := 0, W := 1 }
    Translation := { X := 0, Y := 0, Z := 0 }
    Scale3D := { X := 1, Y := 1, Z := 1 } }

/-- Example movement order: move to the point (1, 2, 0). -/
def ExampleMoveTarget : FMassMoveTargetFragment :=
  { CurrentAction := EMassMovementAction.Move
    Center := { X := 1, Y := 2, Z := 0 }
    Forward := { X := 1, Y := 0, Z := 0 }
    DistanceToGoal := 3
    DesiredSpeed := { Value := 2 }
    SlackRadius := 1
    bOffBoundaries := false
    bSteeringFallingBehind := false
    IntentAtGoal := EMassMovementAction.Stand
    PreviousAction := EMassMovementAction.Stand
    CurrentActionID := 0
    CurrentActionWorldStartTime := 0
    CurrentActionServerStartTime := 0
    bNetDirty := false }

/-- Example navigation plan: one step, cursor behind it. -/
def ExampleNavMeshMove : FMassNavMeshMoveFragment :=
  { Actions :=
      [ { TargetLocation := { X := 9, Y := 9, Z := 0 }
          Forward := { X := 1, Y := 0, Z := 0 }
          Action := EMassMovementAction.Move } ]
    CurrentActionIndex := 1
    ActionsRemaining := 0 }

/-- Example agent: tracks the entity (7, 1), which is not in the store, and
has neither a navigation plan nor a transform fragment. -/
def ExampleTracker : FEntity :=
  { Handle := { Index := 1, SerialNumber := 1 }
    Tags := [FTag.FMassTrackTargetTag]
    Transform := none
    TargetEntity :=
      some { Entity := { Index := 7, SerialNumber := 1 }, TargetMinCaliberForDamage := 0 }
    TeamMember := none
    StashedMoveTarget := none
    MoveTarget := none
    NavMeshMove := none }

/-- Example target finder: an empty grid and no dynamic data. -/
def ExampleEmptyFinder : UMassTargetFinderSubsystem :=
  { Query := fun _ => [], TargetDynamicData := fun _ => none }

/-- Example state: the store holds `ExampleTracker` only, both subsystems are
present, the grid is empty and the invalidate-all flag is clear. -/
def ExampleTrackerState : FState :=
  { EntitySubsystem := { Entities := [ExampleTracker], World := { TimeSeconds := 0 } }
    TargetFinderSubsystem := some ExampleEmptyFinder
    SignalSubsystem := some { Sent := [] }
    TransientEntitiesToSignal := []
    ShouldInvalidateAllTargets := false
    Deferred := [] }

/-- Example agent: a soldier on team 1 that will need an enemy target, engages
the entity (7, 1), which is not in the store, and has a stashed movement order,
an active order and a navigation plan. -/
def ExampleSoldier : FEntity :=
  { Handle := { Index := 2, SerialNumber := 1 }
    Tags := [FTag.FMassWillNeedEnemyTargetTag, FTag.FMassHasStashedMoveTargetTag,
             FTag.FMassProjectileDamagableSoldierTag]
    Transform := some { Transform := ExampleTransform }
    TargetEntity :=
      some { Entity := { Index := 7, SerialNumber := 1 }, TargetMinCaliberForDamage := 0 }
    TeamMember := some { IsOnTeam1 := true }
    StashedMoveTarget := some ExampleMoveTarget
    MoveTarget := some { ExampleMoveTarget with CurrentAction := EMassMovementAction.Stand }
    NavMeshMove := some ExampleNavMeshMove }

/-- Example state: the store holds `ExampleSoldier` and `ExampleTracker`, both
subsystems are present, the grid is empty and the invalidate-all flag is
clear. -/
def ExampleSoldierState : FState :=
  { EntitySubsystem :=
      { Entities := [ExampleSoldier, ExampleTracker], World := { TimeSeconds := 0 } }
    TargetFinderSubsystem := some ExampleEmptyFinder
    SignalSubsystem := some { Sent := [] }
    TransientEntitiesToSignal := []
    ShouldInvalidateAllTargets := false
    Deferred := [] }

/-- Example state: `ExampleSoldierState` with the invalidate-all flag set. -/
def ExampleInvalidateAllState : FState :=
  { ExampleSoldierState with ShouldInvalidateAllTargets := true }

/-- Example externals in which every pair of capsules intersects. -/
def ExampleCollidingExternals : FExternals :=
  { ExampleExternals with TestCapsuleCapsule := fun _ _ => true }

/-- Example grid item: the entity (2, 1) on team 1. -/
def ExampleGridItem : FMassTargetGridItem :=
  { Entity := { Index := 2, SerialNumber := 1 }, bIsOnTeam1 := true, MinCaliberForDamage := 0 }

/-- Example target finder: every query returns `ExampleGridItem`, and every
entity has a unit capsule at the origin as dynamic data. -/
def ExampleTargetFinder : UMassTargetFinderSubsystem :=
  { Query := fun _ => [ExampleGridItem]
    TargetDynamicData := fun _ =>
      some { Capsule := { a := { X := 0, Y := 0, Z := 0 }, b := { X := 0, Y := 0, Z := 1 },
                          r := 1 } } }

/-- Example agent: will need an enemy target, engages the entity (7, 1), which
is not in the store, has transform and team fragments but no navigation plan. -/
def ExampleSoldierNoPlan : FEntity :=
  { Handle := { Index := 3, SerialNumber := 1 }
    Tags := [FTag.FMassWillNeedEnemyTargetTag]
    Transform := some { Transform := ExampleTransform }
    TargetEntity :=
      some { Entity := { Index := 7, SerialNumber := 1 }, TargetMinCaliberForDamage := 0 }
    TeamMember := some { IsOnTeam1 := true }
    StashedMoveTarget := none
    MoveTarget := none
    NavMeshMove := none }

/-- Example state: the store holds `ExampleSoldierNoPlan` only. -/
def ExampleNoPlanState : FState :=
  { EntitySubsystem := { Entities := [ExampleSoldierNoPlan], World := { TimeSeconds := 0 } }
    TargetFinderSubsystem := some ExampleEmptyFinder
    SignalSubsystem := some { Sent := [] }
    TransientEntitiesToSignal := []
    ShouldInvalidateAllTargets := false
    Deferred := [] }

/-- Example agent: tracks the entity (7, 1), which is not in the store, carries
the has-stashed-move-order marker, a stashed and an active movement order and
a transform, but no navigation plan. -/
def ExampleStashedTracker : FEntity :=
  { Handle := { Index := 4, SerialNumber := 1 }
    Tags := [FTag.FMassTrackTargetTag, FTag.FMassHasStashedMoveTargetTag]
    Transform := some { Transform := ExampleTransform }
    TargetEntity :=
      some { Entity := { Index := 7, SerialNumber := 1 }, TargetMinCaliberForDamage := 0 }
    TeamMember := none
    StashedMoveTarget := some ExampleMoveTarget
    MoveTarget := some { ExampleMoveTarget with CurrentAction := EMassMovementAction.Stand }
    NavMeshMove := none }

/-- Example state: the store holds `ExampleStashedTracker` only. -/
def ExampleStashedTrackerState : FState :=
  { EntitySubsystem := { Entities := [ExampleStashedTracker], World := { TimeSeconds := 0 } }
    TargetFinderSubsystem := some ExampleEmptyFinder
    SignalSubsystem := some { Sent := [] }
    TransientEntitiesToSignal := []
    ShouldInvalidateAllTargets := false
    Deferred := [] }

/-- Example agent: tracks the entity (7, 1), has a navigation plan but no
transform fragment, and carries no stash marker. -/
def ExampleTrackerNoTransform : FEntity :=
  { Handle := { Index := 5, SerialNumber := 1 }
    Tags := [FTag.FMassTrackTargetTag]
    Transform := none
    TargetEntity :=
      some { Entity := { Index := 7, SerialNumber := 1 }, TargetMinCaliberForDamage := 0 }
    TeamMember := none
    StashedMoveTarget := none
    MoveTarget := none
    NavMeshMove := some ExampleNavMeshMove }

/-- Example target: the entity (8, 1) at the point (4, 0, 0), without tags. -/
def ExampleTarget : FEntity :=
  { Handle := { Index := 8, SerialNumber := 1 }
    Tags := []
    Transform :=
      some { Transform := { ExampleTransform with Translation := { X := 4, Y := 0, Z := 0 } } }
    TargetEntity := none
    TeamMember := none
    StashedMoveTarget := none
    MoveTarget := none
    NavMeshMove := none }

/-- Example agent: a soldier on team 1 at the origin that will need an enemy
target and engages `ExampleTarget`, at distance 4 of its range 5. -/
def ExampleEngagingSoldier : FEntity :=
  { ExampleSoldier with
    TargetEntity :=
      some { Entity := { Index := 8, SerialNumber := 1 }, TargetMinCaliberForDamage := 0 } }

/-- Example state: the store holds `ExampleEngagingSoldier` and its live
target, the grid is empty, every trace is clear, the flag is clear. -/
def ExampleEngagingState : FState :=
  { EntitySubsystem :=
      { Entities := [ExampleEngagingSoldier, ExampleTarget], World := { TimeSeconds := 0 } }
    TargetFinderSubsystem := some ExampleEmptyFinder
    SignalSubsystem := some { Sent := [] }
    TransientEntitiesToSignal := []
    ShouldInvalidateAllTargets := false
    Deferred := [] }

/-- Example state: `ExampleSoldierState` without the target finder subsystem
and with the invalidate-all flag set. -/
def ExampleNoFinderState : FState :=
  { ExampleSoldierState with TargetFinderSubsystem := none, ShouldInvalidateAllTargets := true }

/-! ## Lemmas: arithmetic and containers -/

theorem TArrayInsert_append {α : Type} (pre post : List α) (x : α) (i : Int)
    (hi : i = (pre.length : Int)) :
    TArrayInsert (pre ++ post) x i = some (pre ++ x :: post) := by
  subst hi
  simp [TArrayInsert]

theorem TArrayInsert_eq_none {α : Type} (l : List α) (x : α) (i : Int)
    (h : ¬ (0 ≤ i ∧ i ≤ (l.length : Int))) : TArrayInsert l x i = none := by
  unfold TArrayInsert
  rw [if_neg h]

/-- The three insertions of `UnstashMoveTarget` with the cursor in range,
followed by any continuation. -/
theorem TArrayInsert_three {α β : Type} (l : List α) (x y z : α) (c : Int)
    (k : List α → Option β) (h0 : 0 ≤ c) (h1 : c ≤ (l.length : Int)) :
    ((TArrayInsert l x c).bind fun l1 =>
      (TArrayInsert l1 y (c + 1)).bind fun l2 => (TArrayInsert l2 z (c + 2)).bind k)
      = k (l.take c.toNat ++ [x, y, z] ++ l.drop c.toNat) := by
  obtain ⟨n, rfl⟩ := Int.eq_ofNat_of_zero_le h0
  have hn : n ≤ l.length := by exact_mod_cast h1
  have e1 : TArrayInsert l x (n : Int) = some (l.take n ++ x :: l.drop n) := by
    conv_lhs => rw [← List.take_append_drop n l]
    exact TArrayInsert_append _ _ _ _ (by simp [hn])
  have e2 : TArrayInsert (l.take n ++ x :: l.drop n) y ((n : Int) + 1)
      = some (l.take n ++ x :: y :: l.drop n) := by
    have := TArrayInsert_append (l.take n ++ [x]) (l.drop n) y ((n : Int) + 1) (by simp [hn])
    simpa using this
  have e3 : TArrayInsert (l.take n ++ x :: y :: l.drop n) z ((n : Int) + 2)
      = some (l.take n ++ x :: y :: z :: l.drop n) := by
    have := TArrayInsert_append (l.take n ++ [x, y]) (l.drop n) z ((n : Int) + 2) (by simp [hn])
    simpa using this
  rw [e1, Option.some_bind, e2, Option.some_bind, e3, Option.some_bind]
  simp

theorem FMassInt16Real.Set_zero : FMassInt16Real.Set 0 = { Value := 0 } := by
  simp [FMassInt16Real.Set]
  norm_num [Int.floor_eq_iff]

/-- In a nav-mesh move a successful `UnstashMoveTarget` had its cursor in range
and produced the placeholder order. -/
theorem UnstashMoveTarget_navmesh_some (ext : FExternals)
    (Source Destination : FMassMoveTargetFragment) (World : UWorld)
    (Nav : FMassNavMeshMoveFragment) (T : FTransform)
    (d : FMassMoveTargetFragment) (nav : FMassNavMeshMoveFragment)
    (h : UnstashMoveTarget ext Source Destination World true Nav T = some (d, nav)) :
    (0 ≤ Nav.CurrentActionIndex ∧ Nav.CurrentActionIndex ≤ (Nav.Actions.length : Int))
    ∧ d = { Destination.CreateNewAction EMassMovementAction.Stand World with
            Center := T.GetLocation
            Forward := ext.GetSafeNormal (Source.Center.sub T.GetLocation)
            DistanceToGoal := 0
            bOffBoundaries := true
            DesiredSpeed := FMassInt16Real.Set 0
            IntentAtGoal := EMassMovementAction.Move } := by
  by_cases hr : 0 ≤ Nav.CurrentActionIndex ∧ Nav.CurrentActionIndex ≤ (Nav.Actions.length : Int)
  · refine ⟨hr, ?_⟩
    unfold UnstashMoveTarget at h
    simp only [if_true] at h
    rw [TArrayInsert_three _ _ _ _ _ _ hr.1 hr.2] at h
    simp only [Option.some.injEq, Prod.mk.injEq] at h
    exact h.1.symm
  · exfalso
    unfold UnstashMoveTarget at h
    simp only [if_true] at h
    rw [TArrayInsert_eq_none _ _ _ hr] at h
    simp at h

/-- The Applier never writes the stashed order or the transform of an entity,
and keeps its handle and tags. -/
theorem ProcessInvalidTarget_frame (ext : FExternals) (World : UWorld)
    (I : List FMassEntityHandle) (e : FEntity) (Step : FInvalidateStep)
    (h : ProcessInvalidTarget ext World I e = some Step) :
    Step.Entity.StashedMoveTarget = e.StashedMoveTarget
    ∧ Step.Entity.Transform = e.Transform
    ∧ Step.Entity.Handle = e.Handle
    ∧ Step.Entity.Tags = e.Tags
    ∧ Step.Entity.TeamMember = e.TeamMember := by
  unfold ProcessInvalidTarget at h
  dsimp only at h
  repeat' split at h
  all_goals first
    | (cases h; done)
    | (cases h; exact ⟨rfl, rfl, rfl, rfl, rfl⟩)


/-! ## Lemmas: the validity predicate -/

/-- The candidate loop returns `true` only on an obstructing candidate and
runs to its end only when no candidate obstructs. -/
theorem ProcessCloseEntities_sound (ext : FExternals) (TFS : UMassTargetFinderSubsystem)
    (Entity : FMassEntityHandle) (ES : UMassEntitySubsystem) (Team : Bool) (Cal : ℚ)
    (Cap : FCapsule) (l : List FMassTargetGridItem) (b : Bool)
    (h : ProcessCloseEntities ext TFS Entity ES Team Cal Cap l = some b) :
    b = l.any (SpecObstructingCandidate ext TFS Entity ES Team Cal Cap) := by
  induction l with
  | nil =>
    simp only [ProcessCloseEntities, Option.some.injEq] at h
    simp [← h]
  | cons o rest ih =>
    unfold ProcessCloseEntities at h
    simp only [List.any_cons, SpecObstructingCandidate]
    by_cases h1 : o.Entity = Entity
    · rw [if_pos h1] at h
      simpa [h1, SpecObstructingCandidate] using ih h
    · rw [if_neg h1] at h
      by_cases h2 : ES.IsEntityValid o.Entity = true
      · simp only [h2, Bool.not_true, Bool.false_eq_true, if_false] at h
        by_cases h3 : ((Team == o.bIsOnTeam1)
            || !ext.CanEntityDamageTargetEntity Cal o.MinCaliberForDamage) = true
        · rw [if_pos h3] at h
          cases hd : TFS.TargetDynamicData o.Entity with
          | none => simp [hd] at h
          | some d =>
            simp only [hd, DidCapsulesCollide] at h
            by_cases h4 : ext.TestCapsuleCapsule Cap d.Capsule = true
            · rw [if_pos h4] at h
              cases h
              simp [h1, h2, h3, hd, h4]
            · rw [if_neg h4] at h
              have := ih h
              simp only [SpecObstructingCandidate] at this
              simp [h1, h2, h3, hd, h4, this]
        · rw [if_neg h3] at h
          have := ih h
          simp only [SpecObstructingCandidate] at this
          simp [h1, h2, h3, this]
      · simp only [h2, Bool.not_false, if_true] at h
        have := ih h
        simp only [SpecObstructingCandidate] at this
        simp [h1, h2, this]

/-- The candidate loop does not fail when every candidate has dynamic data. -/
theorem ProcessCloseEntities_isSome (ext : FExternals) (TFS : UMassTargetFinderSubsystem)
    (Entity : FMassEntityHandle) (ES : UMassEntitySubsystem) (Team : Bool) (Cal : ℚ)
    (Cap : FCapsule) (l : List FMassTargetGridItem)
    (hdata : ∀ o ∈ l, (TFS.TargetDynamicData o.Entity).isSome = true) :
    ∃ b, ProcessCloseEntities ext TFS Entity ES Team Cal Cap l = some b := by
  induction l with
  | nil => exact ⟨false, rfl⟩
  | cons o rest ih =>
    have ih2 := ih (fun x hx => hdata x (List.mem_cons_of_mem _ hx))
    have ho := hdata o (List.mem_cons_self _ _)
    unfold ProcessCloseEntities
    split
    · exact ih2
    · split
      · exact ih2
      · split
        · obtain ⟨d, hd⟩ := Option.isSome_iff_exists.mp ho
          simp only [hd]
          split
          · exact ⟨true, rfl⟩
          · exact ih2
        · exact ih2

theorem ProcessCloseEntities_eq (ext : FExternals) (TFS : UMassTargetFinderSubsystem)
    (Entity : FMassEntityHandle) (ES : UMassEntitySubsystem) (Team : Bool) (Cal : ℚ)
    (Cap : FCapsule) (l : List FMassTargetGridItem)
    (hdata : ∀ o ∈ l, (TFS.TargetDynamicData o.Entity).isSome = true) :
    ProcessCloseEntities ext TFS Entity ES Team Cal Cap l
      = some (l.any (SpecObstructingCandidate ext TFS Entity ES Team Cal Cap)) := by
  obtain ⟨b, hb⟩ := ProcessCloseEntities_isSome ext TFS Entity ES Team Cal Cap l hdata
  rw [hb, ProcessCloseEntities_sound ext TFS Entity ES Team Cal Cap l b hb]

/-- The result of `IsTargetEntityObstructed` in terms of its candidate loop. -/
theorem IsTargetEntityObstructed_of_loop (ext : FExternals) (E T : FVector)
    (TFS : UMassTargetFinderSubsystem) (Entity : FMassEntityHandle) (ES : UMassEntitySubsystem)
    (Team Soldier : Bool) (Cal : ℚ) (View : FEntity) (Tr : FTransform) (b : Bool)
    (h : ProcessCloseEntities ext TFS Entity ES Team Cal
      (ext.GetProjectileTraceCapsuleToTarget Soldier
        (View.HasTag FTag.FMassProjectileDamagableSoldierTag) Tr T)
      (TFS.Query (QueryBounds E T)) = some b) :
    IsTargetEntityObstructed ext E T TFS Entity ES Team Soldier Cal View Tr
      = some (b || !ext.IsTargetEntityVisibleViaSphereTrace
          (ext.GetProjectileTraceCapsuleToTarget Soldier
            (View.HasTag FTag.FMassProjectileDamagableSoldierTag) Tr T).a
          (ext.GetProjectileTraceCapsuleToTarget Soldier
            (View.HasTag FTag.FMassProjectileDamagableSoldierTag) Tr T).b) := by
  unfold IsTargetEntityObstructed
  simp only [h]
  cases b <;> simp

theorem IsTargetEntityObstructed_some (ext : FExternals) (E T : FVector)
    (TFS : UMassTargetFinderSubsystem) (Entity : FMassEntityHandle) (ES : UMassEntitySubsystem)
    (Team Soldier : Bool) (Cal : ℚ) (View : FEntity) (Tr : FTransform) (r : Bool)
    (h : IsTargetEntityObstructed ext E T TFS Entity ES Team Soldier Cal View Tr = some r) :
    r = SpecIsTargetEntityObstructed ext E T TFS Entity ES Team Soldier Cal View Tr := by
  cases hl : ProcessCloseEntities ext TFS Entity ES Team Cal
      (ext.GetProjectileTraceCapsuleToTarget Soldier
        (View.HasTag FTag.FMassProjectileDamagableSoldierTag) Tr T)
      (TFS.Query (QueryBounds E T)) with
  | none =>
    unfold IsTargetEntityObstructed at h
    simp [hl] at h
  | some b =>
    rw [IsTargetEntityObstructed_of_loop ext E T TFS Entity ES Team Soldier Cal View Tr b hl] at h
    have hb := ProcessCloseEntities_sound _ _ _ _ _ _ _ _ _ hl
    simp only [Option.some.injEq] at h
    rw [← h, hb]
    unfold SpecIsTargetEntityObstructed
    simp only
    cases (TFS.Query (QueryBounds E T)).any (SpecObstructingCandidate ext TFS Entity ES Team Cal
      (ext.GetProjectileTraceCapsuleToTarget Soldier
        (View.HasTag FTag.FMassProjectileDamagableSoldierTag) Tr T)) <;> simp

theorem UMassEntitySubsystem.View_isSome (es : UMassEntitySubsystem) (h : FMassEntityHandle) :
    (es.View h).isSome = es.IsEntityValid h := by
  unfold UMassEntitySubsystem.View UMassEntitySubsystem.IsEntityValid
  induction es.Entities with
  | nil => rfl
  | cons a l ih =>
    by_cases ha : a.Handle = h
    · simp [List.find?_cons, ha]
    · simp only [List.find?_cons, ha, decide_False, List.any_cons, Bool.false_or]
      exact ih

theorem IsTargetValid_invalidateAll (ext : FExternals) (Entity TargetEntity : FMassEntityHandle)
    (ES : UMassEntitySubsystem) (Cal : ℚ) (TFS : UMassTargetFinderSubsystem)
    (Team Soldier : Bool) (Tr : FTransform) (eo : Bool) :
    IsTargetValid ext Entity TargetEntity ES Cal TFS Team Soldier Tr true eo = some false := by
  simp [IsTargetValid]

theorem IsTargetValid_dead (ext : FExternals) (Entity TargetEntity : FMassEntityHandle)
    (ES : UMassEntitySubsystem) (Cal : ℚ) (TFS : UMassTargetFinderSubsystem)
    (Team Soldier : Bool) (Tr : FTransform) (inv eo : Bool)
    (hdead : ES.IsEntityValid TargetEntity = false) :
    IsTargetValid ext Entity TargetEntity ES Cal TFS Team Soldier Tr inv eo = some false := by
  cases inv <;> simp [IsTargetValid, hdead]

theorem IsTargetValid_existenceOnly (ext : FExternals) (Entity TargetEntity : FMassEntityHandle)
    (ES : UMassEntitySubsystem) (Cal : ℚ) (TFS : UMassTargetFinderSubsystem)
    (Team Soldier : Bool) (Tr : FTransform) (inv : Bool) :
    IsTargetValid ext Entity TargetEntity ES Cal TFS Team Soldier Tr inv true
      = some (!inv && ES.IsEntityValid TargetEntity) := by
  cases inv <;> cases hv : ES.IsEntityValid TargetEntity <;> simp [IsTargetValid, hv]

/-- The full check of `IsTargetValid` on a live target with a transform. -/
theorem IsTargetValid_full (ext : FExternals) (Entity TargetEntity : FMassEntityHandle)
    (ES : UMassEntitySubsystem) (Cal : ℚ) (TFS : UMassTargetFinderSubsystem)
    (Team Soldier : Bool) (Tr : FTransform) (View : FEntity) (Tf : FTransformFragment)
    (hview : ES.View TargetEntity = some View) (htf : View.Transform = some Tf) :
    IsTargetValid ext Entity TargetEntity ES Cal TFS Team Soldier Tr false false
      = if IsTargetEntityOutOfRange ext Tf.GetTransform.GetLocation Tr.GetLocation Entity
            Soldier = true then some false
        else (IsTargetEntityObstructed ext Tr.GetLocation Tf.GetTransform.GetLocation TFS Entity
                ES Team Soldier Cal View Tr).map fun b => !b := by
  have hv : ES.IsEntityValid TargetEntity = true := by
    rw [← UMassEntitySubsystem.View_isSome, hview]; rfl
  simp only [IsTargetValid, hv, hview, htf, Bool.false_eq_true, if_false, Bool.not_true]
  split
  · rfl
  · cases hO : IsTargetEntityObstructed ext Tr.GetLocation Tf.GetTransform.GetLocation TFS Entity
        ES Team Soldier Cal View Tr with
    | none => rfl
    | some b => cases b <;> rfl

/-! ## Lemmas: the phases of the tick -/

theorem ConvertQueueToArray_eq {α : Type} (q : List α) : ConvertQueueToArray q = q := by
  unfold ConvertQueueToArray
  have : ∀ (acc : List α), q.foldl (fun Arr Item => Arr ++ [Item]) acc = acc ++ q := by
    induction q with
    | nil => intro acc; simp
    | cons a l ih => intro acc; simp [List.foldl_cons, ih]
  simpa using this []

theorem TSetAdd_mem (S : List FMassEntityHandle) (x h : FMassEntityHandle) :
    h ∈ TSetAdd S x ↔ h ∈ S ∨ h = x := by
  unfold TSetAdd
  by_cases hx : S.contains x = true
  · rw [if_pos hx]
    have : x ∈ S := by simpa using hx
    constructor
    · exact Or.inl
    · rintro (h1 | h1)
      · exact h1
      · rw [h1]; exact this
  · rw [if_neg hx]
    simp

theorem TSetAdd_nodup (S : List FMassEntityHandle) (x : FMassEntityHandle) (hS : S.Nodup) :
    (TSetAdd S x).Nodup := by
  unfold TSetAdd
  by_cases hx : S.contains x = true
  · rw [if_pos hx]; exact hS
  · rw [if_neg hx]
    have : x ∉ S := by simpa using hx
    rw [List.nodup_append]
    refine ⟨hS, List.nodup_singleton x, ?_⟩
    intro a ha hb
    rw [List.mem_singleton] at hb
    exact this (hb ▸ ha)

theorem foldl_TSetAdd_mem (q S : List FMassEntityHandle) (h : FMassEntityHandle) :
    h ∈ q.foldl TSetAdd S ↔ h ∈ S ∨ h ∈ q := by
  induction q generalizing S with
  | nil => simp
  | cons a l ih =>
    rw [List.foldl_cons, ih, TSetAdd_mem, List.mem_cons]
    tauto

theorem foldl_TSetAdd_nodup (q S : List FMassEntityHandle) (hS : S.Nodup) :
    (q.foldl TSetAdd S).Nodup := by
  induction q generalizing S with
  | nil => simpa using hS
  | cons a l ih =>
    rw [List.foldl_cons]
    exact ih _ (TSetAdd_nodup S a hS)

theorem BuildInvalidTargetsSet_mem (q : List FMassEntityHandle) (h : FMassEntityHandle) :
    h ∈ BuildInvalidTargetsSet q ↔ h ∈ q := by
  unfold BuildInvalidTargetsSet
  rw [foldl_TSetAdd_mem]
  simp

theorem BuildInvalidTargetsSet_nodup (q : List FMassEntityHandle) :
    (BuildInvalidTargetsSet q).Nodup :=
  foldl_TSetAdd_nodup q [] List.nodup_nil

/-- What `ProcessEntity` does in terms of the validity of the job. -/
theorem ProcessEntity_eq (ext : FExternals) (d : FProcessEntityData) (inv : Bool)
    (ES : UMassEntitySubsystem) (TFS : UMassTargetFinderSubsystem)
    (q : List FMassEntityHandle) :
    ProcessEntity ext d inv ES TFS q
      = (JobIsTargetValid ext d inv ES TFS).map fun v =>
          (!v, if v then q else q ++ [d.Entity]) := by
  unfold ProcessEntity JobIsTargetValid
  cases IsTargetValid ext d.Entity d.TargetEntity ES d.TargetMinCaliberForDamage TFS
    d.bIsEntityOnTeam1 d.bIsEntitySoldier d.EntityTransform inv
    d.bOnlyCheckIfTargetEntityValidInEntitySubsystem with
  | none => rfl
  | some v => cases v <;> rfl

/-- The fan-out succeeds exactly when no job fails a check, and then enqueues
the agents of the jobs found invalid, in job order. -/
theorem ProcessEntities_eq_some (ext : FExternals) (inv : Bool) (ES : UMassEntitySubsystem)
    (TFS : UMassTargetFinderSubsystem) (jobs : List FProcessEntityData)
    (q q1 : List FMassEntityHandle) :
    ProcessEntities ext inv ES TFS jobs q = some q1
      ↔ (∀ j ∈ jobs, (JobIsTargetValid ext j inv ES TFS).isSome = true)
        ∧ q1 = q ++ (jobs.filter fun j =>
            decide (JobIsTargetValid ext j inv ES TFS = some false)).map
              FProcessEntityData.Entity := by
  induction jobs generalizing q with
  | nil =>
    simp only [ProcessEntities, Option.some.injEq, List.not_mem_nil, false_implies, implies_true,
      List.filter_nil, List.map_nil, List.append_nil, true_and]
    exact eq_comm
  | cons j rest ih =>
    unfold ProcessEntities
    rw [ProcessEntity_eq]
    cases hv : JobIsTargetValid ext j inv ES TFS with
    | none =>
      simp only [Option.map_none', List.mem_cons, forall_eq_or_imp, hv, Option.isSome_none,
        Bool.false_eq_true, false_and]
      exact ⟨fun h => Option.noConfusion h, False.elim⟩
    | some v =>
      cases v
      · simp only [Option.map_some', Bool.false_eq_true, if_false, ih, List.mem_cons,
          forall_eq_or_imp, hv, Option.isSome_some, true_and, List.filter_cons, decide_True,
          if_true, List.map_cons, List.append_assoc, List.singleton_append]
      · simp only [Option.map_some', if_true, ih, List.mem_cons, forall_eq_or_imp, hv,
          Option.isSome_some, true_and, List.filter_cons, Option.some.injEq,
          Bool.true_eq_false, decide_False, Bool.false_eq_true, if_false]

/-- The step of the Applier on an entity it does not visit or finds valid. -/
theorem ProcessInvalidTarget_skip (ext : FExternals) (World : UWorld)
    (I : List FMassEntityHandle) (e : FEntity)
    (h : (e.MatchesInvalidateTargetsQuery && I.contains e.Handle) = false) :
    ProcessInvalidTarget ext World I e = some { Entity := e, Unstashed := [], Entered := [] } := by
  unfold ProcessInvalidTarget
  unfold FEntity.MatchesInvalidateTargetsQuery at h
  cases h1 : e.TargetEntity <;> cases h2 : e.NavMeshMove <;> cases h3 : e.Transform <;>
    simp_all

/-- The step of the Applier on a visited entity of the invalid set: the target
identity is reset, the `bIsInvalid` branch is recorded once, and the entity is
enqueued for tag cleanup exactly when its stash is restorable. -/
theorem ProcessInvalidTarget_enter (ext : FExternals) (World : UWorld)
    (I : List FMassEntityHandle) (e : FEntity) (Step : FInvalidateStep)
    (hm : (e.MatchesInvalidateTargetsQuery && I.contains e.Handle) = true)
    (h : ProcessInvalidTarget ext World I e = some Step) :
    Step.Entered = [e.Handle]
    ∧ Step.Entity.TargetEntity = e.TargetEntity.map FTargetEntityFragment.ResetEntity
    ∧ Step.Unstashed = (if e.HasRestorableStash then [e.Handle] else [])
    ∧ (e.HasRestorableStash = false →
        Step.Entity.MoveTarget = e.MoveTarget ∧ Step.Entity.NavMeshMove = e.NavMeshMove) := by
  unfold FEntity.MatchesInvalidateTargetsQuery at hm
  unfold ProcessInvalidTarget at h
  unfold FEntity.HasRestorableStash
  cases h1 : e.TargetEntity <;> cases h2 : e.NavMeshMove <;> cases h3 : e.Transform <;>
    simp only [h1, h2, h3, Option.isSome_none, Option.isSome_some, Bool.false_and, Bool.and_false,
      Bool.true_and, Bool.false_eq_true] at hm
  simp only [h1, h2, h3, hm, if_true] at h
  cases h4 : e.StashedMoveTarget <;> cases h5 : e.MoveTarget <;>
    simp only [h4, h5] at h
  case some.some s m =>
    by_cases ht : e.HasTag FTag.FMassHasStashedMoveTargetTag = true
    · simp only [ht, if_true] at h
      split at h
      · cases h
      · cases h
        simp [FTargetEntityFragment.ResetEntity, ht]
    · simp only [ht, Bool.false_eq_true, if_false] at h
      cases h
      simp [FTargetEntityFragment.ResetEntity, ht, h1, h2, h3, h4, h5]
  all_goals
    cases h
    simp [FTargetEntityFragment.ResetEntity, h1, h2, h3, h4, h5]

/-- The Applier pass, entity by entity: every entity of the store is mapped
by its step, the `bIsInvalid` branch runs on the visited entities of the
invalid set, and the unstashed queue holds those of them with a restorable
stash. -/
theorem ProcessInvalidTargets_spec (ext : FExternals) (World : UWorld)
    (I : List FMassEntityHandle) (es es1 : List FEntity) (U En : List FMassEntityHandle)
    (h : ProcessInvalidTargets ext World I es = some (es1, U, En)) :
    List.Forall₂
        (fun e e1 => ∃ Step, ProcessInvalidTarget ext World I e = some Step ∧ Step.Entity = e1)
        es es1
    ∧ En = (es.filter fun e => e.MatchesInvalidateTargetsQuery && I.contains e.Handle).map
        FEntity.Handle
    ∧ U = (es.filter fun e => e.MatchesInvalidateTargetsQuery && I.contains e.Handle
        && e.HasRestorableStash).map FEntity.Handle := by
  induction es generalizing es1 U En with
  | nil =>
    simp only [ProcessInvalidTargets, Option.some.injEq, Prod.mk.injEq] at h
    obtain ⟨rfl, rfl, rfl⟩ := h
    exact ⟨List.Forall₂.nil, rfl, rfl⟩
  | cons e rest ih =>
    unfold ProcessInvalidTargets at h
    cases hs : ProcessInvalidTarget ext World I e with
    | none => simp [hs] at h
    | some Step =>
      cases hr : ProcessInvalidTargets ext World I rest with
      | none => simp [hs, hr] at h
      | some r =>
        obtain ⟨es2, U2, En2⟩ := r
        simp only [hs, hr, Option.some.injEq, Prod.mk.injEq] at h
        obtain ⟨rfl, rfl, rfl⟩ := h
        obtain ⟨ih1, ih2, ih3⟩ := ih es2 U2 En2 hr
        refine ⟨List.Forall₂.cons ⟨Step, hs, rfl⟩ ih1, ?_, ?_⟩
        · cases hm : (e.MatchesInvalidateTargetsQuery && I.contains e.Handle)
          · rw [ProcessInvalidTarget_skip ext World I e hm] at hs
            cases hs
            simp only [List.filter_cons, hm, ih2, Bool.false_eq_true, if_false, List.nil_append]
          · have := ProcessInvalidTarget_enter ext World I e Step hm hs
            simp only [List.filter_cons, hm, ih2, this.1, if_true, List.map_cons,
              List.singleton_append]
        · cases hm : (e.MatchesInvalidateTargetsQuery && I.contains e.Handle)
          · rw [ProcessInvalidTarget_skip ext World I e hm] at hs
            cases hs
            simp only [List.filter_cons, hm, ih3, Bool.false_and, Bool.false_eq_true, if_false,
              List.nil_append]
          · have := ProcessInvalidTarget_enter ext World I e Step hm hs
            rw [this.2.2.1]
            cases hst : e.HasRestorableStash
            · simp only [List.filter_cons, hm, hst, ih3, Bool.and_false, Bool.false_eq_true,
                if_false, List.nil_append]
            · simp only [List.filter_cons, hm, hst, ih3, Bool.and_true, if_true, List.map_cons,
                List.singleton_append]

theorem ProcessQueuesInvalid_eq (I : List FMassEntityHandle) (D : List FDeferredCommand)
    (T : List FMassEntityHandle) :
    ProcessQueuesInvalid I D T = (D ++ I.flatMap InvalidTargetCommands, T ++ I) := by
  unfold ProcessQueuesInvalid
  induction I generalizing D T with
  | nil => simp
  | cons a l ih =>
    rw [List.foldl_cons, ih]
    simp [InvalidTargetCommands, List.flatMap_cons]

theorem ProcessQueuesUnstashed_eq (U : List FMassEntityHandle) (D : List FDeferredCommand) :
    ProcessQueuesUnstashed U D
      = D ++ U.map (FDeferredCommand.RemoveTag FTag.FMassHasStashedMoveTargetTag) := by
  unfold ProcessQueuesUnstashed
  induction U generalizing D with
  | nil => simp
  | cons a l ih =>
    rw [List.foldl_cons, ih]
    simp

/-- What the Finalizer leaves behind when it returns. -/
theorem ProcessQueues_spec (s s2 : FState) (I U : List FMassEntityHandle)
    (h : ProcessQueues s I U = some s2) :
    s2.EntitySubsystem = s.EntitySubsystem
    ∧ s2.ShouldInvalidateAllTargets = s.ShouldInvalidateAllTargets
    ∧ s2.TransientEntitiesToSignal = I
    ∧ s2.Deferred = s.Deferred ++ (I.flatMap InvalidTargetCommands
        ++ U.map (FDeferredCommand.RemoveTag FTag.FMassHasStashedMoveTargetTag))
    ∧ (I = [] → s2.SignalSubsystem = s.SignalSubsystem)
    ∧ (I ≠ [] → ∃ Signal, s.SignalSubsystem = some Signal
        ∧ s2.SignalSubsystem = some
            { Sent := Signal.Sent ++ [(FSignalName.NewStateTreeTaskRequired, I)] }) := by
  unfold ProcessQueues at h
  simp only [ProcessQueuesInvalid_eq, ProcessQueuesUnstashed_eq, List.nil_append] at h
  by_cases hI : I = []
  · subst hI
    simp only [List.length_nil, ne_eq, not_true_eq_false, if_false, Option.some.injEq] at h
    subst h
    simp
  · have hl : I.length ≠ 0 := by simpa using hI
    simp only [hl, ne_eq, not_false_eq_true, if_true] at h
    cases hsig : s.SignalSubsystem with
    | none => simp [hsig] at h
    | some Signal =>
      simp only [hsig, Option.some.injEq] at h
      subst h
      simp [hI, UMassSignalSubsystem.SignalEntities]

/-- The phases of a tick that ran with the target finder subsystem present. -/
theorem Execute_spec (ext : FExternals) (s s2 : FState) (L : FExecuteLocals)
    (TFS : UMassTargetFinderSubsystem) (hT : s.TargetFinderSubsystem = some TFS)
    (h : Execute ext s = some (s2, L)) :
    L.EntitiesToCheck = BuildQueue s.EntitySubsystem.Entities
        ++ BuildQueueForTrackTarget ext s.EntitySubsystem.Entities
    ∧ ProcessEntities ext s.ShouldInvalidateAllTargets s.EntitySubsystem TFS L.EntitiesToCheck []
        = some ((L.EntitiesToCheck.filter fun j =>
            decide (JobIsTargetValid ext j s.ShouldInvalidateAllTargets s.EntitySubsystem TFS
              = some false)).map FProcessEntityData.Entity)
    ∧ L.EntitiesWithInvalidTargets = BuildInvalidTargetsSet
        ((L.EntitiesToCheck.filter fun j =>
            decide (JobIsTargetValid ext j s.ShouldInvalidateAllTargets s.EntitySubsystem TFS
              = some false)).map FProcessEntityData.Entity)
    ∧ ProcessInvalidTargets ext s.EntitySubsystem.World L.EntitiesWithInvalidTargets
        s.EntitySubsystem.Entities = some (s2.EntitySubsystem.Entities, L.Unstashed, L.Entered)
    ∧ s2.EntitySubsystem.World = s.EntitySubsystem.World
    ∧ ProcessQueues
        { s with
          EntitySubsystem := { s.EntitySubsystem with Entities := s2.EntitySubsystem.Entities }
          ShouldInvalidateAllTargets := false }
        L.EntitiesWithInvalidTargets L.Unstashed = some s2 := by
  unfold Execute at h
  simp only [hT, ConvertQueueToArray_eq] at h
  cases hq : ProcessEntities ext s.ShouldInvalidateAllTargets s.EntitySubsystem TFS
      (BuildQueue s.EntitySubsystem.Entities
        ++ BuildQueueForTrackTarget ext s.EntitySubsystem.Entities) [] with
  | none => simp [hq] at h
  | some q =>
    simp only [hq] at h
    cases hp : ProcessInvalidTargets ext s.EntitySubsystem.World (BuildInvalidTargetsSet q)
        s.EntitySubsystem.Entities with
    | none => simp [hp] at h
    | some r =>
      obtain ⟨es1, U, En⟩ := r
      simp only [hp] at h
      split at h
      · cases h
      · rename_i s3 hf
        simp only [Option.some.injEq, Prod.mk.injEq] at h
        obtain ⟨rfl, rfl⟩ := h
        have hq2 := (ProcessEntities_eq_some ext _ _ TFS _ [] q).mp hq
        have hqe := hq2.2
        simp only [List.nil_append] at hqe
        have hes := (ProcessQueues_spec _ _ _ _ hf).1
        have hes1 : s3.EntitySubsystem.Entities = es1 := by rw [hes]
        have hw : s3.EntitySubsystem.World = s.EntitySubsystem.World := by rw [hes]
        refine ⟨rfl, ?_, ?_, ?_, hw, ?_⟩
        · show ProcessEntities ext s.ShouldInvalidateAllTargets s.EntitySubsystem TFS
            (BuildQueue s.EntitySubsystem.Entities
              ++ BuildQueueForTrackTarget ext s.EntitySubsystem.Entities) [] = _
          rw [hq, hqe]
        · show BuildInvalidTargetsSet q = _
          rw [hqe]
        · show ProcessInvalidTargets ext s.EntitySubsystem.World (BuildInvalidTargetsSet q)
            s.EntitySubsystem.Entities = _
          rw [hes1]; exact hp
        · show ProcessQueues _ (BuildInvalidTargetsSet q) U = _
          rw [hes1, hT]; exact hf

/-- What a tick that ran with the target finder subsystem present records of the
flag: the value read at line 325 is the one of the start of the tick, and at
the write of line 386 the command buffer is the one of the start of the tick. -/
theorem Execute_flag (ext : FExternals) (s s2 : FState) (L : FExecuteLocals)
    (TFS : UMassTargetFinderSubsystem) (hT : s.TargetFinderSubsystem = some TFS)
    (h : Execute ext s = some (s2, L)) :
    L.bInvalidateAllTargets = some s.ShouldInvalidateAllTargets
    ∧ L.DeferredAtReset = some s.Deferred := by
  unfold Execute at h
  simp only [hT] at h
  split at h
  · cases h
  · split at h
    · cases h
    · split at h
      · cases h
      · simp only [Option.some.injEq, Prod.mk.injEq] at h
        obtain ⟨-, rfl⟩ := h
        exact ⟨rfl, rfl⟩

/-- A tick without the target finder subsystem returns the state it was given. -/
theorem Execute_skip (ext : FExternals) (s : FState) (hT : s.TargetFinderSubsystem = none) :
    Execute ext s = some (s, { EntitiesToCheck := [], EntitiesWithInvalidTargets := [],
                               Unstashed := [], Entered := [] }) := by
  unfold Execute
  simp [hT]

theorem Forall₂_mem_left {α β : Type} (R : α → β → Prop) (l1 : List α) (l2 : List β)
    (h : List.Forall₂ R l1 l2) : List.Forall₂ (fun a b => a ∈ l1 ∧ R a b) l1 l2 := by
  induction h with
  | nil => exact List.Forall₂.nil
  | cons hab _ ih =>
    refine List.Forall₂.cons ⟨List.mem_cons_self _ _, hab⟩ ?_
    exact ih.imp fun a b hab2 => ⟨List.mem_cons_of_mem _ hab2.1, hab2.2⟩

/-- With distinct handles, the handle of an entity of the store is among the
handles of the entities selected by a filter exactly when the filter selects
that entity, and then it occurs there once. -/
theorem mem_filter_map_Handle (es : List FEntity) (p : FEntity → Bool) (e : FEntity)
    (hnd : (es.map FEntity.Handle).Nodup) (he : e ∈ es) :
    (e.Handle ∈ (es.filter p).map FEntity.Handle ↔ p e = true)
    ∧ (p e = true → ((es.filter p).map FEntity.Handle).count e.Handle = 1) := by
  have hiff : e.Handle ∈ (es.filter p).map FEntity.Handle ↔ p e = true := by
    rw [List.mem_map]
    constructor
    · rintro ⟨e2, hm, heq⟩
      rw [List.mem_filter] at hm
      have := List.inj_on_of_nodup_map hnd hm.1 he heq
      rw [← this]; exact hm.2
    · intro hp
      exact ⟨e, List.mem_filter.mpr ⟨he, hp⟩, rfl⟩
  refine ⟨hiff, fun hp => ?_⟩
  have hnd2 : ((es.filter p).map FEntity.Handle).Nodup :=
    List.Nodup.sublist ((List.filter_sublist es).map _) hnd
  exact List.count_eq_one_of_mem hnd2 (hiff.mpr hp)

/-! ## Lemmas: deferred commands -/

theorem FDeferredCommand.Apply_Handle (c : FDeferredCommand) (e : FEntity) :
    (c.Apply e).Handle = e.Handle := by
  cases c <;> simp only [FDeferredCommand.Apply] <;> (repeat' split) <;> rfl

/-- A command changes the presence of a tag on an entity only when it names
that entity and that tag, and then the tag is present exactly when the command
adds it. -/
theorem FDeferredCommand.Apply_HasTag (c : FDeferredCommand) (e : FEntity) (t : FTag) :
    (c.Apply e).HasTag t
      = if c.Entity = e.Handle ∧ c.Tag = t then c.IsAdd else e.HasTag t := by
  cases c with
  | AddTag Tag Entity =>
    simp only [FDeferredCommand.Apply, FDeferredCommand.Entity, FDeferredCommand.Tag,
      FDeferredCommand.IsAdd, FEntity.HasTag]
    by_cases h1 : e.Handle = Entity
    · by_cases h2 : Tag ∈ e.Tags
      · by_cases h3 : Tag = t
        · subst h3; simp [h1, h2]
        · simp [h1, h2, h3]
      · by_cases h3 : Tag = t
        · subst h3; simp [h1, h2]
        · have : ¬ t = Tag := fun h => h3 h.symm
          simp [h1, h2, h3, this]
    · have : ¬ Entity = e.Handle := fun h => h1 h.symm
      simp [h1, this]
  | RemoveTag Tag Entity =>
    simp only [FDeferredCommand.Apply, FDeferredCommand.Entity, FDeferredCommand.Tag,
      FDeferredCommand.IsAdd, FEntity.HasTag]
    by_cases h1 : e.Handle = Entity
    · by_cases h3 : Tag = t
      · subst h3; simp [h1]
      · have : ¬ t = Tag := fun h => h3 h.symm
        simp [h1, h3, this, List.mem_filter]
    · have : ¬ Entity = e.Handle := fun h => h1 h.symm
      simp [h1, this]

theorem FlushCommands_eq_map (cmds : List FDeferredCommand) (es : List FEntity) :
    FlushCommands cmds es = es.map fun e => cmds.foldl (fun e c => c.Apply e) e := by
  unfold FlushCommands
  induction cmds generalizing es with
  | nil => simp
  | cons c rest ih =>
    rw [List.foldl_cons, ih]
    simp [List.map_map, Function.comp]

theorem foldl_Apply_Handle (cmds : List FDeferredCommand) (e : FEntity) :
    (cmds.foldl (fun e c => c.Apply e) e).Handle = e.Handle := by
  induction cmds generalizing e with
  | nil => rfl
  | cons c rest ih => rw [List.foldl_cons, ih, FDeferredCommand.Apply_Handle]

/-- When all commands about a tag of an entity agree on adding or removing it,
the tag ends up as they say if there is such a command and is unchanged
otherwise. -/
theorem foldl_Apply_HasTag (cmds : List FDeferredCommand) (e : FEntity) (t : FTag) (b : Bool)
    (hall : ∀ c ∈ cmds, c.Entity = e.Handle → c.Tag = t → c.IsAdd = b) :
    (cmds.foldl (fun e c => c.Apply e) e).HasTag t
      = if ∃ c ∈ cmds, c.Entity = e.Handle ∧ c.Tag = t then b else e.HasTag t := by
  induction cmds generalizing e with
  | nil => simp
  | cons c rest ih =>
    rw [List.foldl_cons]
    have hH := FDeferredCommand.Apply_Handle c e
    rw [ih (c.Apply e) (fun c2 hc2 h1 h2 =>
      hall c2 (List.mem_cons_of_mem _ hc2) (h1.trans hH) h2)]
    rw [hH, FDeferredCommand.Apply_HasTag]
    by_cases hr : ∃ c2 ∈ rest, c2.Entity = e.Handle ∧ c2.Tag = t
    · have : ∃ c2 ∈ c :: rest, c2.Entity = e.Handle ∧ c2.Tag = t := by
        obtain ⟨c2, h1, h2⟩ := hr
        exact ⟨c2, List.mem_cons_of_mem _ h1, h2⟩
      rw [if_pos hr, if_pos this]
    · rw [if_neg hr]
      by_cases hc : c.Entity = e.Handle ∧ c.Tag = t
      · have : ∃ c2 ∈ c :: rest, c2.Entity = e.Handle ∧ c2.Tag = t :=
          ⟨c, List.mem_cons_self _ _, hc⟩
        rw [if_pos hc, if_pos this]
        exact hall c (List.mem_cons_self _ _) hc.1 hc.2
      · have : ¬ ∃ c2 ∈ c :: rest, c2.Entity = e.Handle ∧ c2.Tag = t := by
          rintro ⟨c2, h1, h2⟩
          rcases List.mem_cons.mp h1 with rfl | h1
          · exact hc h2
          · exact hr ⟨c2, h1, h2⟩
        rw [if_neg hc, if_neg this]

/-- The commands of a tick: membership. -/
theorem mem_tick_commands (I U : List FMassEntityHandle) (c : FDeferredCommand) :
    c ∈ I.flatMap InvalidTargetCommands
        ++ U.map (FDeferredCommand.RemoveTag FTag.FMassHasStashedMoveTargetTag)
      ↔ (∃ a ∈ I, c = FDeferredCommand.AddTag FTag.FMassNeedsEnemyTargetTag a
            ∨ c = FDeferredCommand.RemoveTag FTag.FMassWillNeedEnemyTargetTag a
            ∨ c = FDeferredCommand.RemoveTag FTag.FMassTrackTargetTag a)
        ∨ ∃ a ∈ U, c = FDeferredCommand.RemoveTag FTag.FMassHasStashedMoveTargetTag a := by
  simp only [List.mem_append, List.mem_flatMap, List.mem_map, InvalidTargetCommands,
    List.mem_cons, List.mem_singleton, List.not_mem_nil, or_false]
  constructor
  · rintro (⟨a, ha, h⟩ | ⟨a, ha, h⟩)
    · exact Or.inl ⟨a, ha, h⟩
    · exact Or.inr ⟨a, ha, h.symm⟩
  · rintro (⟨a, ha, h⟩ | ⟨a, ha, h⟩)
    · exact Or.inl ⟨a, ha, h⟩
    · exact Or.inr ⟨a, ha, h.symm⟩

theorem filter_tick_commands (I U : List FMassEntityHandle) :
    (I.flatMap InvalidTargetCommands
        ++ U.map (FDeferredCommand.RemoveTag FTag.FMassHasStashedMoveTargetTag)).filter
        (fun c => c.Tag.IsTargetTag)
      = I.flatMap InvalidTargetCommands := by
  rw [List.filter_append]
  have h1 : (I.flatMap InvalidTargetCommands).filter (fun c => c.Tag.IsTargetTag)
      = I.flatMap InvalidTargetCommands := by
    rw [List.filter_eq_self]
    intro c hc
    simp only [List.mem_flatMap, InvalidTargetCommands, List.mem_cons, List.mem_singleton,
      List.not_mem_nil, or_false] at hc
    obtain ⟨a, -, rfl | rfl | rfl⟩ := hc <;> rfl
  have h2 : (U.map (FDeferredCommand.RemoveTag FTag.FMassHasStashedMoveTargetTag)).filter
      (fun c => c.Tag.IsTargetTag) = [] := by
    rw [List.filter_eq_nil_iff]
    intro c hc
    simp only [List.mem_map] at hc
    obtain ⟨a, -, rfl⟩ := hc
    simp [FDeferredCommand.Tag, FTag.IsTargetTag]
  rw [h1, h2, List.append_nil]

/-- The three target tags of an entity after the commands of a tick. -/
theorem tick_commands_tags (I U : List FMassEntityHandle) (e : FEntity) :
    let e1 := (I.flatMap InvalidTargetCommands
        ++ U.map (FDeferredCommand.RemoveTag FTag.FMassHasStashedMoveTargetTag)).foldl
          (fun e c => c.Apply e) e
    (e.Handle ∈ I →
        e1.HasTag FTag.FMassNeedsEnemyTargetTag = true
        ∧ e1.HasTag FTag.FMassWillNeedEnemyTargetTag = false
        ∧ e1.HasTag FTag.FMassTrackTargetTag = false)
    ∧ (e.Handle ∉ I →
        e1.HasTag FTag.FMassNeedsEnemyTargetTag = e.HasTag FTag.FMassNeedsEnemyTargetTag
        ∧ e1.HasTag FTag.FMassWillNeedEnemyTargetTag
            = e.HasTag FTag.FMassWillNeedEnemyTargetTag
        ∧ e1.HasTag FTag.FMassTrackTargetTag = e.HasTag FTag.FMassTrackTargetTag) := by
  intro e1
  have hN := foldl_Apply_HasTag (I.flatMap InvalidTargetCommands
        ++ U.map (FDeferredCommand.RemoveTag FTag.FMassHasStashedMoveTargetTag)) e
        FTag.FMassNeedsEnemyTargetTag true (by
    intro c hc _ ht
    rw [mem_tick_commands] at hc
    rcases hc with ⟨a, -, rfl | rfl | rfl⟩ | ⟨a, -, rfl⟩ <;>
      first | rfl | (simp [FDeferredCommand.Tag] at ht))
  have hW := foldl_Apply_HasTag (I.flatMap InvalidTargetCommands
        ++ U.map (FDeferredCommand.RemoveTag FTag.FMassHasStashedMoveTargetTag)) e
        FTag.FMassWillNeedEnemyTargetTag false (by
    intro c hc _ ht
    rw [mem_tick_commands] at hc
    rcases hc with ⟨a, -, rfl | rfl | rfl⟩ | ⟨a, -, rfl⟩ <;>
      first | rfl | (simp [FDeferredCommand.Tag] at ht))
  have hK := foldl_Apply_HasTag (I.flatMap InvalidTargetCommands
        ++ U.map (FDeferredCommand.RemoveTag FTag.FMassHasStashedMoveTargetTag)) e
        FTag.FMassTrackTargetTag false (by
    intro c hc _ ht
    rw [mem_tick_commands] at hc
    rcases hc with ⟨a, -, rfl | rfl | rfl⟩ | ⟨a, -, rfl⟩ <;>
      first | rfl | (simp [FDeferredCommand.Tag] at ht))
  constructor
  · intro hI
    have ex : ∀ (c : FDeferredCommand),
        (c = FDeferredCommand.AddTag FTag.FMassNeedsEnemyTargetTag e.Handle
          ∨ c = FDeferredCommand.RemoveTag FTag.FMassWillNeedEnemyTargetTag e.Handle
          ∨ c = FDeferredCommand.RemoveTag FTag.FMassTrackTargetTag e.Handle) →
        ∃ c2 ∈ I.flatMap InvalidTargetCommands
          ++ U.map (FDeferredCommand.RemoveTag FTag.FMassHasStashedMoveTargetTag),
          c2 = c := by
      intro c hc
      exact ⟨c, (mem_tick_commands I U c).mpr (Or.inl ⟨e.Handle, hI, hc⟩), rfl⟩
    refine ⟨?_, ?_, ?_⟩
    · rw [hN, if_pos]
      obtain ⟨c2, h1, rfl⟩ := ex _ (Or.inl rfl)
      exact ⟨_, h1, rfl, rfl⟩
    · rw [hW, if_pos]
      obtain ⟨c2, h1, rfl⟩ := ex _ (Or.inr (Or.inl rfl))
      exact ⟨_, h1, rfl, rfl⟩
    · rw [hK, if_pos]
      obtain ⟨c2, h1, rfl⟩ := ex _ (Or.inr (Or.inr rfl))
      exact ⟨_, h1, rfl, rfl⟩
  · intro hI
    have nex : ∀ t : FTag, t.IsTargetTag = true →
        ¬ ∃ c ∈ I.flatMap InvalidTargetCommands
          ++ U.map (FDeferredCommand.RemoveTag FTag.FMassHasStashedMoveTargetTag),
          c.Entity = e.Handle ∧ c.Tag = t := by
      rintro t ht ⟨c, hc, h1, h2⟩
      rw [mem_tick_commands] at hc
      rcases hc with ⟨a, ha, rfl | rfl | rfl⟩ | ⟨a, -, rfl⟩
      · exact hI (h1 ▸ ha)
      · exact hI (h1 ▸ ha)
      · exact hI (h1 ▸ ha)
      · simp only [FDeferredCommand.Tag] at h2
        rw [← h2] at ht
        exact absurd ht (by decide)
    refine ⟨?_, ?_, ?_⟩
    · rw [hN, if_neg (nex FTag.FMassNeedsEnemyTargetTag rfl)]
    · rw [hW, if_neg (nex FTag.FMassWillNeedEnemyTargetTag rfl)]
    · rw [hK, if_neg (nex FTag.FMassTrackTargetTag rfl)]

/-! ## Lemmas: restoration, scans -/

/-- The step of the Applier on a visited entity of the invalid set whose stash
is not restorable: only the target identity is reset. -/
theorem ProcessInvalidTarget_plain (ext : FExternals) (World : UWorld)
    (I : List FMassEntityHandle) (e : FEntity)
    (hm : (e.MatchesInvalidateTargetsQuery && I.contains e.Handle) = true)
    (hr : e.HasRestorableStash = false) :
    ProcessInvalidTarget ext World I e
      = some { Entity :=
                 { e with TargetEntity := e.TargetEntity.map FTargetEntityFragment.ResetEntity }
               Unstashed := []
               Entered := [e.Handle] } := by
  unfold FEntity.MatchesInvalidateTargetsQuery at hm
  unfold FEntity.HasRestorableStash at hr
  unfold ProcessInvalidTarget
  cases h1 : e.TargetEntity <;> cases h2 : e.NavMeshMove <;> cases h3 : e.Transform <;>
    simp only [h1, h2, h3, Option.isSome_none, Option.isSome_some, Bool.false_and, Bool.and_false,
      Bool.true_and, Bool.false_eq_true] at hm
  simp only [hm, if_true]
  cases h4 : e.StashedMoveTarget <;> cases h5 : e.MoveTarget <;>
    simp only [h4, h5, Option.isSome_none, Option.isSome_some, Bool.and_true, Bool.and_false]
      at hr <;>
    simp [FTargetEntityFragment.ResetEntity, hr]

/-- The step of the Applier on a visited entity of the invalid set whose stash
is restorable: the result of `UnstashMoveTarget` becomes the active order and
the navigation plan. -/
theorem ProcessInvalidTarget_restore (ext : FExternals) (World : UWorld)
    (I : List FMassEntityHandle) (e : FEntity) (Step : FInvalidateStep)
    (hm : (e.MatchesInvalidateTargetsQuery && I.contains e.Handle) = true)
    (hr : e.HasRestorableStash = true)
    (h : ProcessInvalidTarget ext World I e = some Step) :
    ∃ Stashed MoveTarget Nav Transform d nav,
      e.StashedMoveTarget = some Stashed ∧ e.MoveTarget = some MoveTarget
      ∧ e.NavMeshMove = some Nav ∧ e.Transform = some Transform
      ∧ UnstashMoveTarget ext Stashed MoveTarget World
          (e.HasTag FTag.FMassNeedsNavMeshMoveTag) Nav Transform.GetTransform = some (d, nav)
      ∧ Step.Entity.MoveTarget = some d ∧ Step.Entity.NavMeshMove = some nav := by
  unfold FEntity.MatchesInvalidateTargetsQuery at hm
  unfold FEntity.HasRestorableStash at hr
  unfold ProcessInvalidTarget at h
  cases h1 : e.TargetEntity <;> cases h2 : e.NavMeshMove <;> cases h3 : e.Transform <;>
    simp only [h1, h2, h3, Option.isSome_none, Option.isSome_some, Bool.false_and, Bool.and_false,
      Bool.true_and, Bool.false_eq_true] at hm
  simp only [h1, h2, h3, hm, if_true] at h
  cases h4 : e.StashedMoveTarget <;> cases h5 : e.MoveTarget <;>
    simp only [h4, h5, Option.isSome_none, Option.isSome_some, Bool.and_true, Bool.and_false,
      Bool.false_eq_true] at hr
  simp only [h4, h5, hr, if_true] at h
  split at h
  · cases h
  · rename_i d nav hu
    cases h
    exact ⟨_, _, _, _, d, nav, rfl, rfl, rfl, rfl, hu, rfl, rfl⟩

theorem Forall₂_exists_of_mem_left {α β : Type} (R : α → β → Prop) (l1 : List α)
    (l2 : List β) (h : List.Forall₂ R l1 l2) (a : α) (ha : a ∈ l1) : ∃ b ∈ l2, R a b := by
  induction h with
  | nil => cases ha
  | cons hab _ ih =>
    rcases List.mem_cons.mp ha with rfl | ha
    · exact ⟨_, List.mem_cons_self _ _, hab⟩
    · obtain ⟨b, hb, hr⟩ := ih ha
      exact ⟨b, List.mem_cons_of_mem _ hb, hr⟩

theorem Forall₂_exists_of_mem_right {α β : Type} (R : α → β → Prop) (l1 : List α)
    (l2 : List β) (h : List.Forall₂ R l1 l2) (b : β) (hb : b ∈ l2) : ∃ a ∈ l1, R a b := by
  induction h with
  | nil => cases hb
  | cons hab _ ih =>
    rcases List.mem_cons.mp hb with rfl | hb
    · exact ⟨_, List.mem_cons_self _ _, hab⟩
    · obtain ⟨a, ha, hr⟩ := ih hb
      exact ⟨a, List.mem_cons_of_mem _ ha, hr⟩

/-- The Applier pass keeps the handles of the store, in order. -/
theorem ProcessInvalidTargets_Handle (ext : FExternals) (World : UWorld)
    (I : List FMassEntityHandle) (es es1 : List FEntity) (U En : List FMassEntityHandle)
    (h : ProcessInvalidTargets ext World I es = some (es1, U, En)) :
    es1.map FEntity.Handle = es.map FEntity.Handle := by
  have hF := (ProcessInvalidTargets_spec ext World I es es1 U En h).1
  clear h
  induction hF with
  | nil => rfl
  | cons hab _ ih =>
    obtain ⟨Step, hs, rfl⟩ := hab
    simp only [List.map_cons, ih, (ProcessInvalidTarget_frame _ _ _ _ _ hs).2.2.1]

/-- The jobs of Scan A are those of the entities its query matches. -/
theorem mem_BuildQueue (es : List FEntity) (j : FProcessEntityData) :
    j ∈ BuildQueue es ↔ ∃ e ∈ es, ∃ Transform Target TeamMember,
      e.Transform = some Transform ∧ e.TargetEntity = some Target
      ∧ e.TeamMember = some TeamMember
      ∧ e.HasTag FTag.FMassWillNeedEnemyTargetTag = true
      ∧ j = { Entity := e.Handle
              TargetEntity := Target.Entity
              TargetMinCaliberForDamage := Target.TargetMinCaliberForDamage
              EntityTransform := Transform.GetTransform
              bIsEntityOnTeam1 := TeamMember.IsOnTeam1
              bIsEntitySoldier := e.HasTag FTag.FMassProjectileDamagableSoldierTag
              bOnlyCheckIfTargetEntityValidInEntitySubsystem := false } := by
  unfold BuildQueue
  rw [List.mem_filterMap]
  constructor
  · rintro ⟨e, he, hj⟩
    refine ⟨e, he, ?_⟩
    cases h1 : e.Transform <;> cases h2 : e.TargetEntity <;> cases h3 : e.TeamMember <;>
      simp only [h1, h2, h3] at hj <;> try cases hj
    split at hj
    · rename_i hw
      cases hj
      exact ⟨_, _, _, rfl, rfl, rfl, hw, rfl⟩
    · cases hj
  · rintro ⟨e, he, Tr, Tg, Tm, h1, h2, h3, hw, rfl⟩
    refine ⟨e, he, ?_⟩
    simp only [h1, h2, h3, hw, if_true]

/-- The jobs of Scan B are those of the entities its query matches. -/
theorem mem_BuildQueueForTrackTarget (ext : FExternals) (es : List FEntity)
    (j : FProcessEntityData) :
    j ∈ BuildQueueForTrackTarget ext es ↔ ∃ e ∈ es, ∃ Target,
      e.TargetEntity = some Target
      ∧ e.HasTag FTag.FMassTrackTargetTag = true
      ∧ j = { ext.DefaultProcessEntityData e.Handle with
              Entity := e.Handle
              TargetEntity := Target.Entity
              bOnlyCheckIfTargetEntityValidInEntitySubsystem := true } := by
  unfold BuildQueueForTrackTarget
  rw [List.mem_filterMap]
  constructor
  · rintro ⟨e, he, hj⟩
    refine ⟨e, he, ?_⟩
    cases h2 : e.TargetEntity <;> simp only [h2] at hj <;> try cases hj
    split at hj
    · rename_i hw
      cases hj
      exact ⟨_, rfl, hw, rfl⟩
    · cases hj
  · rintro ⟨e, he, Tg, h2, hw, rfl⟩
    refine ⟨e, he, ?_⟩
    simp only [h2, hw, if_true]

/-! ## Lemmas: end-to-end -/

theorem filter_stash_commands (I U : List FMassEntityHandle) :
    (I.flatMap InvalidTargetCommands
        ++ U.map (FDeferredCommand.RemoveTag FTag.FMassHasStashedMoveTargetTag)).filter
        (fun c => decide (c.Tag = FTag.FMassHasStashedMoveTargetTag))
      = U.map (FDeferredCommand.RemoveTag FTag.FMassHasStashedMoveTargetTag) := by
  rw [List.filter_append]
  have h1 : (I.flatMap InvalidTargetCommands).filter
      (fun c => decide (c.Tag = FTag.FMassHasStashedMoveTargetTag)) = [] := by
    rw [List.filter_eq_nil_iff]
    intro c hc
    simp only [List.mem_flatMap, InvalidTargetCommands, List.mem_cons, List.mem_singleton,
      List.not_mem_nil, or_false] at hc
    obtain ⟨a, -, rfl | rfl | rfl⟩ := hc <;> simp [FDeferredCommand.Tag]
  have h2 : (U.map (FDeferredCommand.RemoveTag FTag.FMassHasStashedMoveTargetTag)).filter
      (fun c => decide (c.Tag = FTag.FMassHasStashedMoveTargetTag))
      = U.map (FDeferredCommand.RemoveTag FTag.FMassHasStashedMoveTargetTag) := by
    rw [List.filter_eq_self]
    intro c hc
    simp only [List.mem_map] at hc
    obtain ⟨a, -, rfl⟩ := hc
    simp [FDeferredCommand.Tag]
  rw [h1, h2, List.nil_append]

theorem UMassEntitySubsystem.View_eq_none (es : UMassEntitySubsystem) (h : FMassEntityHandle)
    (hdead : es.IsEntityValid h = false) : es.View h = none := by
  have := UMassEntitySubsystem.View_isSome es h
  rw [hdead] at this
  cases hv : es.View h with
  | none => rfl
  | some v => rw [hv] at this; cases this

/-- An entity that either scan collects has a job with its handle and its
target identity in the job queue. -/
theorem exists_job_of_collected (ext : FExternals) (es : List FEntity) (e : FEntity)
    (Target : FTargetEntityFragment) (he : e ∈ es) (htarget : e.TargetEntity = some Target)
    (hscan : (e.Transform.isSome = true ∧ e.TeamMember.isSome = true
        ∧ e.HasTag FTag.FMassWillNeedEnemyTargetTag = true)
      ∨ e.HasTag FTag.FMassTrackTargetTag = true) :
    ∃ j ∈ BuildQueue es ++ BuildQueueForTrackTarget ext es,
      j.Entity = e.Handle ∧ j.TargetEntity = Target.Entity := by
  rcases hscan with ⟨h1, h3, hw⟩ | hk
  · obtain ⟨Tr, hTr⟩ := Option.isSome_iff_exists.mp h1
    obtain ⟨Tm, hTm⟩ := Option.isSome_iff_exists.mp h3
    refine ⟨_, List.mem_append_left _ ((mem_BuildQueue es _).mpr
      ⟨e, he, Tr, Target, Tm, hTr, htarget, hTm, hw, rfl⟩), rfl, rfl⟩
  · refine ⟨_, List.mem_append_right _ ((mem_BuildQueueForTrackTarget ext es _).mpr
      ⟨e, he, Target, htarget, hk, rfl⟩), rfl, rfl⟩

/-- A command leaves an entity as it is when it names another entity, or adds
a tag that is present, or removes a tag that is absent. -/
theorem FDeferredCommand.Apply_eq_self (c : FDeferredCommand) (e : FEntity)
    (h : c.Entity = e.Handle → e.HasTag c.Tag = c.IsAdd) : c.Apply e = e := by
  cases c with
  | AddTag Tag Entity =>
    simp only [FDeferredCommand.Apply]
    by_cases h1 : e.Handle = Entity
    · have := h h1.symm
      simp only [FDeferredCommand.Tag, FDeferredCommand.IsAdd, FEntity.HasTag] at this
      rw [if_pos h1, if_pos this]
    · rw [if_neg h1]
  | RemoveTag Tag Entity =>
    simp only [FDeferredCommand.Apply]
    by_cases h1 : e.Handle = Entity
    · have := h h1.symm
      simp only [FDeferredCommand.Tag, FDeferredCommand.IsAdd, FEntity.HasTag] at this
      rw [if_pos h1]
      have hf : (e.Tags.filter fun t => decide (t ≠ Tag)) = e.Tags := by
        rw [List.filter_eq_self]
        intro a ha
        have : a ≠ Tag := by
          rintro rfl
          have hc : e.Tags.contains a = true := by simpa using ha
          rw [hc] at this
          cases this
        simpa using this
      rw [hf]
    · rw [if_neg h1]

theorem foldl_Apply_eq_self (cmds : List FDeferredCommand) (e : FEntity)
    (h : ∀ c ∈ cmds, c.Entity = e.Handle → e.HasTag c.Tag = c.IsAdd) :
    cmds.foldl (fun e c => c.Apply e) e = e := by
  induction cmds with
  | nil => rfl
  | cons c rest ih =>
    rw [List.foldl_cons, FDeferredCommand.Apply_eq_self c e (h c (List.mem_cons_self _ _))]
    exact ih fun c2 hc2 => h c2 (List.mem_cons_of_mem _ hc2)

/-- The commands of a tick name agents of the invalid set only, when the
unstashed queue holds agents of the invalid set only. -/
theorem tick_commands_Entity (I U : List FMassEntityHandle) (hU : ∀ a ∈ U, a ∈ I)
    (c : FDeferredCommand)
    (hc : c ∈ I.flatMap InvalidTargetCommands
      ++ U.map (FDeferredCommand.RemoveTag FTag.FMassHasStashedMoveTargetTag)) :
    c.Entity ∈ I := by
  rw [mem_tick_commands] at hc
  rcases hc with ⟨a, ha, rfl | rfl | rfl⟩ | ⟨a, ha, rfl⟩
  · exact ha
  · exact ha
  · exact ha
  · exact hU a ha

/-- The unstashed queue of the Applier holds agents of the invalid set only. -/
theorem ProcessInvalidTargets_Unstashed_subset (ext : FExternals) (World : UWorld)
    (I : List FMassEntityHandle) (es es1 : List FEntity) (U En : List FMassEntityHandle)
    (h : ProcessInvalidTargets ext World I es = some (es1, U, En)) : ∀ a ∈ U, a ∈ I := by
  obtain ⟨-, -, hU⟩ := ProcessInvalidTargets_spec _ _ _ _ _ _ _ h
  intro a ha
  rw [hU, List.mem_map] at ha
  obtain ⟨e, he, rfl⟩ := ha
  have := (List.mem_filter.mp he).2
  simp only [Bool.and_eq_true] at this
  simpa using this.1.2

/-! ## Lemmas: a second run of the Applier and the Finalizer -/

theorem FDeferredCommand.Apply_frame (c : FDeferredCommand) (e : FEntity) :
    (c.Apply e).Transform = e.Transform ∧ (c.Apply e).TargetEntity = e.TargetEntity
    ∧ (c.Apply e).TeamMember = e.TeamMember
    ∧ (c.Apply e).StashedMoveTarget = e.StashedMoveTarget
    ∧ (c.Apply e).MoveTarget = e.MoveTarget ∧ (c.Apply e).NavMeshMove = e.NavMeshMove := by
  cases c <;> simp only [FDeferredCommand.Apply] <;> (repeat' split) <;>
    exact ⟨rfl, rfl, rfl, rfl, rfl, rfl⟩

/-- Deferred tag commands leave the fragments of an entity as they are. -/
theorem foldl_Apply_frame (cmds : List FDeferredCommand) (e : FEntity) :
    (cmds.foldl (fun e c => c.Apply e) e).Transform = e.Transform
    ∧ (cmds.foldl (fun e c => c.Apply e) e).TargetEntity = e.TargetEntity
    ∧ (cmds.foldl (fun e c => c.Apply e) e).TeamMember = e.TeamMember
    ∧ (cmds.foldl (fun e c => c.Apply e) e).StashedMoveTarget = e.StashedMoveTarget
    ∧ (cmds.foldl (fun e c => c.Apply e) e).MoveTarget = e.MoveTarget
    ∧ (cmds.foldl (fun e c => c.Apply e) e).NavMeshMove = e.NavMeshMove := by
  induction cmds generalizing e with
  | nil => exact ⟨rfl, rfl, rfl, rfl, rfl, rfl⟩
  | cons c rest ih =>
    rw [List.foldl_cons]
    obtain ⟨a1, a2, a3, a4, a5, a6⟩ := ih (c.Apply e)
    obtain ⟨b1, b2, b3, b4, b5, b6⟩ := FDeferredCommand.Apply_frame c e
    exact ⟨a1.trans b1, a2.trans b2, a3.trans b3, a4.trans b4, a5.trans b5, a6.trans b6⟩

/-- The has-stashed marker of an entity after the commands of a tick: absent
when a removal names the entity, as before otherwise. -/
theorem tick_commands_stash_tag (I U : List FMassEntityHandle) (e : FEntity) :
    ((I.flatMap InvalidTargetCommands
        ++ U.map (FDeferredCommand.RemoveTag FTag.FMassHasStashedMoveTargetTag)).foldl
          (fun e c => c.Apply e) e).HasTag FTag.FMassHasStashedMoveTargetTag
      = if e.Handle ∈ U then false else e.HasTag FTag.FMassHasStashedMoveTargetTag := by
  rw [foldl_Apply_HasTag _ e FTag.FMassHasStashedMoveTargetTag false (by
    intro c hc _ ht
    rw [mem_tick_commands] at hc
    rcases hc with ⟨a, -, rfl | rfl | rfl⟩ | ⟨a, -, rfl⟩ <;>
      first | rfl | (simp [FDeferredCommand.Tag] at ht))]
  by_cases hU : e.Handle ∈ U
  · rw [if_pos hU, if_pos]
    exact ⟨_, (mem_tick_commands I U _).mpr (Or.inr ⟨e.Handle, hU, rfl⟩), rfl, rfl⟩
  · rw [if_neg hU, if_neg]
    rintro ⟨c, hc, h1, h2⟩
    rw [mem_tick_commands] at hc
    rcases hc with ⟨a, -, rfl | rfl | rfl⟩ | ⟨a, ha, rfl⟩
    · simp [FDeferredCommand.Tag] at h2
    · simp [FDeferredCommand.Tag] at h2
    · simp [FDeferredCommand.Tag] at h2
    · exact hU (h1 ▸ ha)

theorem FTargetEntityFragment.ResetEntity_idem (t : FTargetEntityFragment) :
    t.ResetEntity.ResetEntity = t.ResetEntity := rfl

/-- An entity on which the Applier already ran, with the commands of that run
applied, is left as it is by a second Applier step for the same invalid set. -/
theorem ProcessInvalidTarget_second (ext : FExternals) (World : UWorld)
    (I U : List FMassEntityHandle) (e0 : FEntity) (Step : FInvalidateStep)
    (hs : ProcessInvalidTarget ext World I e0 = some Step)
    (hU : (e0.MatchesInvalidateTargetsQuery && I.contains e0.Handle) = true →
      e0.HasRestorableStash = true → e0.Handle ∈ U) :
    ∃ En, ProcessInvalidTarget ext World I
        ((I.flatMap InvalidTargetCommands
          ++ U.map (FDeferredCommand.RemoveTag FTag.FMassHasStashedMoveTargetTag)).foldl
            (fun e c => c.Apply e) Step.Entity)
      = some
          { Entity := (I.flatMap InvalidTargetCommands
              ++ U.map (FDeferredCommand.RemoveTag FTag.FMassHasStashedMoveTargetTag)).foldl
                (fun e c => c.Apply e) Step.Entity
            Unstashed := []
            Entered := En } := by
  obtain ⟨f1, f2, f3, f4, f5, f6⟩ := foldl_Apply_frame
    (I.flatMap InvalidTargetCommands
      ++ U.map (FDeferredCommand.RemoveTag FTag.FMassHasStashedMoveTargetTag)) Step.Entity
  have fH := foldl_Apply_Handle
    (I.flatMap InvalidTargetCommands
      ++ U.map (FDeferredCommand.RemoveTag FTag.FMassHasStashedMoveTargetTag)) Step.Entity
  have fS := tick_commands_stash_tag I U Step.Entity
  obtain ⟨g1, g2, g3, g4, -⟩ := ProcessInvalidTarget_frame _ _ _ _ _ hs
  generalize (I.flatMap InvalidTargetCommands
      ++ U.map (FDeferredCommand.RemoveTag FTag.FMassHasStashedMoveTargetTag)).foldl
        (fun e c => c.Apply e) Step.Entity = ef at *
  cases hm : (e0.MatchesInvalidateTargetsQuery && I.contains e0.Handle)
  · rw [ProcessInvalidTarget_skip _ _ _ _ hm] at hs
    cases hs
    refine ⟨[], ProcessInvalidTarget_skip _ _ _ _ ?_⟩
    rw [← hm]
    unfold FEntity.MatchesInvalidateTargetsQuery
    rw [f1, f2, f6, fH]
  · obtain ⟨-, k2, -, k4⟩ := ProcessInvalidTarget_enter _ _ _ _ _ hm hs
    have hmatch0 : e0.MatchesInvalidateTargetsQuery = true := by
      simp only [Bool.and_eq_true] at hm; exact hm.1
    have hin : I.contains e0.Handle = true := by
      simp only [Bool.and_eq_true] at hm; exact hm.2
    unfold FEntity.MatchesInvalidateTargetsQuery at hmatch0
    simp only [Bool.and_eq_true] at hmatch0
    obtain ⟨⟨m1, m2⟩, m3⟩ := hmatch0
    have hnav : Step.Entity.NavMeshMove.isSome = true := by
      cases hr : e0.HasRestorableStash
      · rw [(k4 hr).2]; exact m2
      · obtain ⟨_, _, _, _, _, nav, -, -, -, -, -, -, hn⟩ :=
          ProcessInvalidTarget_restore _ _ _ _ _ hm hr hs
        rw [hn]; rfl
    have hmf : (ef.MatchesInvalidateTargetsQuery && I.contains ef.Handle) = true := by
      unfold FEntity.MatchesInvalidateTargetsQuery
      rw [f1, f2, f6, fH, g3, g2, k2, hnav, m3, hin]
      cases ht : e0.TargetEntity with
      | none => rw [ht] at m1; cases m1
      | some t => rfl
    have hrf : ef.HasRestorableStash = false := by
      unfold FEntity.HasRestorableStash
      rw [fS, f4, f5, g1, g3]
      by_cases hu : e0.Handle ∈ U
      · rw [if_pos hu]; rfl
      · rw [if_neg hu]
        cases hr : e0.HasRestorableStash
        · rw [(k4 hr).1]
          unfold FEntity.HasRestorableStash at hr
          unfold FEntity.HasTag at hr ⊢
          rw [g4]
          exact hr
        · exact absurd (hU hm hr) hu
    refine ⟨[ef.Handle], ?_⟩
    rw [ProcessInvalidTarget_plain _ _ _ _ hmf hrf]
    have ht : ef.TargetEntity.map FTargetEntityFragment.ResetEntity = ef.TargetEntity := by
      rw [f2, k2]
      cases e0.TargetEntity <;> rfl
    rw [ht]

/-- The Applier pass on a store each of whose entities its step leaves as it
is. -/
theorem ProcessInvalidTargets_fixed (ext : FExternals) (World : UWorld)
    (I : List FMassEntityHandle) (l : List FEntity)
    (h : ∀ e ∈ l, ∃ En, ProcessInvalidTarget ext World I e
      = some { Entity := e, Unstashed := [], Entered := En }) :
    ∃ En, ProcessInvalidTargets ext World I l = some (l, [], En) := by
  induction l with
  | nil => exact ⟨[], rfl⟩
  | cons e rest ih =>
    obtain ⟨En1, h1⟩ := h e (List.mem_cons_self _ _)
    obtain ⟨En2, h2⟩ := ih fun e2 he2 => h e2 (List.mem_cons_of_mem _ he2)
    refine ⟨En1 ++ En2, ?_⟩
    unfold ProcessInvalidTargets
    rw [h1, h2]
    rfl

/-- The Finalizer returns when it has nothing to signal or the signal
subsystem is present. -/
theorem ProcessQueues_isSome (s : FState) (I U : List FMassEntityHandle)
    (h : I ≠ [] → s.SignalSubsystem.isSome = true) : ∃ s2, ProcessQueues s I U = some s2 := by
  unfold ProcessQueues
  simp only [ProcessQueuesInvalid_eq, ProcessQueuesUnstashed_eq, List.nil_append]
  by_cases hI : I = []
  · subst hI
    simp
  · have hl : I.length ≠ 0 := by simpa using hI
    obtain ⟨Signal, hS⟩ := Option.isSome_iff_exists.mp (h hI)
    simp only [hl, ne_eq, not_false_eq_true, if_true, hS]
    exact ⟨_, rfl⟩

theorem ProcessQueues_TargetFinderSubsystem (s s2 : FState) (I U : List FMassEntityHandle)
    (h : ProcessQueues s I U = some s2) :
    s2.TargetFinderSubsystem = s.TargetFinderSubsystem := by
  unfold ProcessQueues at h
  dsimp only at h
  repeat' split at h
  all_goals first
    | (cases h; done)
    | (cases h; rfl)

/-- What a run of the Applier and the Finalizer with its commands applied
leaves behind. -/
theorem ApplierFinalizer_spec (ext : FExternals) (s s1 : FState) (I : List FMassEntityHandle)
    (h : ApplierFinalizer ext s I = some s1) :
    ∃ es1 U En,
      ProcessInvalidTargets ext s.EntitySubsystem.World I s.EntitySubsystem.Entities
        = some (es1, U, En)
      ∧ s1.EntitySubsystem.Entities
          = es1.map (fun e => (I.flatMap InvalidTargetCommands
              ++ U.map (FDeferredCommand.RemoveTag FTag.FMassHasStashedMoveTargetTag)).foldl
                (fun e c => c.Apply e) e)
      ∧ s1.EntitySubsystem.World = s.EntitySubsystem.World
      ∧ s1.Deferred = s.Deferred
      ∧ s1.ShouldInvalidateAllTargets = false
      ∧ s1.TransientEntitiesToSignal = I
      ∧ s1.TargetFinderSubsystem = s.TargetFinderSubsystem
      ∧ (I = [] → s1.SignalSubsystem = s.SignalSubsystem)
      ∧ (I ≠ [] → ∃ Signal, s.SignalSubsystem = some Signal
          ∧ s1.SignalSubsystem = some
              { Sent := Signal.Sent ++ [(FSignalName.NewStateTreeTaskRequired, I)] }) := by
  unfold ApplierFinalizer at h
  cases hp : ProcessInvalidTargets ext s.EntitySubsystem.World I s.EntitySubsystem.Entities with
  | none => simp [hp] at h
  | some r =>
    obtain ⟨es1, U, En⟩ := r
    simp only [hp] at h
    split at h
    · cases h
    · rename_i sq hq
      simp only [Option.some.injEq] at h
      subst h
      obtain ⟨q1, q2, q3, q4, q5, q6⟩ := ProcessQueues_spec _ _ _ _ hq
      have hT := ProcessQueues_TargetFinderSubsystem _ _ _ _ hq
      refine ⟨es1, U, En, rfl, ?_, ?_, rfl, q2, q3, hT, q5, q6⟩
      · show FlushCommands (sq.Deferred.drop s.Deferred.length) sq.EntitySubsystem.Entities = _
        rw [q4, q1, FlushCommands_eq_map]
        simp
      · show sq.EntitySubsystem.World = _
        rw [q1]

/-- The Applier and the Finalizer of a tick that ran are the run that
`ApplierFinalizer` describes, on the invalid set of the tick. -/
theorem Execute_ApplierFinalizer (ext : FExternals) (s s2 : FState) (L : FExecuteLocals)
    (TFS : UMassTargetFinderSubsystem) (hT : s.TargetFinderSubsystem = some TFS)
    (h : Execute ext s = some (s2, L)) :
    ApplierFinalizer ext s L.EntitiesWithInvalidTargets
      = some
          { s2 with
            EntitySubsystem :=
              { s2.EntitySubsystem with
                Entities :=
                  FlushCommands (s2.Deferred.drop s.Deferred.length)
                    s2.EntitySubsystem.Entities }
            Deferred := s.Deferred } := by
  obtain ⟨-, -, -, h4, -, h6⟩ := Execute_spec ext s s2 L TFS hT h
  unfold ApplierFinalizer
  rw [h4]
  simp only
  rw [h6]


/-! ## Claims -/

/-- Claim C1: `IsTargetValid` returns true exactly when the invalidate-all flag
is clear, the target is a live entity of the store, and either the
existence-only flag is set or the target is not out of range and not
obstructed; it returns false exactly when the flag is set, the target is dead,
or the full check finds the target out of range or obstructed. A dead target
is invalid even with the existence-only flag, and a live target with the
existence-only flag and a clear invalidate-all flag is valid. -/
theorem C1_IsTargetValid_reference (ext : FExternals) (Entity TargetEntity : FMassEntityHandle)
    (EntitySubsystem : UMassEntitySubsystem) (TargetMinCaliberForDamage : ℚ)
    (TargetFinderSubsystem : UMassTargetFinderSubsystem) (IsEntityOnTeam1 bIsEntitySoldier : Bool)
    (EntityTransform : FTransform) (bInvalidateAllTargets bOnlyCheck : Bool) :
    (IsTargetValid ext Entity TargetEntity EntitySubsystem TargetMinCaliberForDamage
        TargetFinderSubsystem IsEntityOnTeam1 bIsEntitySoldier EntityTransform
        bInvalidateAllTargets bOnlyCheck = some true
      ↔ bInvalidateAllTargets = false
        ∧ EntitySubsystem.IsEntityValid TargetEntity = true
        ∧ (bOnlyCheck = true
          ∨ ∃ View Tf, EntitySubsystem.View TargetEntity = some View
              ∧ View.Transform = some Tf
              ∧ IsTargetEntityOutOfRange ext Tf.GetTransform.GetLocation
                  EntityTransform.GetLocation Entity bIsEntitySoldier = false
              ∧ IsTargetEntityObstructed ext EntityTransform.GetLocation
                  Tf.GetTransform.GetLocation TargetFinderSubsystem Entity EntitySubsystem
                  IsEntityOnTeam1 bIsEntitySoldier TargetMinCaliberForDamage View
                  EntityTransform = some false))
    ∧ (IsTargetValid ext Entity TargetEntity EntitySubsystem TargetMinCaliberForDamage
        TargetFinderSubsystem IsEntityOnTeam1 bIsEntitySoldier EntityTransform
        bInvalidateAllTargets bOnlyCheck = some false
      ↔ bInvalidateAllTargets = true
        ∨ EntitySubsystem.IsEntityValid TargetEntity = false
        ∨ (bOnlyCheck = false
          ∧ ∃ View Tf, EntitySubsystem.View TargetEntity = some View
              ∧ View.Transform = some Tf
              ∧ (IsTargetEntityOutOfRange ext Tf.GetTransform.GetLocation
                  EntityTransform.GetLocation Entity bIsEntitySoldier = true
                ∨ IsTargetEntityObstructed ext EntityTransform.GetLocation
                  Tf.GetTransform.GetLocation TargetFinderSubsystem Entity EntitySubsystem
                  IsEntityOnTeam1 bIsEntitySoldier TargetMinCaliberForDamage View
                  EntityTransform = some true)))
    ∧ (EntitySubsystem.IsEntityValid TargetEntity = false →
        IsTargetValid ext Entity TargetEntity EntitySubsystem TargetMinCaliberForDamage
          TargetFinderSubsystem IsEntityOnTeam1 bIsEntitySoldier EntityTransform
          bInvalidateAllTargets true = some false)
    ∧ (EntitySubsystem.IsEntityValid TargetEntity = true →
        IsTargetValid ext Entity TargetEntity EntitySubsystem TargetMinCaliberForDamage
          TargetFinderSubsystem IsEntityOnTeam1 bIsEntitySoldier EntityTransform
          false true = some true) := by
  refine ⟨?_, ?_, ?_, ?_⟩
  · cases bInvalidateAllTargets
    swap
    · simp [IsTargetValid_invalidateAll]
    cases hv : EntitySubsystem.IsEntityValid TargetEntity
    · simp [IsTargetValid_dead _ _ _ _ _ _ _ _ _ _ _ hv]
    cases bOnlyCheck
    swap
    · simp [IsTargetValid_existenceOnly, hv]
    obtain ⟨View, hview⟩ := Option.isSome_iff_exists.mp
      ((UMassEntitySubsystem.View_isSome EntitySubsystem TargetEntity).trans hv)
    cases htf : View.Transform with
    | none => simp [IsTargetValid, hv, hview, htf]
    | some Tf =>
      rw [IsTargetValid_full ext Entity TargetEntity EntitySubsystem TargetMinCaliberForDamage
        TargetFinderSubsystem IsEntityOnTeam1 bIsEntitySoldier EntityTransform View Tf hview htf]
      cases hR : IsTargetEntityOutOfRange ext Tf.GetTransform.GetLocation
        EntityTransform.GetLocation Entity bIsEntitySoldier <;>
      cases hO : IsTargetEntityObstructed ext EntityTransform.GetLocation
        Tf.GetTransform.GetLocation TargetFinderSubsystem Entity EntitySubsystem
        IsEntityOnTeam1 bIsEntitySoldier TargetMinCaliberForDamage View EntityTransform <;>
      simp [hview, htf, hR, hO]
  · cases bInvalidateAllTargets
    swap
    · simp [IsTargetValid_invalidateAll]
    cases hv : EntitySubsystem.IsEntityValid TargetEntity
    · simp [IsTargetValid_dead _ _ _ _ _ _ _ _ _ _ _ hv]
    cases bOnlyCheck
    swap
    · simp [IsTargetValid_existenceOnly, hv]
    obtain ⟨View, hview⟩ := Option.isSome_iff_exists.mp
      ((UMassEntitySubsystem.View_isSome EntitySubsystem TargetEntity).trans hv)
    cases htf : View.Transform with
    | none => simp [IsTargetValid, hv, hview, htf]
    | some Tf =>
      rw [IsTargetValid_full ext Entity TargetEntity EntitySubsystem TargetMinCaliberForDamage
        TargetFinderSubsystem IsEntityOnTeam1 bIsEntitySoldier EntityTransform View Tf hview htf]
      cases hR : IsTargetEntityOutOfRange ext Tf.GetTransform.GetLocation
        EntityTransform.GetLocation Entity bIsEntitySoldier <;>
      cases hO : IsTargetEntityObstructed ext EntityTransform.GetLocation
        Tf.GetTransform.GetLocation TargetFinderSubsystem Entity EntitySubsystem
        IsEntityOnTeam1 bIsEntitySoldier TargetMinCaliberForDamage View EntityTransform <;>
      simp [hview, htf, hR, hO]
  · intro hdead
    exact IsTargetValid_dead _ _ _ _ _ _ _ _ _ _ _ hdead
  · intro hlive
    rw [IsTargetValid_existenceOnly, hlive]
    rfl

/-- Witness of C1: in the store of `ExampleSoldierState` the entity (7, 1) is
dead and the entity (2, 1) is live. -/
theorem C1_IsTargetValid_reference_witness :
    ExampleSoldierState.EntitySubsystem.IsEntityValid { Index := 7, SerialNumber := 1 } = false
    ∧ IsTargetValid ExampleExternals { Index := 1, SerialNumber := 1 }
        { Index := 7, SerialNumber := 1 } ExampleSoldierState.EntitySubsystem 0
        ExampleTargetFinder true true ExampleTransform false true = some false
    ∧ ExampleSoldierState.EntitySubsystem.IsEntityValid { Index := 2, SerialNumber := 1 } = true
    ∧ IsTargetValid ExampleExternals { Index := 1, SerialNumber := 1 }
        { Index := 2, SerialNumber := 1 } ExampleSoldierState.EntitySubsystem 0
        ExampleTargetFinder true true ExampleTransform false true = some true :=
  have hd : ExampleSoldierState.EntitySubsystem.IsEntityValid
      { Index := 7, SerialNumber := 1 } = false := by decide
  have hl : ExampleSoldierState.EntitySubsystem.IsEntityValid
      { Index := 2, SerialNumber := 1 } = true := by decide
  ⟨hd,
   (C1_IsTargetValid_reference ExampleExternals { Index := 1, SerialNumber := 1 }
      { Index := 7, SerialNumber := 1 } ExampleSoldierState.EntitySubsystem 0
      ExampleTargetFinder true true ExampleTransform false true).2.2.1 hd,
   hl,
   (C1_IsTargetValid_reference ExampleExternals { Index := 1, SerialNumber := 1 }
      { Index := 2, SerialNumber := 1 } ExampleSoldierState.EntitySubsystem 0
      ExampleTargetFinder true true ExampleTransform false true).2.2.2 hl⟩


/-- Counterexample to C2 as stated: `ExampleTracker` carries a target reference
and is collected by Scan B; the tick puts it in the invalid set, but it has
neither a navigation plan nor a transform fragment, so the Applier does not
visit it: the `bIsInvalid` branch runs zero times for it and its target
reference is still (7, 1) after the tick. -/
theorem C2_counterexample :
    ∃ s2 L, Execute ExampleExternals ExampleTrackerState = some (s2, L)
      ∧ ExampleTracker ∈ ExampleTrackerState.EntitySubsystem.Entities
      ∧ ExampleTracker.TargetEntity
          = some { Entity := { Index := 7, SerialNumber := 1 }, TargetMinCaliberForDamage := 0 }
      ∧ ExampleTracker.Handle ∈ L.EntitiesWithInvalidTargets
      ∧ ExampleTracker.Handle ∉ L.Entered
      ∧ L.Entered.count ExampleTracker.Handle = 0
      ∧ s2.EntitySubsystem.Entities = [ExampleTracker] := by
  have h1 : (Execute ExampleExternals ExampleTrackerState).map
      (fun r => (r.2.EntitiesWithInvalidTargets, r.2.Entered, r.1.EntitySubsystem.Entities))
      = some ([{ Index := 1, SerialNumber := 1 }], [], [ExampleTracker]) := by decide
  cases h : Execute ExampleExternals ExampleTrackerState with
  | none => rw [h] at h1; cases h1
  | some r =>
    obtain ⟨s2, L⟩ := r
    rw [h] at h1
    simp only [Option.map_some', Option.some.injEq, Prod.mk.injEq] at h1
    obtain ⟨hI, hE, hes⟩ := h1
    refine ⟨s2, L, rfl, by decide, rfl, ?_, ?_, ?_, hes⟩
    · rw [hI]; decide
    · rw [hE]; decide
    · rw [hE]; rfl

/-- Claim C2, amended: in a store with distinct handles, after a tick that
returns, every entity keeps its handle; for an entity that
`InvalidateTargetsEntityQuery` matches (target reference, navigation plan and
transform fragments present) the Applier ran its `bIsInvalid` branch on it
exactly when it is in the invalid set, in which case it ran exactly once and
the target identity is reset, and otherwise the target reference is unchanged;
an entity the query does not match is never processed and is unchanged. -/
theorem C2_applier_clears_matched (ext : FExternals) (s s2 : FState) (L : FExecuteLocals)
    (hnd : (s.EntitySubsystem.Entities.map FEntity.Handle).Nodup)
    (h : Execute ext s = some (s2, L)) :
    List.Forall₂
      (fun e e1 =>
        e1.Handle = e.Handle
        ∧ (e.MatchesInvalidateTargetsQuery = true →
            (e.Handle ∈ L.Entered ↔ e.Handle ∈ L.EntitiesWithInvalidTargets)
            ∧ (e.Handle ∈ L.EntitiesWithInvalidTargets →
                L.Entered.count e.Handle = 1
                ∧ e1.TargetEntity = e.TargetEntity.map FTargetEntityFragment.ResetEntity)
            ∧ (e.Handle ∉ L.EntitiesWithInvalidTargets → e1.TargetEntity = e.TargetEntity))
        ∧ (e.MatchesInvalidateTargetsQuery = false → e.Handle ∉ L.Entered ∧ e1 = e))
      s.EntitySubsystem.Entities s2.EntitySubsystem.Entities := by
  cases hT : s.TargetFinderSubsystem with
  | none =>
    rw [Execute_skip ext s hT] at h
    simp only [Option.some.injEq, Prod.mk.injEq] at h
    obtain ⟨rfl, rfl⟩ := h
    refine List.forall₂_same.mpr ?_
    intro e _
    simp
  | some TFS =>
    obtain ⟨-, -, -, h4, -⟩ := Execute_spec ext s s2 L TFS hT h
    obtain ⟨hF, hEn, -⟩ := ProcessInvalidTargets_spec _ _ _ _ _ _ _ h4
    refine (Forall₂_mem_left _ _ _ hF).imp ?_
    rintro e e1 ⟨he, Step, hs, rfl⟩
    have hmem := mem_filter_map_Handle s.EntitySubsystem.Entities
      (fun e => e.MatchesInvalidateTargetsQuery && L.EntitiesWithInvalidTargets.contains e.Handle)
      e hnd he
    rw [← hEn] at hmem
    refine ⟨(ProcessInvalidTarget_frame _ _ _ _ _ hs).2.2.1, ?_, ?_⟩
    · intro hm
      have hcont : (e.MatchesInvalidateTargetsQuery
          && L.EntitiesWithInvalidTargets.contains e.Handle) = true
          ↔ e.Handle ∈ L.EntitiesWithInvalidTargets := by
        simp [hm]
      refine ⟨hmem.1.trans hcont, ?_, ?_⟩
      · intro hI
        have hp := hcont.mpr hI
        exact ⟨hmem.2 hp, (ProcessInvalidTarget_enter _ _ _ _ _ hp hs).2.1⟩
      · intro hI
        have hp : (e.MatchesInvalidateTargetsQuery
            && L.EntitiesWithInvalidTargets.contains e.Handle) = false := by
          rw [Bool.eq_false_iff]
          exact fun hc => hI (hcont.mp hc)
        rw [ProcessInvalidTarget_skip _ _ _ _ hp] at hs
        cases hs
        rfl
    · intro hm
      have hp : (e.MatchesInvalidateTargetsQuery
          && L.EntitiesWithInvalidTargets.contains e.Handle) = false := by
        simp [hm]
      refine ⟨fun hc => ?_, ?_⟩
      · have := hmem.1.mp hc
        simp only at this
        rw [hp] at this
        exact absurd this (by simp)
      · rw [ProcessInvalidTarget_skip _ _ _ _ hp] at hs
        cases hs
        rfl

/-- Witness of C2: a tick on `ExampleSoldierState`. -/
theorem C2_applier_clears_matched_witness :
    (ExampleSoldierState.EntitySubsystem.Entities.map FEntity.Handle).Nodup
    ∧ ∃ s2 L, Execute ExampleExternals ExampleSoldierState = some (s2, L)
      ∧ List.Forall₂
        (fun e e1 =>
          e1.Handle = e.Handle
          ∧ (e.MatchesInvalidateTargetsQuery = true →
              (e.Handle ∈ L.Entered ↔ e.Handle ∈ L.EntitiesWithInvalidTargets)
              ∧ (e.Handle ∈ L.EntitiesWithInvalidTargets →
                  L.Entered.count e.Handle = 1
                  ∧ e1.TargetEntity = e.TargetEntity.map FTargetEntityFragment.ResetEntity)
              ∧ (e.Handle ∉ L.EntitiesWithInvalidTargets → e1.TargetEntity = e.TargetEntity))
          ∧ (e.MatchesInvalidateTargetsQuery = false → e.Handle ∉ L.Entered ∧ e1 = e))
        ExampleSoldierState.EntitySubsystem.Entities s2.EntitySubsystem.Entities :=
  have hnd : (ExampleSoldierState.EntitySubsystem.Entities.map FEntity.Handle).Nodup := by decide
  have hs : (Execute ExampleExternals ExampleSoldierState).isSome = true := by decide
  match h : Execute ExampleExternals ExampleSoldierState, hs with
  | some (s2, L), _ =>
    ⟨hnd, s2, L, rfl, C2_applier_clears_matched ExampleExternals ExampleSoldierState s2 L hnd h⟩
  | none, hn => Bool.noConfusion hn


/-- Claim C3: when the invalidate-all flag is set and the target finder
subsystem is present, every job whatsoever evaluates invalid, whatever its
target, transform, team, class, caliber and existence-only flag; the fan-out
does not fail and enqueues the agent of every collected job; and after a tick
that returns the invalid set has no duplicates and holds exactly the agents of
the jobs collected by Scan A and Scan B. -/
theorem C3_invalidate_all (ext : FExternals) (s : FState) (TFS : UMassTargetFinderSubsystem)
    (hT : s.TargetFinderSubsystem = some TFS) (hflag : s.ShouldInvalidateAllTargets = true) :
    (∀ j : FProcessEntityData,
        JobIsTargetValid ext j s.ShouldInvalidateAllTargets s.EntitySubsystem TFS = some false)
    ∧ ProcessEntities ext s.ShouldInvalidateAllTargets s.EntitySubsystem TFS
        (BuildQueue s.EntitySubsystem.Entities
          ++ BuildQueueForTrackTarget ext s.EntitySubsystem.Entities) []
        = some ((BuildQueue s.EntitySubsystem.Entities
          ++ BuildQueueForTrackTarget ext s.EntitySubsystem.Entities).map
            FProcessEntityData.Entity)
    ∧ ∀ s2 L, Execute ext s = some (s2, L) →
        L.EntitiesToCheck = BuildQueue s.EntitySubsystem.Entities
          ++ BuildQueueForTrackTarget ext s.EntitySubsystem.Entities
        ∧ (∀ a, a ∈ L.EntitiesWithInvalidTargets ↔ ∃ j ∈ L.EntitiesToCheck, j.Entity = a)
        ∧ L.EntitiesWithInvalidTargets.Nodup := by
  have hall : ∀ j : FProcessEntityData,
      JobIsTargetValid ext j s.ShouldInvalidateAllTargets s.EntitySubsystem TFS = some false := by
    intro j
    rw [hflag]
    exact IsTargetValid_invalidateAll _ _ _ _ _ _ _ _ _ _
  have hfilter : ∀ jobs : List FProcessEntityData,
      (jobs.filter fun j =>
        decide (JobIsTargetValid ext j s.ShouldInvalidateAllTargets s.EntitySubsystem TFS
          = some false)) = jobs := by
    intro jobs
    rw [List.filter_eq_self]
    intro j _
    simp [hall j]
  refine ⟨hall, ?_, ?_⟩
  · rw [ProcessEntities_eq_some]
    refine ⟨fun j _ => by rw [hall j]; rfl, ?_⟩
    rw [hfilter]
    rfl
  · intro s2 L h
    obtain ⟨h1, -, h3, -⟩ := Execute_spec ext s s2 L TFS hT h
    refine ⟨h1, ?_, ?_⟩
    · intro a
      rw [h3, BuildInvalidTargetsSet_mem, hfilter, List.mem_map]
    · rw [h3]
      exact BuildInvalidTargetsSet_nodup _

/-- Witness of C3: a tick on `ExampleInvalidateAllState`. -/
theorem C3_invalidate_all_witness :
    ExampleInvalidateAllState.TargetFinderSubsystem = some ExampleEmptyFinder
    ∧ ExampleInvalidateAllState.ShouldInvalidateAllTargets = true
    ∧ ∃ s2 L, Execute ExampleExternals ExampleInvalidateAllState = some (s2, L)
      ∧ (∀ a, a ∈ L.EntitiesWithInvalidTargets ↔ ∃ j ∈ L.EntitiesToCheck, j.Entity = a)
      ∧ L.EntitiesWithInvalidTargets.Nodup :=
  have hs : (Execute ExampleExternals ExampleInvalidateAllState).isSome = true := by decide
  match h : Execute ExampleExternals ExampleInvalidateAllState, hs with
  | some (s2, L), _ =>
    have hc := (C3_invalidate_all ExampleExternals ExampleInvalidateAllState ExampleEmptyFinder
      rfl rfl).2.2 s2 L h
    ⟨rfl, rfl, s2, L, rfl, hc.2.1, hc.2.2⟩
  | none, hn => Bool.noConfusion hn


/-- Claim C4: after a tick that ran with the target finder subsystem present,
the job array is what Scan A and Scan B collected, the invalid set has no
duplicates, and an agent is in it exactly when some collected job of that
agent, from either scan, evaluates invalid. -/
theorem C4_invalid_set_union (ext : FExternals) (s s2 : FState) (L : FExecuteLocals)
    (TFS : UMassTargetFinderSubsystem) (hT : s.TargetFinderSubsystem = some TFS)
    (h : Execute ext s = some (s2, L)) :
    L.EntitiesToCheck = BuildQueue s.EntitySubsystem.Entities
        ++ BuildQueueForTrackTarget ext s.EntitySubsystem.Entities
    ∧ (∀ a, a ∈ L.EntitiesWithInvalidTargets
        ↔ ∃ j ∈ L.EntitiesToCheck, j.Entity = a
            ∧ JobIsTargetValid ext j s.ShouldInvalidateAllTargets s.EntitySubsystem TFS
                = some false)
    ∧ L.EntitiesWithInvalidTargets.Nodup := by
  obtain ⟨h1, -, h3, -⟩ := Execute_spec ext s s2 L TFS hT h
  refine ⟨h1, ?_, ?_⟩
  · intro a
    rw [h3, BuildInvalidTargetsSet_mem, List.mem_map]
    constructor
    · rintro ⟨j, hj, rfl⟩
      rw [List.mem_filter] at hj
      exact ⟨j, hj.1, rfl, by simpa using hj.2⟩
    · rintro ⟨j, hj, rfl, hv⟩
      exact ⟨j, List.mem_filter.mpr ⟨hj, by simpa using hv⟩, rfl⟩
  · rw [h3]
    exact BuildInvalidTargetsSet_nodup _

/-- Witness of C4: a tick on `ExampleSoldierState`. -/
theorem C4_invalid_set_union_witness :
    ExampleSoldierState.TargetFinderSubsystem = some ExampleEmptyFinder
    ∧ ∃ s2 L, Execute ExampleExternals ExampleSoldierState = some (s2, L)
      ∧ (∀ a, a ∈ L.EntitiesWithInvalidTargets
          ↔ ∃ j ∈ L.EntitiesToCheck, j.Entity = a
              ∧ JobIsTargetValid ExampleExternals j ExampleSoldierState.ShouldInvalidateAllTargets
                  ExampleSoldierState.EntitySubsystem ExampleEmptyFinder = some false)
      ∧ L.EntitiesWithInvalidTargets.Nodup :=
  have hs : (Execute ExampleExternals ExampleSoldierState).isSome = true := by decide
  match h : Execute ExampleExternals ExampleSoldierState, hs with
  | some (s2, L), _ =>
    have hc := C4_invalid_set_union ExampleExternals ExampleSoldierState s2 L ExampleEmptyFinder
      rfl h
    ⟨rfl, s2, L, rfl, hc.2.1, hc.2.2⟩
  | none, hn => Bool.noConfusion hn


/-- Claim C5: whenever `IsTargetEntityObstructed` returns, its result is that
of the reference definition (some candidate of the broad-phase query that is
not the agent, is live, is on the team of the agent or cannot damage the
target, and whose stored capsule intersects the trace capsule; or no such
candidate and an occluded visibility trace). When every candidate has a stored
capsule it returns, a same-team intersecting candidate obstructs whatever the
trace says, and when every live candidate other than the agent is on the
opposing team and can damage the target the result is that of the trace alone. -/
theorem C5_obstructed_reference (ext : FExternals) (EntityLocation TargetEntityLocation : FVector)
    (TargetFinderSubsystem : UMassTargetFinderSubsystem) (Entity : FMassEntityHandle)
    (EntitySubsystem : UMassEntitySubsystem) (IsEntityOnTeam1 bIsEntitySoldier : Bool)
    (TargetMinCaliberForDamage : ℚ) (TargetEntityView : FEntity)
    (EntityTransform : FTransform) :
    (∀ r, IsTargetEntityObstructed ext EntityLocation TargetEntityLocation
          TargetFinderSubsystem Entity EntitySubsystem IsEntityOnTeam1 bIsEntitySoldier
          TargetMinCaliberForDamage TargetEntityView EntityTransform = some r →
        r = SpecIsTargetEntityObstructed ext EntityLocation TargetEntityLocation
          TargetFinderSubsystem Entity EntitySubsystem IsEntityOnTeam1 bIsEntitySoldier
          TargetMinCaliberForDamage TargetEntityView EntityTransform)
    ∧ ((∀ o ∈ TargetFinderSubsystem.Query (QueryBounds EntityLocation TargetEntityLocation),
          (TargetFinderSubsystem.TargetDynamicData o.Entity).isSome = true) →
        IsTargetEntityObstructed ext EntityLocation TargetEntityLocation
          TargetFinderSubsystem Entity EntitySubsystem IsEntityOnTeam1 bIsEntitySoldier
          TargetMinCaliberForDamage TargetEntityView EntityTransform
        = some (SpecIsTargetEntityObstructed ext EntityLocation TargetEntityLocation
          TargetFinderSubsystem Entity EntitySubsystem IsEntityOnTeam1 bIsEntitySoldier
          TargetMinCaliberForDamage TargetEntityView EntityTransform)
        ∧ (∀ o ∈ TargetFinderSubsystem.Query (QueryBounds EntityLocation TargetEntityLocation),
            ∀ d, o.Entity ≠ Entity → EntitySubsystem.IsEntityValid o.Entity = true →
            o.bIsOnTeam1 = IsEntityOnTeam1 →
            TargetFinderSubsystem.TargetDynamicData o.Entity = some d →
            ext.TestCapsuleCapsule
              (ext.GetProjectileTraceCapsuleToTarget bIsEntitySoldier
                (TargetEntityView.HasTag FTag.FMassProjectileDamagableSoldierTag)
                EntityTransform TargetEntityLocation) d.Capsule = true →
            IsTargetEntityObstructed ext EntityLocation TargetEntityLocation
              TargetFinderSubsystem Entity EntitySubsystem IsEntityOnTeam1 bIsEntitySoldier
              TargetMinCaliberForDamage TargetEntityView EntityTransform = some true)
        ∧ ((∀ o ∈ TargetFinderSubsystem.Query (QueryBounds EntityLocation TargetEntityLocation),
              o.Entity ≠ Entity → EntitySubsystem.IsEntityValid o.Entity = true →
              o.bIsOnTeam1 ≠ IsEntityOnTeam1
              ∧ ext.CanEntityDamageTargetEntity TargetMinCaliberForDamage
                  o.MinCaliberForDamage = true) →
            IsTargetEntityObstructed ext EntityLocation TargetEntityLocation
              TargetFinderSubsystem Entity EntitySubsystem IsEntityOnTeam1 bIsEntitySoldier
              TargetMinCaliberForDamage TargetEntityView EntityTransform
            = some (!ext.IsTargetEntityVisibleViaSphereTrace
                (ext.GetProjectileTraceCapsuleToTarget bIsEntitySoldier
                  (TargetEntityView.HasTag FTag.FMassProjectileDamagableSoldierTag)
                  EntityTransform TargetEntityLocation).a
                (ext.GetProjectileTraceCapsuleToTarget bIsEntitySoldier
                  (TargetEntityView.HasTag FTag.FMassProjectileDamagableSoldierTag)
                  EntityTransform TargetEntityLocation).b))) := by
  refine ⟨fun r h => IsTargetEntityObstructed_some _ _ _ _ _ _ _ _ _ _ _ r h, ?_⟩
  intro hdata
  have hl := ProcessCloseEntities_eq ext TargetFinderSubsystem Entity EntitySubsystem
    IsEntityOnTeam1 TargetMinCaliberForDamage
    (ext.GetProjectileTraceCapsuleToTarget bIsEntitySoldier
      (TargetEntityView.HasTag FTag.FMassProjectileDamagableSoldierTag) EntityTransform
      TargetEntityLocation)
    (TargetFinderSubsystem.Query (QueryBounds EntityLocation TargetEntityLocation)) hdata
  have hres := IsTargetEntityObstructed_of_loop ext EntityLocation TargetEntityLocation
    TargetFinderSubsystem Entity EntitySubsystem IsEntityOnTeam1 bIsEntitySoldier
    TargetMinCaliberForDamage TargetEntityView EntityTransform _ hl
  refine ⟨?_, ?_, ?_⟩
  · rw [hres]
    exact congrArg some (IsTargetEntityObstructed_some _ _ _ _ _ _ _ _ _ _ _ _ hres)
  · intro o ho d h1 h2 h3 h4 h5
    rw [hres]
    have : (TargetFinderSubsystem.Query (QueryBounds EntityLocation TargetEntityLocation)).any
        (SpecObstructingCandidate ext TargetFinderSubsystem Entity EntitySubsystem
          IsEntityOnTeam1 TargetMinCaliberForDamage
          (ext.GetProjectileTraceCapsuleToTarget bIsEntitySoldier
            (TargetEntityView.HasTag FTag.FMassProjectileDamagableSoldierTag) EntityTransform
            TargetEntityLocation)) = true := by
      rw [List.any_eq_true]
      refine ⟨o, ho, ?_⟩
      simp [SpecObstructingCandidate, h1, h2, h3, h4, h5]
    rw [this]
    rfl
  · intro hopp
    rw [hres]
    have : (TargetFinderSubsystem.Query (QueryBounds EntityLocation TargetEntityLocation)).any
        (SpecObstructingCandidate ext TargetFinderSubsystem Entity EntitySubsystem
          IsEntityOnTeam1 TargetMinCaliberForDamage
          (ext.GetProjectileTraceCapsuleToTarget bIsEntitySoldier
            (TargetEntityView.HasTag FTag.FMassProjectileDamagableSoldierTag) EntityTransform
            TargetEntityLocation)) = false := by
      rw [List.any_eq_false]
      intro o ho
      simp only [SpecObstructingCandidate, Bool.and_eq_true, decide_eq_true_eq, not_and,
        Bool.or_eq_true, beq_iff_eq, Bool.not_eq_true', and_imp]
      intro h1 h2 h3
      obtain ⟨ht, hc⟩ := hopp o ho h1 h2
      rcases h3 with h3 | h3
      · exact absurd h3.symm ht
      · rw [hc] at h3
        exact absurd h3 (by simp)
    rw [this]
    rfl

/-- Witness of C5: the same-team candidate `ExampleGridItem`, whose capsule
intersects the trace capsule, obstructs the agent (1, 1) although every trace
is clear. -/
theorem C5_obstructed_reference_witness :
    (∀ o ∈ ExampleTargetFinder.Query
        (QueryBounds { X := 0, Y := 0, Z := 0 } { X := 1, Y := 0, Z := 0 }),
        (ExampleTargetFinder.TargetDynamicData o.Entity).isSome = true)
    ∧ ExampleGridItem ∈ ExampleTargetFinder.Query
        (QueryBounds { X := 0, Y := 0, Z := 0 } { X := 1, Y := 0, Z := 0 })
    ∧ ExampleSoldierState.EntitySubsystem.IsEntityValid ExampleGridItem.Entity = true
    ∧ ExampleCollidingExternals.IsTargetEntityVisibleViaSphereTrace
        { X := 0, Y := 0, Z := 0 } { X := 1, Y := 0, Z := 0 } = true
    ∧ IsTargetEntityObstructed ExampleCollidingExternals { X := 0, Y := 0, Z := 0 }
        { X := 1, Y := 0, Z := 0 } ExampleTargetFinder { Index := 1, SerialNumber := 1 }
        ExampleSoldierState.EntitySubsystem true true 0 ExampleTracker ExampleTransform
        = some true :=
  have hdata : ∀ o ∈ ExampleTargetFinder.Query
      (QueryBounds { X := 0, Y := 0, Z := 0 } { X := 1, Y := 0, Z := 0 }),
      (ExampleTargetFinder.TargetDynamicData o.Entity).isSome = true := by decide
  have hmem : ExampleGridItem ∈ ExampleTargetFinder.Query
      (QueryBounds { X := 0, Y := 0, Z := 0 } { X := 1, Y := 0, Z := 0 }) := by decide
  have hlive : ExampleSoldierState.EntitySubsystem.IsEntityValid ExampleGridItem.Entity
      = true := by decide
  ⟨hdata, hmem, hlive, rfl,
   ((C5_obstructed_reference ExampleCollidingExternals { X := 0, Y := 0, Z := 0 }
      { X := 1, Y := 0, Z := 0 } ExampleTargetFinder { Index := 1, SerialNumber := 1 }
      ExampleSoldierState.EntitySubsystem true true 0 ExampleTracker ExampleTransform).2
      hdata).2.1 ExampleGridItem hmem _ (by decide) hlive rfl rfl rfl⟩


/-- Claim C7: in a nav-mesh move with the cursor `c` inside `0 ≤ c ≤ length L`,
`UnstashMoveTarget` succeeds and leaves the plan as
`take c L ++ [s1, s2, s3] ++ drop c L` with `s1` a stand at the agent position
facing the stashed center, `s2` a move to the stashed center with that facing
and `s3` a stand at the stashed center with the stashed forward; the list grows
by 3, the remaining count grows by 3 and the cursor is unchanged. -/
theorem C7_unstash_navmesh_plan (ext : FExternals) (Source Destination : FMassMoveTargetFragment)
    (World : UWorld) (NavMeshMoveFragment : FMassNavMeshMoveFragment)
    (EntityTransform : FTransform)
    (h0 : 0 ≤ NavMeshMoveFragment.CurrentActionIndex)
    (h1 : NavMeshMoveFragment.CurrentActionIndex ≤ (NavMeshMoveFragment.Actions.length : Int)) :
    ∃ d nav,
      UnstashMoveTarget ext Source Destination World true NavMeshMoveFragment EntityTransform
        = some (d, nav)
      ∧ nav.Actions
          = NavMeshMoveFragment.Actions.take NavMeshMoveFragment.CurrentActionIndex.toNat
            ++ [ { TargetLocation := EntityTransform.GetLocation
                   Forward := ext.GetSafeNormal (Source.Center.sub EntityTransform.GetLocation)
                   Action := EMassMovementAction.Stand },
                 { TargetLocation := Source.Center
                   Forward := ext.GetSafeNormal (Source.Center.sub EntityTransform.GetLocation)
                   Action := EMassMovementAction.Move },
                 { TargetLocation := Source.Center
                   Forward := Source.Forward
                   Action := EMassMovementAction.Stand } ]
            ++ NavMeshMoveFragment.Actions.drop NavMeshMoveFragment.CurrentActionIndex.toNat
      ∧ nav.Actions.length = NavMeshMoveFragment.Actions.length + 3
      ∧ nav.ActionsRemaining = NavMeshMoveFragment.ActionsRemaining + 3
      ∧ nav.CurrentActionIndex = NavMeshMoveFragment.CurrentActionIndex := by
  have hn : NavMeshMoveFragment.CurrentActionIndex.toNat ≤ NavMeshMoveFragment.Actions.length := by
    omega
  unfold UnstashMoveTarget
  simp only [if_true]
  rw [TArrayInsert_three _ _ _ _ _ _ h0 h1]
  refine ⟨_, _, rfl, rfl, ?_, rfl, rfl⟩
  simp [hn]
  omega

/-- Witness of C7: a one-step plan with the cursor at its end. -/
theorem C7_unstash_navmesh_plan_witness :
    0 ≤ ExampleNavMeshMove.CurrentActionIndex
    ∧ ExampleNavMeshMove.CurrentActionIndex ≤ (ExampleNavMeshMove.Actions.length : Int)
    ∧ ∃ d nav,
      UnstashMoveTarget ExampleExternals ExampleMoveTarget ExampleMoveTarget
          { TimeSeconds := 0 } true ExampleNavMeshMove ExampleTransform = some (d, nav)
      ∧ nav.Actions.length = ExampleNavMeshMove.Actions.length + 3
      ∧ nav.ActionsRemaining = ExampleNavMeshMove.ActionsRemaining + 3
      ∧ nav.CurrentActionIndex = ExampleNavMeshMove.CurrentActionIndex :=
  have h0 : 0 ≤ ExampleNavMeshMove.CurrentActionIndex := by decide
  have h1 : ExampleNavMeshMove.CurrentActionIndex ≤ (ExampleNavMeshMove.Actions.length : Int) := by
    decide
  ⟨h0, h1,
    match C7_unstash_navmesh_plan ExampleExternals ExampleMoveTarget ExampleMoveTarget
      { TimeSeconds := 0 } ExampleNavMeshMove ExampleTransform h0 h1 with
    | ⟨d, nav, h, _, hl, hr, hc⟩ => ⟨d, nav, h, hl, hr, hc⟩⟩


/-- Claim C8: in a nav-mesh move `UnstashMoveTarget` succeeds when the cursor
is in range, and whenever it succeeds the active order is the placeholder:
action kind Stand, center at the agent position, forward facing the stashed
center, distance-to-goal 0, desired speed 0, off-boundaries set, intent Move;
slack radius and falling-behind flag keep the values of the active order; the
action kind, distance, speed, off-boundaries flag and intent are the same for
every other stashed order. -/
theorem C8_unstash_navmesh_active_order (ext : FExternals)
    (Source Destination : FMassMoveTargetFragment) (World : UWorld)
    (NavMeshMoveFragment : FMassNavMeshMoveFragment) (EntityTransform : FTransform) :
    (0 ≤ NavMeshMoveFragment.CurrentActionIndex
        → NavMeshMoveFragment.CurrentActionIndex ≤ (NavMeshMoveFragment.Actions.length : Int)
        → (UnstashMoveTarget ext Source Destination World true NavMeshMoveFragment
            EntityTransform).isSome = true)
    ∧ ∀ d nav,
        UnstashMoveTarget ext Source Destination World true NavMeshMoveFragment EntityTransform
          = some (d, nav) →
        d.CurrentAction = EMassMovementAction.Stand
        ∧ d.Center = EntityTransform.GetLocation
        ∧ d.Forward = ext.GetSafeNormal (Source.Center.sub EntityTransform.GetLocation)
        ∧ d.DistanceToGoal = 0
        ∧ d.DesiredSpeed = { Value := 0 }
        ∧ d.bOffBoundaries = true
        ∧ d.IntentAtGoal = EMassMovementAction.Move
        ∧ d.SlackRadius = Destination.SlackRadius
        ∧ d.bSteeringFallingBehind = Destination.bSteeringFallingBehind
        ∧ ∀ Source2 d2 nav2,
            UnstashMoveTarget ext Source2 Destination World true NavMeshMoveFragment
              EntityTransform = some (d2, nav2) →
            d2.CurrentAction = d.CurrentAction
            ∧ d2.DistanceToGoal = d.DistanceToGoal
            ∧ d2.DesiredSpeed = d.DesiredSpeed
            ∧ d2.bOffBoundaries = d.bOffBoundaries
            ∧ d2.IntentAtGoal = d.IntentAtGoal := by
  constructor
  · intro h0 h1
    unfold UnstashMoveTarget
    simp only [if_true]
    rw [TArrayInsert_three _ _ _ _ _ _ h0 h1]
    rfl
  · intro d nav h
    obtain ⟨-, rfl⟩ := UnstashMoveTarget_navmesh_some ext Source Destination World _ _ d nav h
    refine ⟨rfl, rfl, rfl, rfl, FMassInt16Real.Set_zero, rfl, rfl, rfl, rfl, ?_⟩
    intro Source2 d2 nav2 h2
    obtain ⟨-, rfl⟩ := UnstashMoveTarget_navmesh_some ext Source2 Destination World _ _ d2 nav2 h2
    exact ⟨rfl, rfl, rfl, rfl, rfl⟩

/-- Witness of C8: a one-step plan with the cursor at its end. -/
theorem C8_unstash_navmesh_active_order_witness :
    0 ≤ ExampleNavMeshMove.CurrentActionIndex
    ∧ ExampleNavMeshMove.CurrentActionIndex ≤ (ExampleNavMeshMove.Actions.length : Int)
    ∧ ∃ d nav,
      UnstashMoveTarget ExampleExternals ExampleMoveTarget ExampleMoveTarget
          { TimeSeconds := 0 } true ExampleNavMeshMove ExampleTransform = some (d, nav)
      ∧ d.CurrentAction = EMassMovementAction.Stand
      ∧ d.DistanceToGoal = 0
      ∧ d.DesiredSpeed = { Value := 0 }
      ∧ d.bOffBoundaries = true
      ∧ d.IntentAtGoal = EMassMovementAction.Move :=
  have h0 : 0 ≤ ExampleNavMeshMove.CurrentActionIndex := by decide
  have h1 : ExampleNavMeshMove.CurrentActionIndex ≤ (ExampleNavMeshMove.Actions.length : Int) := by
    decide
  have hs := (C8_unstash_navmesh_active_order ExampleExternals ExampleMoveTarget
    ExampleMoveTarget { TimeSeconds := 0 } ExampleNavMeshMove ExampleTransform).1 h0 h1
  match hr : UnstashMoveTarget ExampleExternals ExampleMoveTarget ExampleMoveTarget
      { TimeSeconds := 0 } true ExampleNavMeshMove ExampleTransform, hs with
  | some (d, nav), _ =>
    have hp := (C8_unstash_navmesh_active_order ExampleExternals ExampleMoveTarget
      ExampleMoveTarget { TimeSeconds := 0 } ExampleNavMeshMove ExampleTransform).2 d nav hr
    ⟨h0, h1, d, nav, rfl, hp.1, hp.2.2.2.1, hp.2.2.2.2.1, hp.2.2.2.2.2.1, hp.2.2.2.2.2.2.1⟩
  | none, hn => Bool.noConfusion hn


/-- Claim C9: outside a nav-mesh move `UnstashMoveTarget` succeeds with the
result of `CopyMoveTarget`: the active order equals the stashed order on the
nine fields action kind, center, forward, distance-to-goal, desired speed,
slack radius, off-boundaries flag, falling-behind flag and intent-at-goal; the
navigation plan is returned unchanged; and the Applier step leaves the stashed
order of the entity as it was. -/
theorem C9_unstash_direct_copy (ext : FExternals)
    (Source Destination : FMassMoveTargetFragment) (World : UWorld)
    (NavMeshMoveFragment : FMassNavMeshMoveFragment) (EntityTransform : FTransform) :
    (∃ d,
      UnstashMoveTarget ext Source Destination World false NavMeshMoveFragment EntityTransform
        = some (d, NavMeshMoveFragment)
      ∧ d = CopyMoveTarget Source Destination World
      ∧ d.CurrentAction = Source.CurrentAction
      ∧ d.Center = Source.Center
      ∧ d.Forward = Source.Forward
      ∧ d.DistanceToGoal = Source.DistanceToGoal
      ∧ d.DesiredSpeed = Source.DesiredSpeed
      ∧ d.SlackRadius = Source.SlackRadius
      ∧ d.bOffBoundaries = Source.bOffBoundaries
      ∧ d.bSteeringFallingBehind = Source.bSteeringFallingBehind
      ∧ d.IntentAtGoal = Source.IntentAtGoal)
    ∧ ∀ (EntitiesWithInvalidTargets : List FMassEntityHandle) (e : FEntity)
        (Step : FInvalidateStep),
        ProcessInvalidTarget ext World EntitiesWithInvalidTargets e = some Step →
        Step.Entity.StashedMoveTarget = e.StashedMoveTarget := by
  refine ⟨⟨CopyMoveTarget Source Destination World, rfl, rfl, rfl, rfl, rfl, rfl, rfl, rfl, rfl,
    rfl, rfl⟩, ?_⟩
  intro I e Step h
  exact (ProcessInvalidTarget_frame ext World I e Step h).1

/-- Witness of C9: the Applier step on `ExampleSoldier`, which is in the
invalid set, has a restorable stash and is not in a nav-mesh move. -/
theorem C9_unstash_direct_copy_witness :
    ∃ Step,
      ProcessInvalidTarget ExampleExternals { TimeSeconds := 0 } [ExampleSoldier.Handle]
        ExampleSoldier = some Step
      ∧ Step.Unstashed = [ExampleSoldier.Handle]
      ∧ Step.Entity.StashedMoveTarget = ExampleSoldier.StashedMoveTarget :=
  have hs : (ProcessInvalidTarget ExampleExternals { TimeSeconds := 0 } [ExampleSoldier.Handle]
      ExampleSoldier).isSome = true := by decide
  have hu : (ProcessInvalidTarget ExampleExternals { TimeSeconds := 0 } [ExampleSoldier.Handle]
      ExampleSoldier).map (fun Step => Step.Unstashed) = some [ExampleSoldier.Handle] := by
    decide
  match h : ProcessInvalidTarget ExampleExternals { TimeSeconds := 0 } [ExampleSoldier.Handle]
      ExampleSoldier, hs, hu with
  | some Step, _, hu2 =>
    ⟨Step, rfl, Option.some.inj hu2,
      (C9_unstash_direct_copy ExampleExternals ExampleMoveTarget ExampleMoveTarget
        { TimeSeconds := 0 } ExampleNavMeshMove ExampleTransform).2 [ExampleSoldier.Handle]
        ExampleSoldier Step h⟩
  | none, hn, _ => Bool.noConfusion hn


/-- Claim C10: after a tick that returns, the command buffer is the one before
the tick followed by the commands of the tick; the commands of the tick about
the tags needs-enemy-target, will-need-enemy-target and tracking-target are,
for each agent of the invalid set in turn and for no other agent, add
needs-enemy-target, remove will-need-enemy-target, remove tracking-target, and
the invalid set has no duplicates; once the commands of the tick are applied
every entity of the invalid set has the needs-enemy-target tag and neither of
the other two, and the three tags are unchanged on every other entity. -/
theorem C10_finalizer_tag_changes (ext : FExternals) (s s2 : FState) (L : FExecuteLocals)
    (h : Execute ext s = some (s2, L)) :
    ∃ Commands,
      s2.Deferred = s.Deferred ++ Commands
      ∧ Commands.filter (fun c => c.Tag.IsTargetTag)
          = L.EntitiesWithInvalidTargets.flatMap InvalidTargetCommands
      ∧ L.EntitiesWithInvalidTargets.Nodup
      ∧ List.Forall₂
          (fun e e1 =>
            e1.Handle = e.Handle
            ∧ (e.Handle ∈ L.EntitiesWithInvalidTargets →
                e1.HasTag FTag.FMassNeedsEnemyTargetTag = true
                ∧ e1.HasTag FTag.FMassWillNeedEnemyTargetTag = false
                ∧ e1.HasTag FTag.FMassTrackTargetTag = false)
            ∧ (e.Handle ∉ L.EntitiesWithInvalidTargets →
                e1.HasTag FTag.FMassNeedsEnemyTargetTag
                  = e.HasTag FTag.FMassNeedsEnemyTargetTag
                ∧ e1.HasTag FTag.FMassWillNeedEnemyTargetTag
                  = e.HasTag FTag.FMassWillNeedEnemyTargetTag
                ∧ e1.HasTag FTag.FMassTrackTargetTag = e.HasTag FTag.FMassTrackTargetTag))
          s2.EntitySubsystem.Entities (FlushCommands Commands s2.EntitySubsystem.Entities) := by
  have key : ∀ (I U : List FMassEntityHandle), I.Nodup →
      s2.Deferred = s.Deferred ++ (I.flatMap InvalidTargetCommands
        ++ U.map (FDeferredCommand.RemoveTag FTag.FMassHasStashedMoveTargetTag)) →
      L.EntitiesWithInvalidTargets = I →
      ∃ Commands,
      s2.Deferred = s.Deferred ++ Commands
      ∧ Commands.filter (fun c => c.Tag.IsTargetTag)
          = L.EntitiesWithInvalidTargets.flatMap InvalidTargetCommands
      ∧ L.EntitiesWithInvalidTargets.Nodup
      ∧ List.Forall₂
          (fun e e1 =>
            e1.Handle = e.Handle
            ∧ (e.Handle ∈ L.EntitiesWithInvalidTargets →
                e1.HasTag FTag.FMassNeedsEnemyTargetTag = true
                ∧ e1.HasTag FTag.FMassWillNeedEnemyTargetTag = false
                ∧ e1.HasTag FTag.FMassTrackTargetTag = false)
            ∧ (e.Handle ∉ L.EntitiesWithInvalidTargets →
                e1.HasTag FTag.FMassNeedsEnemyTargetTag
                  = e.HasTag FTag.FMassNeedsEnemyTargetTag
                ∧ e1.HasTag FTag.FMassWillNeedEnemyTargetTag
                  = e.HasTag FTag.FMassWillNeedEnemyTargetTag
                ∧ e1.HasTag FTag.FMassTrackTargetTag = e.HasTag FTag.FMassTrackTargetTag))
          s2.EntitySubsystem.Entities (FlushCommands Commands s2.EntitySubsystem.Entities) := by
    intro I U hI hD hL
    refine ⟨_, hD, ?_, ?_, ?_⟩
    · rw [filter_tick_commands, hL]
    · rw [hL]; exact hI
    · rw [FlushCommands_eq_map, List.forall₂_map_right_iff, List.forall₂_same, hL]
      intro e _
      exact ⟨foldl_Apply_Handle _ e, tick_commands_tags I U e⟩
  cases hT : s.TargetFinderSubsystem with
  | none =>
    rw [Execute_skip ext s hT] at h
    simp only [Option.some.injEq, Prod.mk.injEq] at h
    obtain ⟨rfl, rfl⟩ := h
    exact key [] [] List.nodup_nil (by simp) rfl
  | some TFS =>
    obtain ⟨-, -, h3, -, -, h6⟩ := Execute_spec ext s s2 L TFS hT h
    have hq := (ProcessQueues_spec _ _ _ _ h6).2.2.2.1
    exact key L.EntitiesWithInvalidTargets L.Unstashed
      (by rw [h3]; exact BuildInvalidTargetsSet_nodup _) hq rfl

/-- Witness of C10: a tick on `ExampleSoldierState`. -/
theorem C10_finalizer_tag_changes_witness :
    ∃ s2 L, Execute ExampleExternals ExampleSoldierState = some (s2, L)
      ∧ ∃ Commands,
        s2.Deferred = ExampleSoldierState.Deferred ++ Commands
        ∧ Commands.filter (fun c => c.Tag.IsTargetTag)
            = L.EntitiesWithInvalidTargets.flatMap InvalidTargetCommands :=
  have hs : (Execute ExampleExternals ExampleSoldierState).isSome = true := by decide
  match h : Execute ExampleExternals ExampleSoldierState, hs with
  | some (s2, L), _ =>
    match C10_finalizer_tag_changes ExampleExternals ExampleSoldierState s2 L h with
    | ⟨Commands, h1, h2, _⟩ => ⟨s2, L, rfl, Commands, h1, h2⟩
  | none, hn => Bool.noConfusion hn


/-- Claim C11: after a tick that ran with the target finder subsystem present,
the signal batch is the invalid set, which has no duplicates; when the invalid
set is empty no notification is sent, and otherwise exactly one notification
is appended to those sent before, listing the invalid set of this tick: each
of its agents once and no other agent. -/
theorem C11_signal_batching (ext : FExternals) (s s2 : FState) (L : FExecuteLocals)
    (TFS : UMassTargetFinderSubsystem) (hT : s.TargetFinderSubsystem = some TFS)
    (h : Execute ext s = some (s2, L)) :
    L.EntitiesWithInvalidTargets.Nodup
    ∧ s2.TransientEntitiesToSignal = L.EntitiesWithInvalidTargets
    ∧ (L.EntitiesWithInvalidTargets = [] → s2.SignalSubsystem = s.SignalSubsystem)
    ∧ (L.EntitiesWithInvalidTargets ≠ [] →
        ∃ Signal, s.SignalSubsystem = some Signal
          ∧ s2.SignalSubsystem = some
              { Sent := Signal.Sent
                  ++ [(FSignalName.NewStateTreeTaskRequired, L.EntitiesWithInvalidTargets)] })
    ∧ (∀ a, L.EntitiesWithInvalidTargets.count a = if a ∈ L.EntitiesWithInvalidTargets then 1
        else 0) := by
  obtain ⟨-, -, h3, -, -, h6⟩ := Execute_spec ext s s2 L TFS hT h
  have hq := ProcessQueues_spec _ _ _ _ h6
  have hnd : L.EntitiesWithInvalidTargets.Nodup := by
    rw [h3]; exact BuildInvalidTargetsSet_nodup _
  refine ⟨hnd, hq.2.2.1, hq.2.2.2.2.1, hq.2.2.2.2.2, ?_⟩
  intro a
  by_cases ha : a ∈ L.EntitiesWithInvalidTargets
  · rw [if_pos ha]; exact List.count_eq_one_of_mem hnd ha
  · rw [if_neg ha]; exact List.count_eq_zero_of_not_mem ha

/-- Witness of C11: a tick on `ExampleSoldierState`. -/
theorem C11_signal_batching_witness :
    ExampleSoldierState.TargetFinderSubsystem = some ExampleEmptyFinder
    ∧ ∃ s2 L, Execute ExampleExternals ExampleSoldierState = some (s2, L)
      ∧ L.EntitiesWithInvalidTargets.Nodup
      ∧ s2.TransientEntitiesToSignal = L.EntitiesWithInvalidTargets
      ∧ (L.EntitiesWithInvalidTargets ≠ [] →
          ∃ Signal, ExampleSoldierState.SignalSubsystem = some Signal
            ∧ s2.SignalSubsystem = some
                { Sent := Signal.Sent
                    ++ [(FSignalName.NewStateTreeTaskRequired,
                         L.EntitiesWithInvalidTargets)] }) :=
  have hs : (Execute ExampleExternals ExampleSoldierState).isSome = true := by decide
  match h : Execute ExampleExternals ExampleSoldierState, hs with
  | some (s2, L), _ =>
    have hc := C11_signal_batching ExampleExternals ExampleSoldierState s2 L ExampleEmptyFinder
      rfl h
    ⟨rfl, s2, L, rfl, hc.1, hc.2.1, hc.2.2.2.1⟩
  | none, hn => Bool.noConfusion hn


/-- Claim C12: after a tick that ran with the target finder subsystem present
the invalidate-all flag is false, whatever it was before. The validation phase
read the flag before the reset: the local `bInvalidateAllTargets` holds the
value the flag had at the start of the tick, and the invalid set is computed
with that value. The reset came before the Finalizer scheduled anything: when
line 386 wrote the flag the command buffer was still the one of the start of
the tick, and the commands of the tick were appended to it afterwards. -/
theorem C12_invalidate_all_flag_lifecycle (ext : FExternals) (s s2 : FState)
    (L : FExecuteLocals) (TFS : UMassTargetFinderSubsystem)
    (hT : s.TargetFinderSubsystem = some TFS) (h : Execute ext s = some (s2, L)) :
    s2.ShouldInvalidateAllTargets = false
    ∧ L.bInvalidateAllTargets = some s.ShouldInvalidateAllTargets
    ∧ L.EntitiesWithInvalidTargets = BuildInvalidTargetsSet
        ((L.EntitiesToCheck.filter fun j =>
            decide (JobIsTargetValid ext j s.ShouldInvalidateAllTargets s.EntitySubsystem TFS
              = some false)).map FProcessEntityData.Entity)
    ∧ L.DeferredAtReset = some s.Deferred
    ∧ s2.Deferred = s.Deferred ++ (L.EntitiesWithInvalidTargets.flatMap InvalidTargetCommands
        ++ L.Unstashed.map (FDeferredCommand.RemoveTag FTag.FMassHasStashedMoveTargetTag)) := by
  obtain ⟨-, -, h3, -, -, h6⟩ := Execute_spec ext s s2 L TFS hT h
  obtain ⟨g1, g2⟩ := Execute_flag ext s s2 L TFS hT h
  have hq := ProcessQueues_spec _ _ _ _ h6
  exact ⟨hq.2.1, g1, h3, g2, hq.2.2.2.1⟩

/-- Witness of C12: a tick on `ExampleInvalidateAllState`, whose flag is set and
whose command buffer is empty: the flag is read as set, the buffer is still
empty when the flag is cleared, and the tick schedules commands. -/
theorem C12_invalidate_all_flag_lifecycle_witness :
    ExampleInvalidateAllState.TargetFinderSubsystem = some ExampleEmptyFinder
    ∧ ExampleInvalidateAllState.ShouldInvalidateAllTargets = true
    ∧ ExampleInvalidateAllState.Deferred = []
    ∧ ∃ s2 L, Execute ExampleExternals ExampleInvalidateAllState = some (s2, L)
      ∧ s2.ShouldInvalidateAllTargets = false
      ∧ L.bInvalidateAllTargets = some true
      ∧ L.DeferredAtReset = some []
      ∧ s2.Deferred ≠ [] :=
  have hs : (Execute ExampleExternals ExampleInvalidateAllState).isSome = true := by decide
  have hd : ((Execute ExampleExternals ExampleInvalidateAllState).map
      fun r => decide (r.1.Deferred ≠ [])) = some true := by decide
  match h : Execute ExampleExternals ExampleInvalidateAllState, hs, hd with
  | some (s2, L), _, hd =>
    have c := C12_invalidate_all_flag_lifecycle ExampleExternals ExampleInvalidateAllState s2 L
      ExampleEmptyFinder rfl h
    ⟨rfl, rfl, rfl, s2, L, rfl, c.1, c.2.1, c.2.2.2.1,
      of_decide_eq_true (Option.some.inj hd)⟩
  | none, hn, _ => Bool.noConfusion hn

/-- Claim C13: when a run of the Applier and the Finalizer on a state and an
invalid set, with its deferred commands applied, yields the state `s1`, a
second run on `s1` with the same invalid set returns, and the entity store
(target references, movement orders, navigation plans, tags), the command
buffer, the flag and the signal batch are those of `s1`; the second run sends
its notification again when the invalid set is not empty. -/
theorem C13_applier_finalizer_idempotent (ext : FExternals) (s0 s1 : FState)
    (I : List FMassEntityHandle) (h : ApplierFinalizer ext s0 I = some s1) :
    ∃ s2, ApplierFinalizer ext s1 I = some s2
      ∧ s2.EntitySubsystem = s1.EntitySubsystem
      ∧ s2.Deferred = s1.Deferred
      ∧ s2.ShouldInvalidateAllTargets = s1.ShouldInvalidateAllTargets
      ∧ s2.TransientEntitiesToSignal = s1.TransientEntitiesToSignal
      ∧ s2.TargetFinderSubsystem = s1.TargetFinderSubsystem
      ∧ (I = [] → s2.SignalSubsystem = s1.SignalSubsystem)
      ∧ (I ≠ [] → ∃ Signal, s1.SignalSubsystem = some Signal
          ∧ s2.SignalSubsystem = some
              { Sent := Signal.Sent ++ [(FSignalName.NewStateTreeTaskRequired, I)] }) := by
  obtain ⟨es1, U, En, hp, hes, hw, hd, hf, ht, hT, hs1, hs2⟩ := ApplierFinalizer_spec ext s0 s1 I h
  obtain ⟨hF, -, hU⟩ := ProcessInvalidTargets_spec _ _ _ _ _ _ _ hp
  -- the second Applier pass changes nothing
  have hfix : ∀ ef ∈ s1.EntitySubsystem.Entities,
      (∃ En2, ProcessInvalidTarget ext s1.EntitySubsystem.World I ef
        = some { Entity := ef, Unstashed := [], Entered := En2 })
      ∧ (I.flatMap InvalidTargetCommands
          ++ ([] : List FMassEntityHandle).map
              (FDeferredCommand.RemoveTag FTag.FMassHasStashedMoveTargetTag)).foldl
            (fun e c => c.Apply e) ef = ef := by
    intro ef hef
    rw [hes, List.mem_map] at hef
    obtain ⟨e1, he1, rfl⟩ := hef
    obtain ⟨e0, he0, Step, hs, rfl⟩ := Forall₂_exists_of_mem_right _ _ _ hF e1 he1
    constructor
    · rw [hw]
      refine ProcessInvalidTarget_second ext _ I U e0 Step hs ?_
      intro hm hr
      rw [hU, List.mem_map]
      refine ⟨e0, List.mem_filter.mpr ⟨he0, ?_⟩, rfl⟩
      simp only [hm, hr, Bool.and_self]
    · apply foldl_Apply_eq_self
      intro c hc heq
      have hcI := tick_commands_Entity I [] (fun a ha => by cases ha) c hc
      rw [heq, foldl_Apply_Handle] at hcI
      obtain ⟨t1, t2, t3⟩ := (tick_commands_tags I U Step.Entity).1 hcI
      rw [mem_tick_commands] at hc
      rcases hc with ⟨a, -, rfl | rfl | rfl⟩ | ⟨a, ha, rfl⟩
      · exact t1
      · exact t2
      · exact t3
      · cases ha
  obtain ⟨En2, hp2⟩ := ProcessInvalidTargets_fixed ext s1.EntitySubsystem.World I
    s1.EntitySubsystem.Entities fun ef hef => (hfix ef hef).1
  obtain ⟨sq2, hq2⟩ := ProcessQueues_isSome
    { s1 with
      EntitySubsystem := { s1.EntitySubsystem with Entities := s1.EntitySubsystem.Entities }
      ShouldInvalidateAllTargets := false } I [] (by
    intro hI
    obtain ⟨Signal, -, hS⟩ := hs2 hI
    show s1.SignalSubsystem.isSome = true
    rw [hS]; rfl)
  obtain ⟨q1, q2, q3, q4, q5, q6⟩ := ProcessQueues_spec _ _ _ _ hq2
  have hT2 := ProcessQueues_TargetFinderSubsystem _ _ _ _ hq2
  have hflush : FlushCommands (sq2.Deferred.drop s1.Deferred.length)
      sq2.EntitySubsystem.Entities = s1.EntitySubsystem.Entities := by
    rw [q4, q1, FlushCommands_eq_map]
    simp only [List.drop_left']
    have : ∀ (l : List FEntity), (∀ ef ∈ l,
        (I.flatMap InvalidTargetCommands
          ++ ([] : List FMassEntityHandle).map
              (FDeferredCommand.RemoveTag FTag.FMassHasStashedMoveTargetTag)).foldl
            (fun e c => c.Apply e) ef = ef) →
        l.map (fun e => (I.flatMap InvalidTargetCommands
          ++ ([] : List FMassEntityHandle).map
              (FDeferredCommand.RemoveTag FTag.FMassHasStashedMoveTargetTag)).foldl
            (fun e c => c.Apply e) e) = l := by
      intro l hl
      conv_rhs => rw [← List.map_id l]
      exact List.map_congr_left hl
    exact this _ fun ef hef => (hfix ef hef).2
  refine ⟨{ sq2 with
            EntitySubsystem :=
              { sq2.EntitySubsystem with
                Entities := FlushCommands (sq2.Deferred.drop s1.Deferred.length)
                  sq2.EntitySubsystem.Entities }
            Deferred := s1.Deferred }, ?_, ?_, rfl, ?_, ?_, hT2, q5, q6⟩
  · unfold ApplierFinalizer
    rw [hp2]
    simp only
    rw [hq2]
  · show ({ Entities := FlushCommands (sq2.Deferred.drop s1.Deferred.length)
              sq2.EntitySubsystem.Entities, World := sq2.EntitySubsystem.World } :
            UMassEntitySubsystem) = s1.EntitySubsystem
    rw [hflush, q1]
  · show sq2.ShouldInvalidateAllTargets = _
    rw [q2, hf]
  · show sq2.TransientEntitiesToSignal = _
    rw [q3, ht]

/-- Witness of C13: two runs on `ExampleSoldierState` with the invalid set
holding `ExampleSoldier`. -/
theorem C13_applier_finalizer_idempotent_witness :
    ∃ s1 s2, ApplierFinalizer ExampleExternals ExampleSoldierState [ExampleSoldier.Handle]
        = some s1
      ∧ ApplierFinalizer ExampleExternals s1 [ExampleSoldier.Handle] = some s2
      ∧ s2.EntitySubsystem = s1.EntitySubsystem :=
  have hs : (ApplierFinalizer ExampleExternals ExampleSoldierState
      [ExampleSoldier.Handle]).isSome = true := by decide
  match h : ApplierFinalizer ExampleExternals ExampleSoldierState [ExampleSoldier.Handle],
      hs with
  | some s1, _ =>
    match C13_applier_finalizer_idempotent ExampleExternals ExampleSoldierState s1
        [ExampleSoldier.Handle] h with
    | ⟨s2, h2, he, _⟩ => ⟨s1, s2, rfl, h2, he⟩
  | none, hn => Bool.noConfusion hn


/-- Claim C14: without the target finder subsystem `Execute` returns the state
it was given: no job is collected, the entity store, the command buffer, the
signals, the signal batch and the invalidate-all flag are unchanged. -/
theorem C14_missing_collaborator (ext : FExternals) (s : FState)
    (hT : s.TargetFinderSubsystem = none) :
    Execute ext s = some (s, { EntitiesToCheck := [], EntitiesWithInvalidTargets := [],
                               Unstashed := [], Entered := [] })
    ∧ ∀ s2 L, Execute ext s = some (s2, L) →
        L.EntitiesToCheck = []
        ∧ s2.EntitySubsystem = s.EntitySubsystem
        ∧ s2.Deferred = s.Deferred
        ∧ s2.SignalSubsystem = s.SignalSubsystem
        ∧ s2.TransientEntitiesToSignal = s.TransientEntitiesToSignal
        ∧ s2.ShouldInvalidateAllTargets = s.ShouldInvalidateAllTargets := by
  refine ⟨Execute_skip ext s hT, ?_⟩
  intro s2 L h
  rw [Execute_skip ext s hT] at h
  simp only [Option.some.injEq, Prod.mk.injEq] at h
  obtain ⟨rfl, rfl⟩ := h
  exact ⟨rfl, rfl, rfl, rfl, rfl, rfl⟩

/-- Witness of C14: a tick on `ExampleNoFinderState`, whose flag is set. -/
theorem C14_missing_collaborator_witness :
    ExampleNoFinderState.TargetFinderSubsystem = none
    ∧ ExampleNoFinderState.ShouldInvalidateAllTargets = true
    ∧ Execute ExampleExternals ExampleNoFinderState
        = some (ExampleNoFinderState,
            { EntitiesToCheck := [], EntitiesWithInvalidTargets := [], Unstashed := [],
              Entered := [] }) :=
  ⟨rfl, rfl, (C14_missing_collaborator ExampleExternals ExampleNoFinderState rfl).1⟩


/-- Counterexample to C15 as stated: `ExampleSoldierNoPlan` is collected by
Scan A and its target (7, 1) is dead; the tick puts it in the invalid set, but
it has no navigation plan, so the Applier does not visit it and its target
reference is still (7, 1) after the tick. -/
theorem C15_counterexample :
    ∃ s2 L, Execute ExampleExternals ExampleNoPlanState = some (s2, L)
      ∧ ExampleSoldierNoPlan ∈ ExampleNoPlanState.EntitySubsystem.Entities
      ∧ ExampleSoldierNoPlan.Transform.isSome = true
      ∧ ExampleSoldierNoPlan.TeamMember.isSome = true
      ∧ ExampleSoldierNoPlan.HasTag FTag.FMassWillNeedEnemyTargetTag = true
      ∧ ExampleSoldierNoPlan.TargetEntity
          = some { Entity := { Index := 7, SerialNumber := 1 }, TargetMinCaliberForDamage := 0 }
      ∧ ExampleNoPlanState.EntitySubsystem.IsEntityValid { Index := 7, SerialNumber := 1 }
          = false
      ∧ ExampleSoldierNoPlan.Handle ∈ L.EntitiesWithInvalidTargets
      ∧ s2.EntitySubsystem.Entities = [ExampleSoldierNoPlan] := by
  have h1 : (Execute ExampleExternals ExampleNoPlanState).map
      (fun r => (r.2.EntitiesWithInvalidTargets, r.1.EntitySubsystem.Entities))
      = some ([{ Index := 3, SerialNumber := 1 }], [ExampleSoldierNoPlan]) := by decide
  cases h : Execute ExampleExternals ExampleNoPlanState with
  | none => rw [h] at h1; cases h1
  | some r =>
    obtain ⟨s2, L⟩ := r
    rw [h] at h1
    simp only [Option.map_some', Option.some.injEq, Prod.mk.injEq] at h1
    obtain ⟨hI, hes⟩ := h1
    refine ⟨s2, L, rfl, by decide, rfl, rfl, by decide, rfl, by decide, ?_, hes⟩
    rw [hI]; decide

/-- Claim C15, amended: for an agent collected by Scan A or Scan B whose target
is not a live entity, in a tick that ran with the target finder subsystem
present and returned: a job of the agent evaluates invalid without failing
(the view of the target does not exist, so it was not looked up); the agent is
in the invalid set, once; the add of the needs-enemy-target tag is among the
commands of the tick; exactly one notification is appended and it lists the
invalid set; when `InvalidateTargetsEntityQuery` matches the agent its target
identity is reset, and otherwise the agent is left as it was. -/
theorem C15_dead_target (ext : FExternals) (s s2 : FState) (L : FExecuteLocals)
    (TFS : UMassTargetFinderSubsystem) (e : FEntity) (Target : FTargetEntityFragment)
    (hT : s.TargetFinderSubsystem = some TFS)
    (he : e ∈ s.EntitySubsystem.Entities)
    (htarget : e.TargetEntity = some Target)
    (hscan : (e.Transform.isSome = true ∧ e.TeamMember.isSome = true
        ∧ e.HasTag FTag.FMassWillNeedEnemyTargetTag = true)
      ∨ e.HasTag FTag.FMassTrackTargetTag = true)
    (hdead : s.EntitySubsystem.IsEntityValid Target.Entity = false)
    (h : Execute ext s = some (s2, L)) :
    (∃ j ∈ L.EntitiesToCheck, j.Entity = e.Handle ∧ j.TargetEntity = Target.Entity
        ∧ JobIsTargetValid ext j s.ShouldInvalidateAllTargets s.EntitySubsystem TFS
            = some false)
    ∧ s.EntitySubsystem.View Target.Entity = none
    ∧ e.Handle ∈ L.EntitiesWithInvalidTargets
    ∧ (∃ Commands, s2.Deferred = s.Deferred ++ Commands
        ∧ FDeferredCommand.AddTag FTag.FMassNeedsEnemyTargetTag e.Handle ∈ Commands)
    ∧ (∃ Signal, s.SignalSubsystem = some Signal
        ∧ s2.SignalSubsystem = some
            { Sent := Signal.Sent
                ++ [(FSignalName.NewStateTreeTaskRequired, L.EntitiesWithInvalidTargets)] })
    ∧ L.EntitiesWithInvalidTargets.count e.Handle = 1
    ∧ (e.MatchesInvalidateTargetsQuery = true →
        ∃ e1 ∈ s2.EntitySubsystem.Entities,
          e1.Handle = e.Handle ∧ e1.TargetEntity = some Target.ResetEntity)
    ∧ (e.MatchesInvalidateTargetsQuery = false → e ∈ s2.EntitySubsystem.Entities) := by
  obtain ⟨h1, -, h3, h4, -, h6⟩ := Execute_spec ext s s2 L TFS hT h
  obtain ⟨hF, -, -⟩ := ProcessInvalidTargets_spec _ _ _ _ _ _ _ h4
  have hq := ProcessQueues_spec _ _ _ _ h6
  obtain ⟨j, hj, hje, hjt⟩ := exists_job_of_collected ext s.EntitySubsystem.Entities e Target he
    htarget hscan
  have hjv : JobIsTargetValid ext j s.ShouldInvalidateAllTargets s.EntitySubsystem TFS
      = some false := by
    unfold JobIsTargetValid
    rw [hjt]
    exact IsTargetValid_dead _ _ _ _ _ _ _ _ _ _ _ hdead
  have hI : e.Handle ∈ L.EntitiesWithInvalidTargets := by
    rw [h3, BuildInvalidTargetsSet_mem, List.mem_map]
    refine ⟨j, List.mem_filter.mpr ⟨by rw [h1]; exact hj, by simpa using hjv⟩, hje⟩
  have hne : L.EntitiesWithInvalidTargets ≠ [] := List.ne_nil_of_mem hI
  have hnd : L.EntitiesWithInvalidTargets.Nodup := by
    rw [h3]; exact BuildInvalidTargetsSet_nodup _
  refine ⟨⟨j, by rw [h1]; exact hj, hje, hjt, hjv⟩,
    UMassEntitySubsystem.View_eq_none _ _ hdead, hI, ⟨_, hq.2.2.2.1, ?_⟩,
    hq.2.2.2.2.2 hne, List.count_eq_one_of_mem hnd hI, ?_, ?_⟩
  · rw [mem_tick_commands]
    exact Or.inl ⟨e.Handle, hI, Or.inl rfl⟩
  · intro hm
    obtain ⟨e1, he1, Step, hs, rfl⟩ := Forall₂_exists_of_mem_left _ _ _ hF e he
    have hmm : (e.MatchesInvalidateTargetsQuery
        && L.EntitiesWithInvalidTargets.contains e.Handle) = true := by
      simp [hm, hI]
    refine ⟨_, he1, (ProcessInvalidTarget_frame _ _ _ _ _ hs).2.2.1, ?_⟩
    rw [(ProcessInvalidTarget_enter _ _ _ _ _ hmm hs).2.1, htarget]
    rfl
  · intro hm
    obtain ⟨e1, he1, Step, hs, rfl⟩ := Forall₂_exists_of_mem_left _ _ _ hF e he
    have hmm : (e.MatchesInvalidateTargetsQuery
        && L.EntitiesWithInvalidTargets.contains e.Handle) = false := by
      simp [hm]
    rw [ProcessInvalidTarget_skip _ _ _ _ hmm] at hs
    cases hs
    exact he1

/-- Witness of C15: `ExampleSoldier` in a tick on `ExampleSoldierState`. -/
theorem C15_dead_target_witness :
    ExampleSoldier ∈ ExampleSoldierState.EntitySubsystem.Entities
    ∧ ExampleSoldierState.EntitySubsystem.IsEntityValid { Index := 7, SerialNumber := 1 }
        = false
    ∧ ExampleSoldier.MatchesInvalidateTargetsQuery = true
    ∧ ∃ s2 L, Execute ExampleExternals ExampleSoldierState = some (s2, L)
      ∧ ExampleSoldier.Handle ∈ L.EntitiesWithInvalidTargets
      ∧ ∃ e1 ∈ s2.EntitySubsystem.Entities,
          e1.Handle = ExampleSoldier.Handle
          ∧ e1.TargetEntity = some
              (FTargetEntityFragment.ResetEntity
                { Entity := { Index := 7, SerialNumber := 1 }, TargetMinCaliberForDamage := 0 }) :=
  have hs : (Execute ExampleExternals ExampleSoldierState).isSome = true := by decide
  have hd : ExampleSoldierState.EntitySubsystem.IsEntityValid
      { Index := 7, SerialNumber := 1 } = false := by decide
  have hm : ExampleSoldier ∈ ExampleSoldierState.EntitySubsystem.Entities := by decide
  match h : Execute ExampleExternals ExampleSoldierState, hs with
  | some (s2, L), _ =>
    have hc := C15_dead_target ExampleExternals ExampleSoldierState s2 L ExampleEmptyFinder
      ExampleSoldier
      { Entity := { Index := 7, SerialNumber := 1 }, TargetMinCaliberForDamage := 0 }
      rfl hm rfl (Or.inl ⟨rfl, rfl, by decide⟩) hd h
    ⟨hm, hd, by decide, s2, L, rfl, hc.2.2.1, hc.2.2.2.2.2.2.1 (by decide)⟩
  | none, hn => Bool.noConfusion hn


/-- Claim C16: in a store with distinct handles, for an agent collected by
Scan A and not by Scan B whose target is live and has a transform, is not out
of range, is obstructed by no broad-phase candidate (all of which have dynamic
data) and is visible along the trace, with the invalidate-all flag clear,
after a tick that returns: the agent is not in the invalid set; the store
holds the agent exactly as it was (target identity and caliber, movement
orders, navigation plan, tags), also after the commands of the tick are
applied, none of which names the agent; and the only notification the tick may
have sent lists the invalid set, which does not hold the agent. -/
theorem C16_valid_target_unchanged (ext : FExternals) (s s2 : FState) (L : FExecuteLocals)
    (TFS : UMassTargetFinderSubsystem) (e View : FEntity) (Transform Tf : FTransformFragment)
    (Target : FTargetEntityFragment) (TeamMember : FTeamMemberFragment)
    (hnd : (s.EntitySubsystem.Entities.map FEntity.Handle).Nodup)
    (hT : s.TargetFinderSubsystem = some TFS)
    (hflag : s.ShouldInvalidateAllTargets = false)
    (he : e ∈ s.EntitySubsystem.Entities)
    (htransform : e.Transform = some Transform)
    (htarget : e.TargetEntity = some Target)
    (hteam : e.TeamMember = some TeamMember)
    (hA : e.HasTag FTag.FMassWillNeedEnemyTargetTag = true)
    (hB : e.HasTag FTag.FMassTrackTargetTag = false)
    (hview : s.EntitySubsystem.View Target.Entity = some View)
    (htf : View.Transform = some Tf)
    (hrange : IsTargetEntityOutOfRange ext Tf.GetTransform.GetLocation
      Transform.GetTransform.GetLocation e.Handle
      (e.HasTag FTag.FMassProjectileDamagableSoldierTag) = false)
    (hdata : ∀ o ∈ TFS.Query
      (QueryBounds Transform.GetTransform.GetLocation Tf.GetTransform.GetLocation),
      (TFS.TargetDynamicData o.Entity).isSome = true)
    (hnone : ∀ o ∈ TFS.Query
      (QueryBounds Transform.GetTransform.GetLocation Tf.GetTransform.GetLocation),
      SpecObstructingCandidate ext TFS e.Handle s.EntitySubsystem TeamMember.IsOnTeam1
        Target.TargetMinCaliberForDamage
        (ext.GetProjectileTraceCapsuleToTarget
          (e.HasTag FTag.FMassProjectileDamagableSoldierTag)
          (View.HasTag FTag.FMassProjectileDamagableSoldierTag) Transform.GetTransform
          Tf.GetTransform.GetLocation) o = false)
    (hvis : ext.IsTargetEntityVisibleViaSphereTrace
      (ext.GetProjectileTraceCapsuleToTarget
        (e.HasTag FTag.FMassProjectileDamagableSoldierTag)
        (View.HasTag FTag.FMassProjectileDamagableSoldierTag) Transform.GetTransform
        Tf.GetTransform.GetLocation).a
      (ext.GetProjectileTraceCapsuleToTarget
        (e.HasTag FTag.FMassProjectileDamagableSoldierTag)
        (View.HasTag FTag.FMassProjectileDamagableSoldierTag) Transform.GetTransform
        Tf.GetTransform.GetLocation).b = true)
    (h : Execute ext s = some (s2, L)) :
    e.Handle ∉ L.EntitiesWithInvalidTargets
    ∧ e ∈ s2.EntitySubsystem.Entities
    ∧ (∀ e1 ∈ s2.EntitySubsystem.Entities, e1.Handle = e.Handle → e1 = e)
    ∧ (∃ Commands, s2.Deferred = s.Deferred ++ Commands
        ∧ (∀ c ∈ Commands, c.Entity ≠ e.Handle)
        ∧ e ∈ FlushCommands Commands s2.EntitySubsystem.Entities
        ∧ ∀ e1 ∈ FlushCommands Commands s2.EntitySubsystem.Entities,
            e1.Handle = e.Handle → e1 = e)
    ∧ (s2.SignalSubsystem = s.SignalSubsystem
        ∨ ∃ Signal, s.SignalSubsystem = some Signal
            ∧ s2.SignalSubsystem = some
                { Sent := Signal.Sent
                    ++ [(FSignalName.NewStateTreeTaskRequired,
                         L.EntitiesWithInvalidTargets)] }) := by
  obtain ⟨h1, -, h3, h4, -, h6⟩ := Execute_spec ext s s2 L TFS hT h
  obtain ⟨hF, -, -⟩ := ProcessInvalidTargets_spec _ _ _ _ _ _ _ h4
  have hq := ProcessQueues_spec _ _ _ _ h6
  have hUI := ProcessInvalidTargets_Unstashed_subset _ _ _ _ _ _ _ h4
  -- the job of the agent is valid
  have hloop := ProcessCloseEntities_eq ext TFS e.Handle s.EntitySubsystem TeamMember.IsOnTeam1
    Target.TargetMinCaliberForDamage
    (ext.GetProjectileTraceCapsuleToTarget (e.HasTag FTag.FMassProjectileDamagableSoldierTag)
      (View.HasTag FTag.FMassProjectileDamagableSoldierTag) Transform.GetTransform
      Tf.GetTransform.GetLocation)
    (TFS.Query (QueryBounds Transform.GetTransform.GetLocation Tf.GetTransform.GetLocation))
    hdata
  rw [List.any_eq_false.mpr (fun o ho => by rw [hnone o ho]; simp)] at hloop
  have hO := IsTargetEntityObstructed_of_loop ext Transform.GetTransform.GetLocation
    Tf.GetTransform.GetLocation TFS e.Handle s.EntitySubsystem TeamMember.IsOnTeam1
    (e.HasTag FTag.FMassProjectileDamagableSoldierTag) Target.TargetMinCaliberForDamage View
    Transform.GetTransform false hloop
  rw [hvis] at hO
  have hvalid : IsTargetValid ext e.Handle Target.Entity s.EntitySubsystem
      Target.TargetMinCaliberForDamage TFS TeamMember.IsOnTeam1
      (e.HasTag FTag.FMassProjectileDamagableSoldierTag) Transform.GetTransform false false
      = some true := by
    rw [IsTargetValid_full ext e.Handle Target.Entity s.EntitySubsystem
      Target.TargetMinCaliberForDamage TFS TeamMember.IsOnTeam1
      (e.HasTag FTag.FMassProjectileDamagableSoldierTag) Transform.GetTransform View Tf hview
      htf, hrange, hO]
    rfl
  have hI : e.Handle ∉ L.EntitiesWithInvalidTargets := by
    rw [h3, BuildInvalidTargetsSet_mem, List.mem_map]
    rintro ⟨j, hj, hje⟩
    rw [List.mem_filter, h1, List.mem_append] at hj
    obtain ⟨hj, hjv⟩ := hj
    have hjv : JobIsTargetValid ext j s.ShouldInvalidateAllTargets s.EntitySubsystem TFS
        = some false := by simpa using hjv
    rcases hj with hj | hj
    · obtain ⟨e2, he2, Tr, Tg, Tm, g1, g2, g3, -, rfl⟩ := (mem_BuildQueue _ _).mp hj
      have : e2 = e := List.inj_on_of_nodup_map hnd he2 he hje
      subst this
      rw [htransform] at g1; rw [htarget] at g2; rw [hteam] at g3
      cases g1; cases g2; cases g3
      unfold JobIsTargetValid at hjv
      rw [hflag] at hjv
      simp only at hjv
      rw [hvalid] at hjv
      cases hjv
    · obtain ⟨e2, he2, Tg, -, hk, rfl⟩ := (mem_BuildQueueForTrackTarget _ _ _).mp hj
      have : e2 = e := List.inj_on_of_nodup_map hnd he2 he hje
      subst this
      rw [hB] at hk
      cases hk
  -- the Applier skips the agent
  have hskip : (e.MatchesInvalidateTargetsQuery
      && L.EntitiesWithInvalidTargets.contains e.Handle) = false := by
    simp [hI]
  have hmem2 : e ∈ s2.EntitySubsystem.Entities := by
    obtain ⟨e1, he1, Step, hs, rfl⟩ := Forall₂_exists_of_mem_left _ _ _ hF e he
    rw [ProcessInvalidTarget_skip _ _ _ _ hskip] at hs
    cases hs
    exact he1
  have hH := ProcessInvalidTargets_Handle _ _ _ _ _ _ _ h4
  have hnd2 : (s2.EntitySubsystem.Entities.map FEntity.Handle).Nodup := by rw [hH]; exact hnd
  have huniq : ∀ e1 ∈ s2.EntitySubsystem.Entities, e1.Handle = e.Handle → e1 = e :=
    fun e1 he1 heq => List.inj_on_of_nodup_map hnd2 he1 hmem2 heq
  have hcmd : ∀ c ∈ L.EntitiesWithInvalidTargets.flatMap InvalidTargetCommands
      ++ L.Unstashed.map (FDeferredCommand.RemoveTag FTag.FMassHasStashedMoveTargetTag),
      c.Entity ≠ e.Handle := by
    intro c hc heq
    exact hI (heq ▸ tick_commands_Entity _ _ hUI c hc)
  have hfix : (L.EntitiesWithInvalidTargets.flatMap InvalidTargetCommands
      ++ L.Unstashed.map (FDeferredCommand.RemoveTag FTag.FMassHasStashedMoveTargetTag)).foldl
      (fun e c => c.Apply e) e = e :=
    foldl_Apply_eq_self _ e fun c hc heq => absurd heq (hcmd c hc)
  refine ⟨hI, hmem2, huniq, ⟨_, hq.2.2.2.1, hcmd, ?_, ?_⟩, ?_⟩
  · rw [FlushCommands_eq_map, List.mem_map]
    exact ⟨e, hmem2, hfix⟩
  · intro e1 he1 heq
    rw [FlushCommands_eq_map, List.mem_map] at he1
    obtain ⟨e0, he0, rfl⟩ := he1
    rw [foldl_Apply_Handle] at heq
    rw [huniq e0 he0 heq]
    exact hfix
  · by_cases hne : L.EntitiesWithInvalidTargets = []
    · exact Or.inl (hq.2.2.2.2.1 hne)
    · exact Or.inr (hq.2.2.2.2.2 hne)

/-- Witness of C16: `ExampleEngagingSoldier`, a soldier on team 1 of range 5
whose live target is at distance 4, in a tick on `ExampleEngagingState`. -/
theorem C16_valid_target_unchanged_witness :
    (ExampleEngagingState.EntitySubsystem.Entities.map FEntity.Handle).Nodup
    ∧ ExampleEngagingSoldier ∈ ExampleEngagingState.EntitySubsystem.Entities
    ∧ IsTargetEntityOutOfRange ExampleExternals { X := 4, Y := 0, Z := 0 }
        { X := 0, Y := 0, Z := 0 } ExampleEngagingSoldier.Handle true = false
    ∧ ∃ s2 L, Execute ExampleExternals ExampleEngagingState = some (s2, L)
      ∧ ExampleEngagingSoldier.Handle ∉ L.EntitiesWithInvalidTargets
      ∧ ExampleEngagingSoldier ∈ s2.EntitySubsystem.Entities
      ∧ s2.SignalSubsystem = ExampleEngagingState.SignalSubsystem :=
  have hs : (Execute ExampleExternals ExampleEngagingState).isSome = true := by
    with_unfolding_all decide
  have hI : (Execute ExampleExternals ExampleEngagingState).map
      (fun r => (r.2.EntitiesWithInvalidTargets, r.1.SignalSubsystem))
      = some ([], ExampleEngagingState.SignalSubsystem) := by
    with_unfolding_all decide
  have hnd : (ExampleEngagingState.EntitySubsystem.Entities.map FEntity.Handle).Nodup := by
    decide
  have hm : ExampleEngagingSoldier ∈ ExampleEngagingState.EntitySubsystem.Entities := by decide
  have hr : IsTargetEntityOutOfRange ExampleExternals { X := 4, Y := 0, Z := 0 }
      { X := 0, Y := 0, Z := 0 } ExampleEngagingSoldier.Handle true = false := by
    with_unfolding_all decide
  match h : Execute ExampleExternals ExampleEngagingState, hs, hI with
  | some (s2, L), _, hI2 =>
    have hc := C16_valid_target_unchanged ExampleExternals ExampleEngagingState s2 L
      ExampleEmptyFinder ExampleEngagingSoldier ExampleTarget { Transform := ExampleTransform }
      { Transform := { ExampleTransform with Translation := { X := 4, Y := 0, Z := 0 } } }
      { Entity := { Index := 8, SerialNumber := 1 }, TargetMinCaliberForDamage := 0 }
      { IsOnTeam1 := true } hnd rfl rfl hm rfl rfl rfl (by decide) (by decide) (by decide) rfl
      hr (fun o ho => nomatch ho) (fun o ho => nomatch ho) rfl h
    ⟨hnd, hm, hr, s2, L, rfl, hc.1, hc.2.1, (Prod.mk.inj (Option.some.inj hI2)).2⟩
  | none, hn, _ => Bool.noConfusion hn


/-- Counterexample to C17 as stated: `ExampleStashedTracker` is in the invalid
set of the tick, carries the has-stashed-move-order marker and has both a
stashed and an active movement order, but it has no navigation plan, so the
Applier does not visit it: nothing is restored, the unstashed queue is empty
and no removal of the marker is scheduled. -/
theorem C17_counterexample :
    ∃ s2 L, Execute ExampleExternals ExampleStashedTrackerState = some (s2, L)
      ∧ ExampleStashedTracker ∈ ExampleStashedTrackerState.EntitySubsystem.Entities
      ∧ ExampleStashedTracker.Handle ∈ L.EntitiesWithInvalidTargets
      ∧ ExampleStashedTracker.HasTag FTag.FMassHasStashedMoveTargetTag = true
      ∧ ExampleStashedTracker.StashedMoveTarget.isSome = true
      ∧ ExampleStashedTracker.MoveTarget.isSome = true
      ∧ L.Unstashed = []
      ∧ s2.EntitySubsystem.Entities = [ExampleStashedTracker]
      ∧ FDeferredCommand.RemoveTag FTag.FMassHasStashedMoveTargetTag
          ExampleStashedTracker.Handle ∉ s2.Deferred := by
  have h1 : (Execute ExampleExternals ExampleStashedTrackerState).map
      (fun r => (r.2.EntitiesWithInvalidTargets, r.2.Unstashed, r.1.EntitySubsystem.Entities,
        r.1.Deferred))
      = some ([{ Index := 4, SerialNumber := 1 }], [], [ExampleStashedTracker],
          InvalidTargetCommands { Index := 4, SerialNumber := 1 }) := by decide
  cases h : Execute ExampleExternals ExampleStashedTrackerState with
  | none => rw [h] at h1; cases h1
  | some r =>
    obtain ⟨s2, L⟩ := r
    rw [h] at h1
    simp only [Option.map_some', Option.some.injEq, Prod.mk.injEq] at h1
    obtain ⟨hI, hU, hes, hD⟩ := h1
    refine ⟨s2, L, rfl, by decide, ?_, by decide, rfl, rfl, hU, hes, ?_⟩
    · rw [hI]; decide
    · rw [hD]; decide

/-- Claim C17, amended: in a store with distinct handles, after a tick that
returns, `UnstashMoveTarget` was applied to an entity (it is in the unstashed
queue) exactly when `InvalidateTargetsEntityQuery` matches it (target
reference, navigation plan and transform fragments present), it is in the
invalid set, and it carries the has-stashed-move-order marker and has both a
stashed and an active movement order; such an entity is in the queue once and
its active order and navigation plan are the result of `UnstashMoveTarget`;
every other entity keeps its active order and navigation plan; the queue holds
handles of entities of the store only; and the commands of the tick about the
marker are exactly one removal per entry of the queue. -/
theorem C17_restoration_condition (ext : FExternals) (s s2 : FState) (L : FExecuteLocals)
    (hnd : (s.EntitySubsystem.Entities.map FEntity.Handle).Nodup)
    (h : Execute ext s = some (s2, L)) :
    List.Forall₂
      (fun e e1 =>
        (e.Handle ∈ L.Unstashed
          ↔ e.MatchesInvalidateTargetsQuery = true ∧ e.Handle ∈ L.EntitiesWithInvalidTargets
            ∧ e.HasRestorableStash = true)
        ∧ (e.Handle ∈ L.Unstashed →
            L.Unstashed.count e.Handle = 1
            ∧ ∃ Stashed MoveTarget Nav Transform d nav,
                e.StashedMoveTarget = some Stashed ∧ e.MoveTarget = some MoveTarget
                ∧ e.NavMeshMove = some Nav ∧ e.Transform = some Transform
                ∧ UnstashMoveTarget ext Stashed MoveTarget s.EntitySubsystem.World
                    (e.HasTag FTag.FMassNeedsNavMeshMoveTag) Nav Transform.GetTransform
                    = some (d, nav)
                ∧ e1.MoveTarget = some d ∧ e1.NavMeshMove = some nav)
        ∧ (e.Handle ∉ L.Unstashed →
            e1.MoveTarget = e.MoveTarget ∧ e1.NavMeshMove = e.NavMeshMove))
      s.EntitySubsystem.Entities s2.EntitySubsystem.Entities
    ∧ (∀ a ∈ L.Unstashed, ∃ e ∈ s.EntitySubsystem.Entities, e.Handle = a)
    ∧ ∃ Commands,
        s2.Deferred = s.Deferred ++ Commands
        ∧ Commands.filter (fun c => decide (c.Tag = FTag.FMassHasStashedMoveTargetTag))
            = L.Unstashed.map (FDeferredCommand.RemoveTag FTag.FMassHasStashedMoveTargetTag) := by
  cases hT : s.TargetFinderSubsystem with
  | none =>
    rw [Execute_skip ext s hT] at h
    simp only [Option.some.injEq, Prod.mk.injEq] at h
    obtain ⟨rfl, rfl⟩ := h
    refine ⟨List.forall₂_same.mpr ?_, ?_, [], by simp, rfl⟩
    · intro e _
      simp
    · intro a ha
      cases ha
  | some TFS =>
    obtain ⟨-, -, -, h4, -, h6⟩ := Execute_spec ext s s2 L TFS hT h
    obtain ⟨hF, -, hU⟩ := ProcessInvalidTargets_spec _ _ _ _ _ _ _ h4
    have hq := (ProcessQueues_spec _ _ _ _ h6).2.2.2.1
    refine ⟨?_, ?_, _, hq, filter_stash_commands _ _⟩
    · refine (Forall₂_mem_left _ _ _ hF).imp ?_
      rintro e e1 ⟨he, Step, hs, rfl⟩
      have hmem := mem_filter_map_Handle s.EntitySubsystem.Entities
        (fun e => e.MatchesInvalidateTargetsQuery
          && L.EntitiesWithInvalidTargets.contains e.Handle && e.HasRestorableStash)
        e hnd he
      rw [← hU] at hmem
      have hcond : (e.MatchesInvalidateTargetsQuery
            && L.EntitiesWithInvalidTargets.contains e.Handle && e.HasRestorableStash) = true
          ↔ e.MatchesInvalidateTargetsQuery = true ∧ e.Handle ∈ L.EntitiesWithInvalidTargets
            ∧ e.HasRestorableStash = true := by
        simp [and_assoc]
      refine ⟨hmem.1.trans hcond, ?_, ?_⟩
      · intro hin
        have hp := hmem.1.mp hin
        obtain ⟨h1, h2, h3⟩ := hcond.mp hp
        have hm : (e.MatchesInvalidateTargetsQuery
            && L.EntitiesWithInvalidTargets.contains e.Handle) = true := by
          simp [h1, h2]
        exact ⟨hmem.2 hp, ProcessInvalidTarget_restore _ _ _ _ _ hm h3 hs⟩
      · intro hin
        have hp : ¬ (e.MatchesInvalidateTargetsQuery = true
            ∧ e.Handle ∈ L.EntitiesWithInvalidTargets ∧ e.HasRestorableStash = true) :=
          fun hc => hin (hmem.1.mpr (hcond.mpr hc))
        cases hm : (e.MatchesInvalidateTargetsQuery
            && L.EntitiesWithInvalidTargets.contains e.Handle)
        · rw [ProcessInvalidTarget_skip _ _ _ _ hm] at hs
          cases hs
          exact ⟨rfl, rfl⟩
        · have hr : e.HasRestorableStash = false := by
            rw [Bool.eq_false_iff]
            intro hr
            simp only [Bool.and_eq_true, List.contains_iff_exists_mem_beq, beq_iff_eq,
              exists_eq_right'] at hm
            exact hp ⟨hm.1, by simpa using hm.2, hr⟩
          exact (ProcessInvalidTarget_enter _ _ _ _ _ hm hs).2.2.2 hr
    · intro a ha
      rw [hU, List.mem_map] at ha
      obtain ⟨e, he, rfl⟩ := ha
      exact ⟨e, (List.mem_filter.mp he).1, rfl⟩

/-- Witness of C17: a tick on `ExampleSoldierState`. -/
theorem C17_restoration_condition_witness :
    (ExampleSoldierState.EntitySubsystem.Entities.map FEntity.Handle).Nodup
    ∧ ∃ s2 L, Execute ExampleExternals ExampleSoldierState = some (s2, L)
      ∧ (∀ a ∈ L.Unstashed, ∃ e ∈ ExampleSoldierState.EntitySubsystem.Entities, e.Handle = a)
      ∧ ∃ Commands,
          s2.Deferred = ExampleSoldierState.Deferred ++ Commands
          ∧ Commands.filter (fun c => decide (c.Tag = FTag.FMassHasStashedMoveTargetTag))
              = L.Unstashed.map
                  (FDeferredCommand.RemoveTag FTag.FMassHasStashedMoveTargetTag) :=
  have hnd : (ExampleSoldierState.EntitySubsystem.Entities.map FEntity.Handle).Nodup := by decide
  have hs : (Execute ExampleExternals ExampleSoldierState).isSome = true := by decide
  match h : Execute ExampleExternals ExampleSoldierState, hs with
  | some (s2, L), _ =>
    have hc := C17_restoration_condition ExampleExternals ExampleSoldierState s2 L hnd h
    ⟨hnd, s2, L, rfl, hc.2.1, hc.2.2⟩
  | none, hn => Bool.noConfusion hn


/-- Counterexample to C18 as stated: `ExampleTrackerNoTransform` is in the
invalid set and does not meet the restoration condition, but it has no
transform fragment, so the Applier pass does not visit it: its target identity
is not reset and is still (7, 1). -/
theorem C18_counterexample :
    ExampleTrackerNoTransform.Handle ∈ [ExampleTrackerNoTransform.Handle]
    ∧ ExampleTrackerNoTransform.HasRestorableStash = false
    ∧ ExampleTrackerNoTransform.TargetEntity
        = some { Entity := { Index := 7, SerialNumber := 1 }, TargetMinCaliberForDamage := 0 }
    ∧ ProcessInvalidTargets ExampleExternals { TimeSeconds := 0 }
        [ExampleTrackerNoTransform.Handle] [ExampleTrackerNoTransform]
        = some ([ExampleTrackerNoTransform], [], []) := by
  refine ⟨by decide, by decide, rfl, by decide⟩

/-- Claim C18, amended: in an Applier pass that returns, an entity that is not
in the invalid set is unchanged; an entity of the invalid set that does not
meet the restoration condition has only its target identity reset when
`InvalidateTargetsEntityQuery` matches it and is unchanged when the query does
not match it, and in both cases keeps its active order, its navigation plan and
its required caliber; the stashed order and the transform of every entity are
unchanged. -/
theorem C18_applier_frame (ext : FExternals) (World : UWorld)
    (EntitiesWithInvalidTargets : List FMassEntityHandle) (Entities Entities1 : List FEntity)
    (Unstashed Entered : List FMassEntityHandle)
    (h : ProcessInvalidTargets ext World EntitiesWithInvalidTargets Entities
      = some (Entities1, Unstashed, Entered)) :
    List.Forall₂
      (fun e e1 =>
        (e.Handle ∉ EntitiesWithInvalidTargets → e1 = e)
        ∧ (e.Handle ∈ EntitiesWithInvalidTargets → e.HasRestorableStash = false →
            (e.MatchesInvalidateTargetsQuery = true →
              e1 = { e with
                     TargetEntity := e.TargetEntity.map FTargetEntityFragment.ResetEntity })
            ∧ (e.MatchesInvalidateTargetsQuery = false → e1 = e)
            ∧ e1.MoveTarget = e.MoveTarget
            ∧ e1.NavMeshMove = e.NavMeshMove
            ∧ e1.TargetEntity.map FTargetEntityFragment.TargetMinCaliberForDamage
                = e.TargetEntity.map FTargetEntityFragment.TargetMinCaliberForDamage)
        ∧ e1.StashedMoveTarget = e.StashedMoveTarget
        ∧ e1.Transform = e.Transform)
      Entities Entities1 := by
  obtain ⟨hF, -, -⟩ := ProcessInvalidTargets_spec _ _ _ _ _ _ _ h
  refine hF.imp ?_
  rintro e e1 ⟨Step, hs, rfl⟩
  have hfr := ProcessInvalidTarget_frame _ _ _ _ _ hs
  refine ⟨?_, ?_, hfr.1, hfr.2.1⟩
  · intro hI
    have hm : (e.MatchesInvalidateTargetsQuery
        && EntitiesWithInvalidTargets.contains e.Handle) = false := by
      simp [hI]
    rw [ProcessInvalidTarget_skip _ _ _ _ hm] at hs
    cases hs
    rfl
  · intro hI hr
    cases hq : e.MatchesInvalidateTargetsQuery
    · have hm : (e.MatchesInvalidateTargetsQuery
          && EntitiesWithInvalidTargets.contains e.Handle) = false := by
        simp [hq]
      rw [ProcessInvalidTarget_skip _ _ _ _ hm] at hs
      cases hs
      simp
    · have hm : (e.MatchesInvalidateTargetsQuery
          && EntitiesWithInvalidTargets.contains e.Handle) = true := by
        simp [hq, hI]
      rw [ProcessInvalidTarget_plain _ _ _ _ hm hr] at hs
      cases hs
      refine ⟨fun _ => rfl, fun hc => absurd hc (by simp), rfl, rfl, ?_⟩
      cases e.TargetEntity <;> rfl

/-- Witness of C18: the Applier pass on the store of `ExampleSoldierState` with
the invalid set holding `ExampleTracker`. -/
theorem C18_applier_frame_witness :
    ∃ Entities1 Unstashed Entered,
      ProcessInvalidTargets ExampleExternals { TimeSeconds := 0 } [ExampleTracker.Handle]
        ExampleSoldierState.EntitySubsystem.Entities = some (Entities1, Unstashed, Entered)
      ∧ List.Forall₂
          (fun e e1 =>
            (e.Handle ∉ [ExampleTracker.Handle] → e1 = e)
            ∧ e1.StashedMoveTarget = e.StashedMoveTarget
            ∧ e1.Transform = e.Transform)
          ExampleSoldierState.EntitySubsystem.Entities Entities1 :=
  have hs : (ProcessInvalidTargets ExampleExternals { TimeSeconds := 0 } [ExampleTracker.Handle]
      ExampleSoldierState.EntitySubsystem.Entities).isSome = true := by decide
  match h : ProcessInvalidTargets ExampleExternals { TimeSeconds := 0 } [ExampleTracker.Handle]
      ExampleSoldierState.EntitySubsystem.Entities, hs with
  | some (Entities1, Unstashed, Entered), _ =>
    ⟨Entities1, Unstashed, Entered, rfl,
      (C18_applier_frame ExampleExternals { TimeSeconds := 0 } [ExampleTracker.Handle]
        ExampleSoldierState.EntitySubsystem.Entities Entities1 Unstashed Entered h).imp
        fun _ _ hp => ⟨hp.1, hp.2.2.1, hp.2.2.2⟩⟩
  | none, hn => Bool.noConfusion hn


/-- Claim C19: two calls of `IsTargetValid` with the existence-only flag set,
the same target identity, the same invalidate-all value and stores that agree
on the liveness of the target return the same result, whatever the agents,
transforms, team flags, class flags, calibers, grids and external functions
are: the result is valid exactly when the flag is clear and the target is
live. -/
theorem C19_existence_only_noninterference (ext1 ext2 : FExternals)
    (Entity1 Entity2 TargetEntity : FMassEntityHandle)
    (EntitySubsystem1 EntitySubsystem2 : UMassEntitySubsystem)
    (Caliber1 Caliber2 : ℚ) (TargetFinderSubsystem1 TargetFinderSubsystem2 :
      UMassTargetFinderSubsystem)
    (Team1 Team2 Soldier1 Soldier2 : Bool) (Transform1 Transform2 : FTransform)
    (bInvalidateAllTargets : Bool)
    (hlive : EntitySubsystem1.IsEntityValid TargetEntity
      = EntitySubsystem2.IsEntityValid TargetEntity) :
    IsTargetValid ext1 Entity1 TargetEntity EntitySubsystem1 Caliber1 TargetFinderSubsystem1
        Team1 Soldier1 Transform1 bInvalidateAllTargets true
      = IsTargetValid ext2 Entity2 TargetEntity EntitySubsystem2 Caliber2
          TargetFinderSubsystem2 Team2 Soldier2 Transform2 bInvalidateAllTargets true
    ∧ IsTargetValid ext1 Entity1 TargetEntity EntitySubsystem1 Caliber1 TargetFinderSubsystem1
        Team1 Soldier1 Transform1 bInvalidateAllTargets true
      = some (!bInvalidateAllTargets && EntitySubsystem1.IsEntityValid TargetEntity) := by
  rw [IsTargetValid_existenceOnly, IsTargetValid_existenceOnly, hlive]
  exact ⟨rfl, rfl⟩

/-- Witness of C19: the dead target (7, 1) seen from two different jobs, stores
and grids. -/
theorem C19_existence_only_noninterference_witness :
    ExampleSoldierState.EntitySubsystem.IsEntityValid { Index := 7, SerialNumber := 1 }
      = ExampleTrackerState.EntitySubsystem.IsEntityValid { Index := 7, SerialNumber := 1 }
    ∧ IsTargetValid ExampleExternals { Index := 2, SerialNumber := 1 }
        { Index := 7, SerialNumber := 1 } ExampleSoldierState.EntitySubsystem 0
        ExampleEmptyFinder true true ExampleTransform false true
      = IsTargetValid ExampleCollidingExternals { Index := 1, SerialNumber := 1 }
        { Index := 7, SerialNumber := 1 } ExampleTrackerState.EntitySubsystem 3
        ExampleTargetFinder false false
        { ExampleTransform with Translation := { X := 4, Y := 0, Z := 0 } } false true :=
  have hl : ExampleSoldierState.EntitySubsystem.IsEntityValid { Index := 7, SerialNumber := 1 }
      = ExampleTrackerState.EntitySubsystem.IsEntityValid { Index := 7, SerialNumber := 1 } := by
    decide
  ⟨hl, (C19_existence_only_noninterference ExampleExternals ExampleCollidingExternals
    { Index := 2, SerialNumber := 1 } { Index := 1, SerialNumber := 1 }
    { Index := 7, SerialNumber := 1 } ExampleSoldierState.EntitySubsystem
    ExampleTrackerState.EntitySubsystem 0 3 ExampleEmptyFinder ExampleTargetFinder true false
    true false ExampleTransform
    { ExampleTransform with Translation := { X := 4, Y := 0, Z := 0 } } false hl).1⟩


/-- Claim C20: for a full job whose target is live, has a transform, is not out
of range and is not the agent itself, when the target is among the broad-phase
candidates (all of which have dynamic data), its grid item is on the team of
the agent or cannot damage the target, and its stored capsule intersects the
projectile trace capsule, `IsTargetEntityObstructed` returns true and
`IsTargetValid` returns false, for every visibility trace. -/
theorem C20_target_not_exempt (ext : FExternals) (Entity TargetEntity : FMassEntityHandle)
    (EntitySubsystem : UMassEntitySubsystem) (TargetMinCaliberForDamage : ℚ)
    (TargetFinderSubsystem : UMassTargetFinderSubsystem) (IsEntityOnTeam1 bIsEntitySoldier : Bool)
    (EntityTransform : FTransform) (View : FEntity) (Tf : FTransformFragment)
    (Item : FMassTargetGridItem) (Data : FMassTargetDynamicData)
    (hview : EntitySubsystem.View TargetEntity = some View)
    (htf : View.Transform = some Tf)
    (hrange : IsTargetEntityOutOfRange ext Tf.GetTransform.GetLocation
      EntityTransform.GetLocation Entity bIsEntitySoldier = false)
    (hitem : Item ∈ TargetFinderSubsystem.Query
      (QueryBounds EntityTransform.GetLocation Tf.GetTransform.GetLocation))
    (htarget : Item.Entity = TargetEntity)
    (hself : TargetEntity ≠ Entity)
    (hteam : Item.bIsOnTeam1 = IsEntityOnTeam1
      ∨ ext.CanEntityDamageTargetEntity TargetMinCaliberForDamage Item.MinCaliberForDamage
          = false)
    (hcapsule : TargetFinderSubsystem.TargetDynamicData TargetEntity = some Data)
    (hhit : ext.TestCapsuleCapsule
      (ext.GetProjectileTraceCapsuleToTarget bIsEntitySoldier
        (View.HasTag FTag.FMassProjectileDamagableSoldierTag) EntityTransform
        Tf.GetTransform.GetLocation) Data.Capsule = true)
    (hdata : ∀ o ∈ TargetFinderSubsystem.Query
      (QueryBounds EntityTransform.GetLocation Tf.GetTransform.GetLocation),
      (TargetFinderSubsystem.TargetDynamicData o.Entity).isSome = true) :
    IsTargetEntityObstructed ext EntityTransform.GetLocation Tf.GetTransform.GetLocation
        TargetFinderSubsystem Entity EntitySubsystem IsEntityOnTeam1 bIsEntitySoldier
        TargetMinCaliberForDamage View EntityTransform = some true
    ∧ IsTargetValid ext Entity TargetEntity EntitySubsystem TargetMinCaliberForDamage
        TargetFinderSubsystem IsEntityOnTeam1 bIsEntitySoldier EntityTransform false false
        = some false := by
  have hlive : EntitySubsystem.IsEntityValid TargetEntity = true := by
    rw [← UMassEntitySubsystem.View_isSome, hview]; rfl
  have hl := ProcessCloseEntities_eq ext TargetFinderSubsystem Entity EntitySubsystem
    IsEntityOnTeam1 TargetMinCaliberForDamage
    (ext.GetProjectileTraceCapsuleToTarget bIsEntitySoldier
      (View.HasTag FTag.FMassProjectileDamagableSoldierTag) EntityTransform
      Tf.GetTransform.GetLocation)
    (TargetFinderSubsystem.Query
      (QueryBounds EntityTransform.GetLocation Tf.GetTransform.GetLocation)) hdata
  have hany : (TargetFinderSubsystem.Query
      (QueryBounds EntityTransform.GetLocation Tf.GetTransform.GetLocation)).any
      (SpecObstructingCandidate ext TargetFinderSubsystem Entity EntitySubsystem
        IsEntityOnTeam1 TargetMinCaliberForDamage
        (ext.GetProjectileTraceCapsuleToTarget bIsEntitySoldier
          (View.HasTag FTag.FMassProjectileDamagableSoldierTag) EntityTransform
          Tf.GetTransform.GetLocation)) = true := by
    rw [List.any_eq_true]
    refine ⟨Item, hitem, ?_⟩
    have h1 : Item.Entity ≠ Entity := by rw [htarget]; exact hself
    have h2 : EntitySubsystem.IsEntityValid Item.Entity = true := by rw [htarget]; exact hlive
    have h3 : TargetFinderSubsystem.TargetDynamicData Item.Entity = some Data := by
      rw [htarget]; exact hcapsule
    rcases hteam with ht | ht
    · simp [SpecObstructingCandidate, h1, h2, h3, ht, hhit]
    · simp [SpecObstructingCandidate, h1, h2, h3, ht, hhit]
  rw [hany] at hl
  have hO := IsTargetEntityObstructed_of_loop ext EntityTransform.GetLocation
    Tf.GetTransform.GetLocation TargetFinderSubsystem Entity EntitySubsystem IsEntityOnTeam1
    bIsEntitySoldier TargetMinCaliberForDamage View EntityTransform true hl
  rw [Bool.true_or] at hO
  refine ⟨hO, ?_⟩
  rw [IsTargetValid_full ext Entity TargetEntity EntitySubsystem TargetMinCaliberForDamage
    TargetFinderSubsystem IsEntityOnTeam1 bIsEntitySoldier EntityTransform View Tf hview htf,
    hrange, hO]
  rfl

/-- Witness of C20: the agent (1, 1) on team 1 engages `ExampleSoldier`, which
is on team 1, is returned by the grid and whose capsule intersects the trace
capsule, while every trace is clear. -/
theorem C20_target_not_exempt_witness :
    ExampleSoldierState.EntitySubsystem.View { Index := 2, SerialNumber := 1 }
      = some ExampleSoldier
    ∧ IsTargetEntityOutOfRange ExampleCollidingExternals { X := 0, Y := 0, Z := 0 }
        { X := 0, Y := 0, Z := 0 } { Index := 1, SerialNumber := 1 } true = false
    ∧ ExampleCollidingExternals.IsTargetEntityVisibleViaSphereTrace
        { X := 0, Y := 0, Z := 0 } { X := 0, Y := 0, Z := 0 } = true
    ∧ IsTargetEntityObstructed ExampleCollidingExternals ExampleTransform.GetLocation
        ExampleTransform.GetLocation ExampleTargetFinder { Index := 1, SerialNumber := 1 }
        ExampleSoldierState.EntitySubsystem true true 0 ExampleSoldier ExampleTransform
        = some true
    ∧ IsTargetValid ExampleCollidingExternals { Index := 1, SerialNumber := 1 }
        { Index := 2, SerialNumber := 1 } ExampleSoldierState.EntitySubsystem 0
        ExampleTargetFinder true true ExampleTransform false false = some false :=
  have hv : ExampleSoldierState.EntitySubsystem.View { Index := 2, SerialNumber := 1 }
      = some ExampleSoldier := by decide
  have hr : IsTargetEntityOutOfRange ExampleCollidingExternals { X := 0, Y := 0, Z := 0 }
      { X := 0, Y := 0, Z := 0 } { Index := 1, SerialNumber := 1 } true = false := by
    with_unfolding_all decide
  have hc := C20_target_not_exempt ExampleCollidingExternals { Index := 1, SerialNumber := 1 }
    { Index := 2, SerialNumber := 1 } ExampleSoldierState.EntitySubsystem 0 ExampleTargetFinder
    true true ExampleTransform ExampleSoldier { Transform := ExampleTransform } ExampleGridItem
    { Capsule := { a := { X := 0, Y := 0, Z := 0 }, b := { X := 0, Y := 0, Z := 1 }, r := 1 } }
    hv rfl hr (by decide) rfl (by decide) (Or.inl rfl) rfl rfl (by decide)
  ⟨hv, hr, rfl, hc.1, hc.2⟩


end ProjectM
